import Mathlib

/-!
# Ray tracer: transforms, intersections, shading and the scene reader

A shallow embedding of the geometric core of the ray tracer (`Matrix`, `Vector`,
`Transform`, `Sphere`, `Cone`, `CSG`, `Scene`, `utility.h`) and of its scene file reader
(`SceneReader`), together with theorems about them.

The C++ code computes with `double`.  The embedding is written over an arbitrary
linearly ordered field `K`, so every definition is executable (for instance over `ℚ`);
the functions of the C math library that the code calls (`cos`, `sin`, `sqrt`, `pow`, `M_PI`)
are passed in as a record `Libm K`, and `strtod` and the conversion to `int` as a record
`Libc K`.  The theorems are stated over exact real arithmetic, `K = ℝ` with `Libm.real`.
-/

namespace RayTracer

/-! ## The C math library -/

/-- The functions and constants of `<cmath>` used by the program. -/
structure Libm (K : Type) where
  /-- The function `cos`. -/
  cos : K → K
  /-- The function `sin`. -/
  sin : K → K
  /-- The function `sqrt`. -/
  sqrt : K → K
  /-- The function `pow`. -/
  pow : K → K → K
  /-- The constant `M_PI`. -/
  pi : K

/-- The math library over exact real arithmetic. -/
noncomputable def Libm.real : Libm ℝ where
  cos := Real.cos
  sin := Real.sin
  sqrt := Real.sqrt
  pow := fun x y => x ^ y
  pi := Real.pi

section Defs

variable {K : Type} [LinearOrderedField K]

/-! ## utility.h -/

/-- The constant `const double epsilon = 1e-6`. -/
def epsilon : K := 1 / 1000000

/-- The constant `const double infinity = std::numeric_limits<double>::max()`, the largest
finite `double`, `(2 - 2^(-52)) * 2^1023`. -/
def infinity : K := (2 - 1 / 2 ^ 52) * 2 ^ 1023

/-- The function `deg2rad`: `deg*M_PI/180`. -/
def deg2rad (m : Libm K) (deg : K) : K :=
  deg * m.pi / 180

/-- The function `sign`: `0` when `|val| < epsilon`, else `-1` for negative values and `1`
for the rest. -/
def sign (val : K) : Int :=
  if |val| < epsilon then 0
  else if val < 0 then -1
  else 1

/-! ## Matrix and Vector

The C++ `Matrix` stores `rows_`, `cols_` and a column-major `data_`; `operator()(r,c)` reads
`data_[c*rows_ + r]`.  Here a matrix is the function `(r,c) ↦ M(r,c)` with the sizes in the
type, so the size assertions of the C++ code hold by typing.  A `Vector` is a matrix with one
column, indexed by its row.  The elementwise operators of `Matrix` and `Vector` (`+`, `-`,
unary `-`, multiplication by a scalar) are the pointwise operations on these functions. -/

/-- A `Matrix` with `rows` rows and `cols` columns. -/
abbrev Mat (K : Type) (rows cols : Nat) := Matrix (Fin rows) (Fin cols) K

/-- A `Vector` with `size` entries. -/
abbrev Vec (K : Type) (size : Nat) := Fin size → K

/-- The function `Matrix::identity`: all zero, then `I(i,i) = 1`. -/
def Mat.identity {rows cols : Nat} : Mat K rows cols :=
  fun r c => if r.val = c.val then 1 else 0

/-- Assignment to one entry, `M(row,col) = x`. -/
def Mat.set {rows cols : Nat} (M : Mat K rows cols) (row : Fin rows) (col : Fin cols) (x : K) :
    Mat K rows cols :=
  fun r c => if r = row ∧ c = col then x else M r c

/-- The operator `operator*(const Matrix&, const Matrix&)`: `result(r,c) = 0` and then
`result(r,c) += lhs(r,i)*rhs(i,c)` for `i = 0 .. lhs.cols_ - 1`. -/
def Mat.mul {n k p : Nat} (lhs : Mat K n k) (rhs : Mat K k p) : Mat K n p :=
  fun r c => Fin.foldl k (fun acc i => acc + lhs r i * rhs i c) 0

/-- The function `Matrix::transpose`: `result(c,r) = (*this)(r,c)`. -/
def Mat.transpose {rows cols : Nat} (M : Mat K rows cols) : Mat K cols rows :=
  fun c r => M r c

/-- The product `M*v` of a matrix and a `Vector` (a one-column matrix), by `operator*`. -/
def Mat.mulVec {n k : Nat} (M : Mat K n k) (v : Vec K k) : Vec K n :=
  fun r => Fin.foldl k (fun acc i => acc + M r i * v i) 0

/-- The function `Vector::dot`: `sum = 0` and then `sum += data_[i] * vec.data_[i]`. -/
def Vec.dot {size : Nat} (u v : Vec K size) : K :=
  Fin.foldl size (fun sum i => sum + u i * v i) 0

/-- The function `Vector::squaredNorm`: `dot(*this)`. -/
def Vec.squaredNorm {size : Nat} (v : Vec K size) : K :=
  Vec.dot v v

/-- The function `Vector::norm`: `std::sqrt(dot(*this))`. -/
def Vec.norm {size : Nat} (m : Libm K) (v : Vec K size) : K :=
  m.sqrt (Vec.dot v v)

/-- The operator `operator/(const Vector&, double)`: every entry is divided by `s`. -/
def Vec.div {size : Nat} (v : Vec K size) (s : K) : Vec K size :=
  fun i => v i / s

/-- The class `Point`: a `Vector` of size 3. -/
abbrev Point (K : Type) := Vec K 3

/-- The class `Direction`: a `Vector` of size 3. -/
abbrev Direction (K : Type) := Vec K 3

/-- The class `Normal`: a `Vector` of size 3. -/
abbrev Normal (K : Type) := Vec K 3

/-- The class `Ray`: a starting `Point` and a `Direction`. -/
structure Ray (K : Type) where
  point : Point K
  direction : Direction K

/-! ## Transform -/

/-- The class `Transform`: the 4x4 homogeneous matrix `T_` and the inverse matrix `Tinv_`. -/
structure Transform (K : Type) where
  T_ : Mat K 4 4
  Tinv_ : Mat K 4 4

namespace Transform

/-- The function `Transform::Transform()`: both matrices are `Matrix::identity(4,4)`. -/
def identity : Transform K :=
  { T_ := Mat.identity, Tinv_ := Mat.identity }

/-- The function `Transform::apply(const Point&)` -/
def applyPoint (t : Transform K) (point : Point K) : Point K :=
  let v : Vec K 4 := ![point 0, point 1, point 2, 1]
  let v := Mat.mulVec t.T_ v
  ![v 0 / v 3, v 1 / v 3, v 2 / v 3]

/-- The function `Transform::apply(const Direction&)` -/
def applyDirection (t : Transform K) (direction : Direction K) : Direction K :=
  let v : Vec K 4 := ![direction 0, direction 1, direction 2, 0]
  let v := Mat.mulVec t.T_ v
  ![v 0, v 1, v 2]

/-- The function `Transform::apply(const Normal&)` -/
def applyNormal (t : Transform K) (normal : Normal K) : Normal K :=
  let v : Vec K 4 := ![normal 0, normal 1, normal 2, 0]
  let v := Mat.mulVec (Mat.transpose t.Tinv_) v
  ![v 0, v 1, v 2]

/-- The function `Transform::apply(const Ray&)` -/
def applyRay (t : Transform K) (ray : Ray K) : Ray K :=
  { point := t.applyPoint ray.point, direction := t.applyDirection ray.direction }

/-- The function `Transform::applyInverse(const Point&)` -/
def applyInversePoint (t : Transform K) (point : Point K) : Point K :=
  let v : Vec K 4 := ![point 0, point 1, point 2, 1]
  let v := Mat.mulVec t.Tinv_ v
  ![v 0 / v 3, v 1 / v 3, v 2 / v 3]

/-- The function `Transform::applyInverse(const Direction&)` -/
def applyInverseDirection (t : Transform K) (direction : Direction K) : Direction K :=
  let v : Vec K 4 := ![direction 0, direction 1, direction 2, 0]
  let v := Mat.mulVec t.Tinv_ v
  ![v 0, v 1, v 2]

/-- The function `Transform::applyInverse(const Normal&)` -/
def applyInverseNormal (t : Transform K) (normal : Normal K) : Normal K :=
  let v : Vec K 4 := ![normal 0, normal 1, normal 2, 0]
  let v := Mat.mulVec (Mat.transpose t.T_) v
  ![v 0, v 1, v 2]

/-- The function `Transform::applyInverse(const Ray&)` -/
def applyInverseRay (t : Transform K) (ray : Ray K) : Ray K :=
  { point := t.applyInversePoint ray.point,
    direction := t.applyInverseDirection ray.direction }

/-- The function `Transform::rotateX` -/
def rotateX (m : Libm K) (t : Transform K) (rx : K) : Transform K :=
  let R : Mat K 4 4 := Mat.identity
  let rx := deg2rad m rx
  let R := (R.set 2 2 (m.cos rx)).set 1 1 (m.cos rx)
  let R := R.set 1 2 (-m.sin rx)
  let R := R.set 2 1 (m.sin rx)
  { T_ := Mat.mul R t.T_, Tinv_ := Mat.mul t.Tinv_ (Mat.transpose R) }

/-- The function `Transform::rotateY` -/
def rotateY (m : Libm K) (t : Transform K) (ry : K) : Transform K :=
  let R : Mat K 4 4 := Mat.identity
  let ry := deg2rad m ry
  let R := (R.set 2 2 (m.cos ry)).set 0 0 (m.cos ry)
  let R := R.set 0 2 (m.sin ry)
  let R := R.set 2 0 (-m.sin ry)
  { T_ := Mat.mul R t.T_, Tinv_ := Mat.mul t.Tinv_ (Mat.transpose R) }

/-- The function `Transform::rotateZ` -/
def rotateZ (m : Libm K) (t : Transform K) (rz : K) : Transform K :=
  let R : Mat K 4 4 := Mat.identity
  let rz := deg2rad m rz
  let R := (R.set 1 1 (m.cos rz)).set 0 0 (m.cos rz)
  let R := R.set 0 1 (-m.sin rz)
  let R := R.set 1 0 (m.sin rz)
  { T_ := Mat.mul R t.T_, Tinv_ := Mat.mul t.Tinv_ (Mat.transpose R) }

/-- The function `Transform::scale(double s)` -/
def scale (t : Transform K) (s : K) : Transform K :=
  let S : Mat K 4 4 := Mat.identity
  let S := ((S.set 2 2 s).set 1 1 s).set 0 0 s
  let T_ := Mat.mul S t.T_
  let S := ((S.set 2 2 (1 / s)).set 1 1 (1 / s)).set 0 0 (1 / s)
  { T_ := T_, Tinv_ := Mat.mul t.Tinv_ S }

/-- The function `Transform::scale(double sx, double sy, double sz)` -/
def scale3 (t : Transform K) (sx sy sz : K) : Transform K :=
  let S : Mat K 4 4 := Mat.identity
  let S := ((S.set 0 0 sx).set 1 1 sy).set 2 2 sz
  let T_ := Mat.mul S t.T_
  let S := ((S.set 0 0 (1 / sx)).set 1 1 (1 / sy)).set 2 2 (1 / sz)
  { T_ := T_, Tinv_ := Mat.mul t.Tinv_ S }

/-- The function `Transform::translate(double tx, double ty, double tz)` -/
def translate (t : Transform K) (tx ty tz : K) : Transform K :=
  let T : Mat K 4 4 := Mat.identity
  let T := ((T.set 0 3 tx).set 1 3 ty).set 2 3 tz
  let T_ := Mat.mul T t.T_
  let T := ((T.set 0 3 (-tx)).set 1 3 (-ty)).set 2 3 (-tz)
  { T_ := T_, Tinv_ := Mat.mul t.Tinv_ T }

end Transform

/-- One call of a mutator of `Transform`, with its arguments. -/
inductive Op (K : Type) where
  | rotateX (rx : K)
  | rotateY (ry : K)
  | rotateZ (rz : K)
  | scale (s : K)
  | scale3 (sx sy sz : K)
  | translate (tx ty tz : K)

/-- Perform the mutator call `op` on the transform `t`. -/
def Op.run (m : Libm K) (t : Transform K) : Op K → Transform K
  | .rotateX rx => t.rotateX m rx
  | .rotateY ry => t.rotateY m ry
  | .rotateZ rz => t.rotateZ m rz
  | .scale s => t.scale s
  | .scale3 sx sy sz => t.scale3 sx sy sz
  | .translate tx ty tz => t.translate tx ty tz

/-- The scale factors of the call are all non-zero (no condition on the other mutators). -/
def Op.NonZero : Op K → Prop
  | .scale s => s ≠ 0
  | .scale3 sx sy sz => sx ≠ 0 ∧ sy ≠ 0 ∧ sz ≠ 0
  | _ => True

/-- The transform obtained from the default (identity) transform by the mutator calls `ops`,
performed in list order. -/
def Transform.build (m : Libm K) (ops : List (Op K)) : Transform K :=
  ops.foldl (Op.run m) Transform.identity

/-! ## Material, RayIntersection, Sphere -/

/-- The class `Colour`: an RGB triple. -/
structure Colour (K : Type) where
  red : K
  green : K
  blue : K

/-- The class `Material`: the colours and the specular exponent of a surface. -/
structure Material (K : Type) where
  ambientColour : Colour K
  diffuseColour : Colour K
  specularColour : Colour K
  specularExponent : K
  mirrorColour : Colour K

/-- The class `RayIntersection`: what is stored about one intersection of a `Ray` and an
`Object`. -/
structure RayIntersection (K : Type) where
  point : Point K
  normal : Normal K
  material : Material K
  distance : K

/-- The class `Sphere`: an `Object` (a `transform` and a `material`); the unit sphere at the
local origin. -/
structure Sphere (K : Type) where
  transform : Transform K
  material : Material K

/-- The block of `Sphere::intersect` that fills in `hit` for a root `d` (the same statements
in all three places): the point and the normal are mapped to world space, the normal is
negated when `hit.normal.dot(ray.direction) > 0`, and the distance is
`(hit.point - ray.point).norm() * sign(d)`. -/
def Sphere.hitAt (m : Libm K) (s : Sphere K) (ray inverseRay : Ray K) (d : K) :
    RayIntersection K :=
  let point := s.transform.applyPoint (inverseRay.point + d • inverseRay.direction)
  let normal := s.transform.applyNormal (inverseRay.point + d • inverseRay.direction)
  let normal := if Vec.dot normal ray.direction > 0 then -normal else normal
  { point := point
    normal := normal
    material := s.material
    distance := Vec.norm m (point - ray.point) * ((sign d : Int) : K) }

/-- The function `Sphere::intersect`.  The result is `none` on the `default:` branch of the
switch, where the program prints a message and calls `exit(-1)`. -/
def Sphere.intersect (m : Libm K) (s : Sphere K) (ray : Ray K) :
    Option (List (RayIntersection K)) :=
  let result : List (RayIntersection K) := []
  let inverseRay := s.transform.applyInverseRay ray
  let a := Vec.squaredNorm inverseRay.direction
  let b := 2 * Vec.dot inverseRay.direction inverseRay.point
  let c := Vec.squaredNorm inverseRay.point - 1
  let b2_4ac := b * b - 4 * a * c
  let sw := sign b2_4ac
  if sw = -1 then
    some result
  else if sw = 0 then
    let d := -b / (2 * a)
    let result := if d > 0 then result ++ [s.hitAt m ray inverseRay d] else result
    some result
  else if sw = 1 then
    let d := (-b + m.sqrt (b * b - 4 * a * c)) / (2 * a)
    let result := if d > 0 then result ++ [s.hitAt m ray inverseRay d] else result
    let d := (-b - m.sqrt (b * b - 4 * a * c)) / (2 * a)
    let result := if d > 0 then result ++ [s.hitAt m ray inverseRay d] else result
    some result
  else
    none

/-! ## The elementary matrices

The textbook homogeneous matrices of the elementary transformations, written out entry by
entry; the mutators are compared with them below. -/

/-- Rotation about the X axis by `deg` degrees. -/
def rotationX (m : Libm K) (deg : K) : Mat K 4 4 :=
  !![1, 0, 0, 0;
     0, m.cos (deg2rad m deg), -m.sin (deg2rad m deg), 0;
     0, m.sin (deg2rad m deg), m.cos (deg2rad m deg), 0;
     0, 0, 0, 1]

/-- Rotation about the Y axis by `deg` degrees. -/
def rotationY (m : Libm K) (deg : K) : Mat K 4 4 :=
  !![m.cos (deg2rad m deg), 0, m.sin (deg2rad m deg), 0;
     0, 1, 0, 0;
     -m.sin (deg2rad m deg), 0, m.cos (deg2rad m deg), 0;
     0, 0, 0, 1]

/-- Rotation about the Z axis by `deg` degrees. -/
def rotationZ (m : Libm K) (deg : K) : Mat K 4 4 :=
  !![m.cos (deg2rad m deg), -m.sin (deg2rad m deg), 0, 0;
     m.sin (deg2rad m deg), m.cos (deg2rad m deg), 0, 0;
     0, 0, 1, 0;
     0, 0, 0, 1]

/-- Scaling by `sx`, `sy`, `sz` along the axes. -/
def scaling (sx sy sz : K) : Mat K 4 4 :=
  !![sx, 0, 0, 0;
     0, sy, 0, 0;
     0, 0, sz, 0;
     0, 0, 0, 1]

/-- Translation by `(tx, ty, tz)`. -/
def translation (tx ty tz : K) : Mat K 4 4 :=
  !![1, 0, 0, tx;
     0, 1, 0, ty;
     0, 0, 1, tz;
     0, 0, 0, 1]

/-- The elementary matrix `E` of a mutator call. -/
def Op.elementary (m : Libm K) : Op K → Mat K 4 4
  | .rotateX rx => rotationX m rx
  | .rotateY ry => rotationY m ry
  | .rotateZ rz => rotationZ m rz
  | .scale s => scaling s s s
  | .scale3 sx sy sz => scaling sx sy sz
  | .translate tx ty tz => translation tx ty tz

/-- The call of the same kind with negated angle, reciprocal scale factors, or negated
translation. -/
def Op.inverse : Op K → Op K
  | .rotateX rx => .rotateX (-rx)
  | .rotateY ry => .rotateY (-ry)
  | .rotateZ rz => .rotateZ (-rz)
  | .scale s => .scale (1 / s)
  | .scale3 sx sy sz => .scale3 (1 / sx) (1 / sy) (1 / sz)
  | .translate tx ty tz => .translate (-tx) (-ty) (-tz)

/-- The function `Material::Material()`: the default material. -/
def Material.default : Material K :=
  { ambientColour := ⟨1, 1, 1⟩
    diffuseColour := ⟨1, 1, 1⟩
    specularColour := ⟨0, 0, 0⟩
    specularExponent := 1
    mirrorColour := ⟨0, 0, 0⟩ }

/-- The function `Sphere::Sphere()`: identity transform and default material. -/
def Sphere.default : Sphere K :=
  { transform := Transform.identity, material := Material.default }

/-! ## Predicates used in the statements -/

/-- The bottom row of the matrix is `(0, 0, 0, 1)`. -/
def Mat.Affine (M : Mat K 4 4) : Prop :=
  M 3 0 = 0 ∧ M 3 1 = 0 ∧ M 3 2 = 0 ∧ M 3 3 = 1

/-- Homogeneous form of a 3-vector with last coordinate `w`. -/
def hom (v : Vec K 3) (w : K) : Vec K 4 :=
  ![v 0, v 1, v 2, w]

/-- The first three coordinates of a 4-vector. -/
def proj3 (v : Vec K 4) : Vec K 3 :=
  ![v 0, v 1, v 2]

/-- Both matrices of the transform have bottom row `(0, 0, 0, 1)`. -/
def Transform.Affine (t : Transform ℝ) : Prop :=
  Mat.Affine t.T_ ∧ Mat.Affine t.Tinv_

/-- The two matrices of the transform are inverse to each other. -/
def Transform.Inverse (t : Transform ℝ) : Prop :=
  t.T_ * t.Tinv_ = 1 ∧ t.Tinv_ * t.T_ = 1

/-- The discriminant `b2_4ac` that `Sphere::intersect` computes for the ray, from
`a = |d|^2`, `b = 2 (d . o)` and `c = |o|^2 - 1` of the local ray `(o, d)`. -/
def Sphere.discriminant (s : Sphere K) (ray : Ray K) : K :=
  let inverseRay := s.transform.applyInverseRay ray
  let a := Vec.squaredNorm inverseRay.direction
  let b := 2 * Vec.dot inverseRay.direction inverseRay.point
  let c := Vec.squaredNorm inverseRay.point - 1
  b * b - 4 * a * c

/-- The coefficient `a` of `Sphere::intersect`. -/
def Sphere.coeffA (s : Sphere K) (ray : Ray K) : K :=
  Vec.squaredNorm (s.transform.applyInverseRay ray).direction

/-- The coefficient `b` of `Sphere::intersect`. -/
def Sphere.coeffB (s : Sphere K) (ray : Ray K) : K :=
  2 * Vec.dot (s.transform.applyInverseRay ray).direction (s.transform.applyInverseRay ray).point

/-- The coefficient `c` of `Sphere::intersect`. -/
def Sphere.coeffC (s : Sphere K) (ray : Ray K) : K :=
  Vec.squaredNorm (s.transform.applyInverseRay ray).point - 1

/-! ## Colour -/

/-- The operator `operator+(const Colour&, const Colour&)`: channel by channel. -/
def Colour.add (lhs rhs : Colour K) : Colour K :=
  { red := lhs.red + rhs.red, green := lhs.green + rhs.green, blue := lhs.blue + rhs.blue }

/-- The operator `operator*(const Colour&, const Colour&)`: channel by channel. -/
def Colour.mul (lhs rhs : Colour K) : Colour K :=
  { red := lhs.red * rhs.red, green := lhs.green * rhs.green, blue := lhs.blue * rhs.blue }

/-- The operator `operator*(const Colour&, double)`: every channel is multiplied by `s`. -/
def Colour.scale (colour : Colour K) (s : K) : Colour K :=
  { red := colour.red * s, green := colour.green * s, blue := colour.blue * s }

instance : Add (Colour K) := ⟨Colour.add⟩

instance : Mul (Colour K) := ⟨Colour.mul⟩

instance : HMul (Colour K) K (Colour K) := ⟨Colour.scale⟩

/-- The function `Colour::clip`: each channel below 0 becomes 0, then each channel above 1
becomes 1. -/
def Colour.clip (colour : Colour K) : Colour K :=
  let red := if colour.red < 0 then 0 else colour.red
  let red := if red > 1 then 1 else red
  let green := if colour.green < 0 then 0 else colour.green
  let green := if green > 1 then 1 else green
  let blue := if colour.blue < 0 then 0 else colour.blue
  let blue := if blue > 1 then 1 else blue
  { red := red, green := green, blue := blue }

/-! ## LightSource -/

/-- The class `PointLightSource`, the one concrete `LightSource`: a `colour` and a
`location`. -/
structure PointLightSource (K : Type) where
  colour : Colour K
  location : Point K

/-- The function `PointLightSource::getIntensityAt`: `1 / distance^2`, with the distance to
the light raised to `epsilon` when it is smaller. -/
def PointLightSource.getIntensityAt (m : Libm K) (light : PointLightSource K)
    (point : Point K) : K :=
  let distance := Vec.norm m (light.location - point)
  let distance := if distance < epsilon then epsilon else distance
  1 / (distance * distance)

/-! ## Cone and CSG -/

/-- The class `Cone`: an `Object` (a `transform` and a `material`). -/
structure Cone (K : Type) where
  transform : Transform K
  material : Material K

/-- The function `Cone::intersect`: the ray is mapped to local space and the empty `result`
is returned. -/
def Cone.intersect (c : Cone K) (ray : Ray K) : Option (List (RayIntersection K)) :=
  let result : List (RayIntersection K) := []
  let _inverseRay := c.transform.applyInverseRay ray
  some result

/-- The enumeration `csg_state`. -/
inductive csg_state where
  | OUTSIDE
  | BORDER
  | INSIDE
  deriving DecidableEq

/-- The class `Object`, with its subclasses as constructors.  A `CSG` node carries its
`csgType` and the two child pointers `left` and `right`; `none` is the null pointer. -/
inductive Object (K : Type) where
  | sphere (s : Sphere K)
  | cone (c : Cone K)
  | csg (transform : Transform K) (material : Material K) (csgType : String)
      (left right : Option (Object K))

/-- Assignment to one entry of the table, `csg_table[i][j] = v`. -/
def CSG.tableSet (csg_table : csg_state → csg_state → csg_state) (i j v : csg_state) :
    csg_state → csg_state → csg_state :=
  fun a b => if a = i ∧ b = j then v else csg_table a b

/-- The table `csg_table` that `CSG::intersect` builds for the operation `csgType`. -/
def CSG.csgTable (csgType : String) : csg_state → csg_state → csg_state :=
  let csg_table : csg_state → csg_state → csg_state := fun _ _ => .OUTSIDE
  if csgType = "INTERSECTION" then
    let csg_table := CSG.tableSet csg_table .INSIDE .BORDER .BORDER
    let csg_table := CSG.tableSet csg_table .INSIDE .INSIDE .INSIDE
    let csg_table := CSG.tableSet csg_table .BORDER .INSIDE .BORDER
    csg_table
  else if csgType = "DIFFERENCE" then
    let csg_table := CSG.tableSet csg_table .INSIDE .OUTSIDE .INSIDE
    let csg_table := CSG.tableSet csg_table .BORDER .OUTSIDE .BORDER
    let csg_table := CSG.tableSet csg_table .INSIDE .BORDER .BORDER
    csg_table
  else if csgType = "UNION" then
    let csg_table := CSG.tableSet csg_table .INSIDE .OUTSIDE .INSIDE
    let csg_table := CSG.tableSet csg_table .BORDER .OUTSIDE .BORDER
    let csg_table := CSG.tableSet csg_table .INSIDE .INSIDE .INSIDE
    let csg_table := CSG.tableSet csg_table .OUTSIDE .INSIDE .INSIDE
    let csg_table := CSG.tableSet csg_table .BORDER .INSIDE .INSIDE
    let csg_table := CSG.tableSet csg_table .INSIDE .BORDER .INSIDE
    let csg_table := CSG.tableSet csg_table .OUTSIDE .BORDER .BORDER
    let csg_table := CSG.tableSet csg_table .BORDER .BORDER .BORDER
    csg_table
  else
    csg_table

/-- The local variables of `CSG::intersect` while it merges the two hit lists. -/
structure CSG.Locals (K : Type) where
  csg_table : csg_state → csg_state → csg_state
  leftState : csg_state
  rightState : csg_state
  previousLeftState : csg_state
  previousRightState : csg_state
  lIi : Nat
  rIi : Nat
  result : List (RayIntersection K)

/-- One iteration of the `while` loop of `CSG::intersect`: `lIi` or `rIi` is incremented.
The result is `none` when an element is read outside its list. -/
def CSG.mergeStep (leftIntersections rightIntersections : List (RayIntersection K))
    (st : CSG.Locals K) : Option (CSG.Locals K) :=
  let numLeftIs := leftIntersections.length
  let numRightIs := rightIntersections.length
  if st.rIi = numRightIs then
    some { st with lIi := st.lIi + 1 }
  else if st.lIi < numLeftIs then
    match leftIntersections[st.lIi]?, rightIntersections[st.rIi]? with
    | some l, some r =>
      if l.distance < r.distance then some { st with lIi := st.lIi + 1 }
      else some { st with rIi := st.rIi + 1 }
    | _, _ => none
  else
    some { st with rIi := st.rIi + 1 }

/-- The `while( lIi < numLeftIs || rIi < numRightIs )` loop of `CSG::intersect`, run for at
most `fuel` iterations; the result is `none` when the fuel runs out before the loop ends. -/
def CSG.mergeLoop (leftIntersections rightIntersections : List (RayIntersection K)) :
    Nat → CSG.Locals K → Option (CSG.Locals K)
  | fuel, st =>
    if st.lIi < leftIntersections.length ∨ st.rIi < rightIntersections.length then
      match fuel with
      | 0 => none
      | fuel + 1 =>
        (CSG.mergeStep leftIntersections rightIntersections st).bind
          (CSG.mergeLoop leftIntersections rightIntersections fuel)
    else
      some st

/-- The part of `CSG::intersect` after the two children have been intersected: the two lists
are sorted by distance (`std::sort` with `nearer`; here a stable insertion sort, the order of
hits at equal distance being unspecified in C++), the states are initialised by the parity of
the numbers of hits, and the lists are merged.  The loop is given `numLeftIs + numRightIs`
iterations. -/
def CSG.merge (csgType : String)
    (leftIntersections rightIntersections : List (RayIntersection K)) : Option (CSG.Locals K) :=
  let csg_table := CSG.csgTable csgType
  let result : List (RayIntersection K) := []
  let leftIntersections :=
    leftIntersections.insertionSort (fun a b => a.distance ≤ b.distance)
  let rightIntersections :=
    rightIntersections.insertionSort (fun a b => a.distance ≤ b.distance)
  let numLeftIs := leftIntersections.length
  let numRightIs := rightIntersections.length
  let leftState := if numLeftIs % 2 = 1 then csg_state.INSIDE else csg_state.OUTSIDE
  let rightState := if numRightIs % 2 = 1 then csg_state.INSIDE else csg_state.OUTSIDE
  CSG.mergeLoop leftIntersections rightIntersections (numLeftIs + numRightIs)
    { csg_table := csg_table
      leftState := leftState
      rightState := rightState
      previousLeftState := leftState
      previousRightState := rightState
      lIi := 0
      rIi := 0
      result := result }

/-- The virtual function `Object::intersect`: `Sphere::intersect`, `Cone::intersect` or
`CSG::intersect`.  For a `CSG` node the ray is mapped to the node's local space, both
children are intersected with it and the lists are merged; the result is `none` when a child
pointer is null. -/
def Object.intersect (m : Libm K) : Object K → Ray K → Option (List (RayIntersection K))
  | .sphere s, ray => s.intersect m ray
  | .cone c, ray => c.intersect ray
  | .csg transform _ csgType left right, ray =>
    let inverseRay := transform.applyInverseRay ray
    match left, right with
    | some left, some right =>
      (left.intersect m inverseRay).bind fun leftIntersections =>
        (right.intersect m inverseRay).bind fun rightIntersections =>
          (CSG.merge csgType leftIntersections rightIntersections).map fun st => st.result
    | _, _ => none

/-! ## Constructors and assignment of the objects -/

/-- The copy constructor `Sphere::Sphere(const Sphere&)`: it runs the base-class constructor
`Object::Object(const Object&)`, whose initialiser list is `transform(object.transform)`; the
member `material` is default-constructed. -/
def Sphere.copy (sphere : Sphere K) : Sphere K :=
  { transform := sphere.transform, material := Material.default }

/-- The assignment `Sphere::operator=`, which runs `Object::operator=`: `transform` is
assigned and nothing else (a self-assignment changes nothing). -/
def Sphere.assign (self sphere : Sphere K) : Sphere K :=
  { self with transform := sphere.transform }

/-- The function `Cone::Cone()`: identity transform and default material. -/
def Cone.default : Cone K :=
  { transform := Transform.identity, material := Material.default }

/-- The copy constructor `Cone::Cone(const Cone&)`, which runs
`Object::Object(const Object&)`. -/
def Cone.copy (cone : Cone K) : Cone K :=
  { transform := cone.transform, material := Material.default }

/-- The assignment `Cone::operator=`, which runs `Object::operator=`. -/
def Cone.assign (self cone : Cone K) : Cone K :=
  { self with transform := cone.transform }

/-- The class `CSG`: an `Object` (a `transform` and a `material`) with the operation
`csgType` and the child pointers `left` and `right`; `none` is the null pointer. -/
structure CSG (K : Type) where
  transform : Transform K
  material : Material K
  csgType : String
  left : Option (Object K)
  right : Option (Object K)

/-- The `CSG` object seen as an `Object`. -/
def CSG.toObject (csg : CSG K) : Object K :=
  Object.csg csg.transform csg.material csg.csgType csg.left csg.right

/-- The function `CSG::CSG()`: `left` is a new default sphere, `right` a new default sphere
moved by `translate(-1,0,0)`; `csgType` is the empty string. -/
def CSG.default : CSG K :=
  { transform := Transform.identity
    material := Material.default
    csgType := ""
    left := some (Object.sphere Sphere.default)
    right := some (Object.sphere
      { (Sphere.default : Sphere K) with
        transform := (Sphere.default : Sphere K).transform.translate (-1) 0 0 }) }

/-- The copy constructor `CSG::CSG(const CSG&)`: it runs `Object::Object(const Object&)` and
has an empty body; `csgType`, `left` and `right` are default-constructed (the empty string
and two null pointers). -/
def CSG.copy (csg : CSG K) : CSG K :=
  { transform := csg.transform
    material := Material.default
    csgType := ""
    left := none
    right := none }

/-- The assignment `CSG::operator=`, which runs `Object::operator=`. -/
def CSG.assign (self csg : CSG K) : CSG K :=
  { self with transform := csg.transform }

/-- The function `CSG::setupCSG`. -/
def CSG.setupCSG (self : CSG K) (type : String) : CSG K :=
  { self with csgType := type }

/-- The function `CSG::intersect` on a `CSG` object. -/
def CSG.intersect (m : Libm K) (csg : CSG K) (ray : Ray K) :
    Option (List (RayIntersection K)) :=
  csg.toObject.intersect m ray

/-! ## Camera -/

/-- The class `PinholeCamera`, the one concrete `Camera`: a `transform` and a
`focalLength`. -/
structure PinholeCamera (K : Type) where
  transform : Transform K
  focalLength : K

/-- The constructor `PinholeCamera::PinholeCamera(double f)`. -/
def PinholeCamera.new (f : K) : PinholeCamera K :=
  { transform := Transform.identity, focalLength := f }

/-- The function `PinholeCamera::castRay`: the ray from the origin through
`(x, y, focalLength)`, mapped by the camera transform. -/
def PinholeCamera.castRay (camera : PinholeCamera K) (x y : K) : Ray K :=
  let ray : Ray K := { point := 0, direction := ![x, y, camera.focalLength] }
  camera.transform.applyRay ray

/-! ## Scene -/

/-- The class `Scene`; the defaults are those of `Scene::Scene()`. -/
structure Scene (K : Type) [LinearOrderedField K] where
  backgroundColour : Colour K := ⟨0, 0, 0⟩
  ambientLight : Colour K := ⟨0, 0, 0⟩
  maxRayDepth : Nat := 3
  renderWidth : Nat := 800
  renderHeight : Nat := 600
  filename : String := "render.png"
  camera_ : Option (PinholeCamera K) := none
  objects_ : List (Object K) := []
  lights_ : List (PointLightSource K) := []

/-- The body of the inner loop of `Scene::intersect`: `hit` replaces `firstHit` when
`hit.distance > epsilon && hit.distance < firstHit.distance`. -/
def Scene.nearer (firstHit hit : RayIntersection K) : RayIntersection K :=
  if hit.distance > epsilon ∧ hit.distance < firstHit.distance then hit else firstHit

/-- The function `Scene::intersect`: `firstHit` starts as a default `RayIntersection` with
distance `infinity`; every hit of every object is compared with it; then every object is
intersected once more and those hits are dropped. -/
def Scene.intersect (m : Libm K) (sc : Scene K) (ray : Ray K) : Option (RayIntersection K) :=
  let firstHit : RayIntersection K :=
    { point := 0, normal := 0, material := Material.default, distance := infinity }
  (sc.objects_.foldlM
      (fun (firstHit : RayIntersection K) (obj : Object K) =>
        (obj.intersect m ray).map fun hits => hits.foldl Scene.nearer firstHit)
      firstHit).bind fun firstHit =>
    (sc.objects_.foldlM
      (fun (_ : Unit) (obj : Object K) => (obj.intersect m ray).map fun _ => ()) ()).map
      fun _ => firstHit

/-- The ray `shadowRay` of `Scene::computeColour`: from the hit point, along the unit vector
`l = v / v.norm()` towards the light, `v = light->location - hitPoint.point`. -/
def Scene.shadowRay (m : Libm K) (hitPoint : RayIntersection K) (light : PointLightSource K) :
    Ray K :=
  let v := light.location - hitPoint.point
  let l := Vec.div v (Vec.norm m v)
  { point := hitPoint.point, direction := l }

/-- The value `dotProductDiff` of `Scene::computeColour`:
`hitPoint.normal.dot(lightVector/norm)/hitPoint.normal.norm()`. -/
def Scene.dotProductDiff (m : Libm K) (hitPoint : RayIntersection K)
    (light : PointLightSource K) : K :=
  let lightVector := light.location - hitPoint.point
  let norm := Vec.norm m lightVector
  Vec.dot hitPoint.normal (Vec.div lightVector norm) / Vec.norm m hitPoint.normal

/-- The value `e.dot(r)` of `Scene::computeColour`, with
`e = -viewRay.direction/viewRay.direction.norm()`,
`normal = hitPoint.normal/hitPoint.normal.norm()` and `r = 2*normal*(e.dot(normal))-e`. -/
def Scene.specularBase (m : Libm K) (viewRay : Ray K) (hitPoint : RayIntersection K) : K :=
  let e := Vec.div (-viewRay.direction) (Vec.norm m viewRay.direction)
  let normal := Vec.div hitPoint.normal (Vec.norm m hitPoint.normal)
  let r := Vec.dot e normal • ((2 : K) • normal) - e
  Vec.dot e r

/-- The value `dotProductSpec` of `Scene::computeColour`:
`pow(e.dot(r), mat.specularExponent)`. -/
def Scene.dotProductSpec (m : Libm K) (viewRay : Ray K) (hitPoint : RayIntersection K) : K :=
  m.pow (Scene.specularBase m viewRay hitPoint) hitPoint.material.specularExponent

/-- The body of the loop over the lights in `Scene::computeColour`: the shadow ray is
intersected with the scene, and when `shadowIntersect.distance == infinity` the diffuse and
the specular term of the light are added to `hitColour`. -/
def Scene.addLight (m : Libm K) (sc : Scene K) (viewRay : Ray K) (hitPoint : RayIntersection K)
    (hitColour : Colour K) (light : PointLightSource K) : Option (Colour K) :=
  let mat := hitPoint.material
  let shadowRay := Scene.shadowRay m hitPoint light
  (sc.intersect m shadowRay).map fun shadowIntersect =>
    let dotProductDiff := Scene.dotProductDiff m hitPoint light
    let dotProductSpec := Scene.dotProductSpec m viewRay hitPoint
    if shadowIntersect.distance = infinity then
      let hitColour := hitColour
        + light.colour * light.getIntensityAt m hitPoint.point * mat.diffuseColour * dotProductDiff
      let hitColour := hitColour
        + light.colour * light.getIntensityAt m hitPoint.point * mat.specularColour
          * dotProductSpec
      hitColour
    else
      hitColour

/-- The function `Scene::computeColour`.  The parameter `rayDepth` is never read. -/
def Scene.computeColour (m : Libm K) (sc : Scene K) (viewRay : Ray K) (_rayDepth : Nat) :
    Option (Colour K) :=
  (sc.intersect m viewRay).bind fun hitPoint =>
    if hitPoint.distance = infinity then
      some sc.backgroundColour
    else
      let hitColour := sc.ambientLight * hitPoint.material.ambientColour
      (sc.lights_.foldlM (Scene.addLight m sc viewRay hitPoint) hitColour).map fun hitColour =>
        hitColour.clip

/-- The value `halfPixel` of `Scene::render`: `2.0/(2*renderWidth)`, where the product
`2*renderWidth` is computed in `unsigned int` (32 bits) before the division. -/
def Scene.halfPixel (sc : Scene K) : K :=
  2 / ((2 * sc.renderWidth % 2 ^ 32 : Nat) : K)

/-- The value `cx` of `Scene::render` for the pixel column `x`:
`(x - 0.5*renderWidth)*2.0/renderWidth + halfPixel`. -/
def Scene.cx (sc : Scene K) (x : Nat) : K :=
  ((x : K) - 1 / 2 * (sc.renderWidth : K)) * 2 / (sc.renderWidth : K) + sc.halfPixel

/-- The value `cy` of `Scene::render` for the pixel row `y`:
`(y - 0.5*renderHeight)*2.0/renderWidth + halfPixel`. -/
def Scene.cy (sc : Scene K) (y : Nat) : K :=
  ((y : K) - 1 / 2 * (sc.renderHeight : K)) * 2 / (sc.renderWidth : K) + sc.halfPixel

/-- The function `Scene::render`: the colours handed to `display.set(x, y, ...)`, row by
row.  For each pixel the camera casts a ray through `(cx, cy)` and `computeColour` is run on
it with depth `maxRayDepth`; the result is `none` when `camera_` is null or an intersection
does not return. -/
def Scene.render (m : Libm K) (sc : Scene K) : Option (List (List (Colour K))) :=
  (List.range sc.renderHeight).mapM fun y =>
    (List.range sc.renderWidth).mapM fun x =>
      let cx := sc.cx x
      let cy := sc.cy y
      sc.camera_.bind fun camera =>
        let ray := camera.castRay cx cy
        sc.computeColour m ray sc.maxRayDepth

/-! ## Predicates used in the statements about scenes -/

/-- No `CSG` node of the object has a null child pointer. -/
def Object.WellFormed : Object K → Prop
  | .sphere _ => True
  | .cone _ => True
  | .csg _ _ _ (some left) (some right) => left.WellFormed ∧ right.WellFormed
  | .csg _ _ _ _ _ => False

/-- No object of the scene has a null child pointer. -/
def Scene.WellFormed (sc : Scene K) : Prop :=
  ∀ obj ∈ sc.objects_, obj.WellFormed

/-- The hit `h` is one of the hits that some object of the scene returns for the ray. -/
def Scene.IsHit (m : Libm K) (sc : Scene K) (ray : Ray K) (h : RayIntersection K) : Prop :=
  ∃ obj ∈ sc.objects_, ∃ hits, obj.intersect m ray = some hits ∧ h ∈ hits

/-- All hits that the objects of the scene return for the ray, in the order in which
`Scene::intersect` visits them. -/
def Scene.allHits (m : Libm K) (sc : Scene K) (ray : Ray K) : List (RayIntersection K) :=
  (sc.objects_.map fun obj => (obj.intersect m ray).getD []).flatten

/-- The value of `firstHit` before the loops of `Scene::intersect`. -/
def Scene.noHit : RayIntersection K :=
  { point := 0, normal := 0, material := Material.default, distance := infinity }

/-- The transform moves points by `c` along the z axis and leaves directions and normals as
they are. -/
def Transform.IsShiftZ (t : Transform ℝ) (c : ℝ) : Prop :=
  (∀ p : Point ℝ, t.applyInversePoint p = ![p 0, p 1, p 2 - c]) ∧
    (∀ d : Direction ℝ, t.applyInverseDirection d = d) ∧
    (∀ p : Point ℝ, t.applyPoint p = ![p 0, p 1, p 2 + c]) ∧
    (∀ n : Normal ℝ, t.applyNormal n = n)

/-! ## Example scenes -/

/-- The unit sphere at the origin with the default material, a white point light at
`(0,0,5)` and ambient light `(1/2,1/2,1/2)`; the background is black. -/
def Scene.sphereAndLight : Scene K :=
  { ambientLight := ⟨1 / 2, 1 / 2, 1 / 2⟩
    objects_ := [Object.sphere Sphere.default]
    lights_ := [{ colour := ⟨1, 1, 1⟩, location := ![0, 0, 5] }] }

/-- The default material with a white specular colour. -/
def Material.shiny : Material K :=
  { Material.default with specularColour := ⟨1, 1, 1⟩ }

/-- The unit sphere at the origin with the material `Material.shiny`, a white point light at
`(0,0,5)` and white ambient light; used with a view ray that starts inside the sphere. -/
def Scene.insideSphere : Scene K :=
  { ambientLight := ⟨1, 1, 1⟩
    objects_ := [Object.sphere { transform := Transform.identity, material := Material.shiny }]
    lights_ := [{ colour := ⟨1, 1, 1⟩, location := ![0, 0, 5] }] }

/-- The unit sphere at the origin with the default material and a white point light on its
surface, at the near pole `(0,0,-1)`. -/
def Scene.lightOnSphere : Scene K :=
  { objects_ := [Object.sphere Sphere.default]
    lights_ := [{ colour := ⟨1, 1, 1⟩, location := ![0, 0, -1] }] }

/-- The unit sphere moved by `c` along the z axis, with the default material. -/
def Sphere.atZ (c : K) : Sphere K :=
  { transform := Transform.identity.translate 0 0 c, material := Material.default }

/-- The unit sphere at the origin, a second unit sphere centred at `(0,0,-10)` and a white
point light at `(0,0,-3)`: seen from the near pole `(0,0,-1)` of the first sphere, the second
sphere lies beyond the light. -/
def Scene.sphereBeyondLight : Scene K :=
  { objects_ := [Object.sphere Sphere.default, Object.sphere (Sphere.atZ (-10))]
    lights_ := [{ colour := ⟨1, 1, 1⟩, location := ![0, 0, -3] }] }

/-- The default material with a white mirror colour. -/
def Material.mirror : Material K :=
  { Material.default with mirrorColour := ⟨1, 1, 1⟩ }

/-- The unit sphere at the origin with the material `Material.mirror`, no light, no ambient
light and the background colour `(1/2,1/2,1/2)`. -/
def Scene.mirrorSphere : Scene K :=
  { backgroundColour := ⟨1 / 2, 1 / 2, 1 / 2⟩
    objects_ := [Object.sphere { transform := Transform.identity, material := Material.mirror }] }

/-- The `CSG` node of type `UNION` whose children are the unit sphere at the origin and the
unit sphere centred at `(0,0,3)`, two disjoint spheres. -/
def Object.unionOfSpheres : Object K :=
  Object.csg Transform.identity Material.default "UNION"
    (some (Object.sphere Sphere.default)) (some (Object.sphere (Sphere.atZ 3)))

/-! ## The lighting terms as the specification words them -/

/-- The Phong specular term: `colour * intensity * specularColour *
max(0, r . l)^specularExponent`, with `r` the view direction reflected about the unit hit
normal `n` and `l` the unit direction from the hit point to the light. -/
def Scene.phongTerm (m : Libm K) (viewRay : Ray K) (h : RayIntersection K)
    (light : PointLightSource K) : Colour K :=
  let n := Vec.div h.normal (Vec.norm m h.normal)
  let l := Vec.div (light.location - h.point) (Vec.norm m (light.location - h.point))
  let r := viewRay.direction - (2 * Vec.dot viewRay.direction n) • n
  light.colour * light.getIntensityAt m h.point * h.material.specularColour
    * m.pow (max 0 (Vec.dot r l)) h.material.specularExponent

/-- The state of a child that is solid (`INSIDE`) or not (`OUTSIDE`) at a point. -/
def csg_state.ofSolid (solid : Bool) : csg_state :=
  if solid then csg_state.INSIDE else csg_state.OUTSIDE

/-- A sphere with a red material, moved by `translate(1,2,3)`. -/
def Sphere.red : Sphere K :=
  { transform := Transform.identity.translate 1 2 3
    material := { Material.default with ambientColour := ⟨1, 0, 0⟩, diffuseColour := ⟨1, 0, 0⟩ } }

/-- A scene of width `2^31 + 1` and height 1, the other members as `Scene::Scene()` sets
them. -/
def Scene.veryWide : Scene K :=
  { renderWidth := 2147483649, renderHeight := 1 }

/-! ## SceneReader -/

/-- The functions of the C library that `SceneReader` applies to numbers. -/
structure Libc (K : Type) where
  /-- The function `strtod` on a token: `some x` when it converts the whole token to `x`,
  `none` when it stops before the end of the token. -/
  strtod : String → Option K
  /-- The conversion `int(x)` of a `double`. -/
  toInt : K → Int

/-- The ways in which a run of `SceneReader` ends before the function returns. -/
inductive SceneReader.Failure where
  /-- The error path: a message on `std::cerr`, then `exit`. -/
  | exit
  /-- A call of `front()` or `pop()` on an empty `std::queue` (undefined behaviour). -/
  | emptyQueue
  /-- A call of `back()` or `pop_back()` on an empty `std::vector` (undefined behaviour). -/
  | emptyVector
  /-- The iteration bound of the embedding is used up; no behaviour of the program. -/
  | fuel
  deriving DecidableEq

/-- The class `SceneReader`: the scene that is read into, the line on which the current block
started, and the materials defined so far (`std::map<std::string, Material>`). -/
structure SceneReader (K : Type) [LinearOrderedField K] where
  scene_ : Scene K
  startLine_ : Int
  materials_ : String → Option (Material K)

/-- The function `Scene::newObject<ObjectType>()`; `object` is the new `ObjectType()`. -/
def Scene.newObject (sc : Scene K) (object : Object K) : Scene K :=
  { sc with objects_ := sc.objects_ ++ [object] }

/-- The function `Scene::newLight<PointLightSource>()`: the new light is white and at the
origin, as `LightSource::LightSource()` sets it. -/
def Scene.newLight (sc : Scene K) : Scene K :=
  { sc with lights_ := sc.lights_ ++ [{ colour := ⟨1, 1, 1⟩, location := ![0, 0, 0] }] }

/-- The function `Scene::newCamera<PinholeCamera>(param)`. -/
def Scene.newCamera (sc : Scene K) (param : K) : Scene K :=
  { sc with camera_ := some (PinholeCamera.new param) }

/-- The member `transform` of an `Object`, changed by `f`. -/
def Object.mapTransform (f : Transform K → Transform K) : Object K → Object K
  | .sphere s => .sphere { s with transform := f s.transform }
  | .cone c => .cone { c with transform := f c.transform }
  | .csg transform material csgType left right =>
    .csg (f transform) material csgType left right

/-- The member `material` of an `Object`, changed by `f`. -/
def Object.mapMaterial (f : Material K → Material K) : Object K → Object K
  | .sphere s => .sphere { s with material := f s.material }
  | .cone c => .cone { c with material := f c.material }
  | .csg transform material csgType left right =>
    .csg transform (f material) csgType left right

/-- The call `tokenBlock.front()`. -/
def SceneReader.front (tokenBlock : List String) : Except SceneReader.Failure String :=
  match tokenBlock with
  | [] => .error .emptyQueue
  | token :: _ => .ok token

/-- The call `tokenBlock.pop()`. -/
def SceneReader.pop (tokenBlock : List String) : Except SceneReader.Failure (List String) :=
  match tokenBlock with
  | [] => .error .emptyQueue
  | _ :: tokenBlock => .ok tokenBlock

/-- The function `SceneReader::parseNumber`: the number and the rest of the queue. -/
def SceneReader.parseNumber (c : Libc K) (tokenBlock : List String) :
    Except SceneReader.Failure (K × List String) := do
  let token ← front tokenBlock
  let tokenBlock ← pop tokenBlock
  match c.strtod token with
  | some result => pure (result, tokenBlock)
  | none => throw .exit

/-- The function `SceneReader::parseColour`: the colour and the rest of the queue. -/
def SceneReader.parseColour (c : Libc K) (tokenBlock : List String) :
    Except SceneReader.Failure (Colour K × List String) := do
  let (red, tokenBlock) ← parseNumber c tokenBlock
  let (green, tokenBlock) ← parseNumber c tokenBlock
  let (blue, tokenBlock) ← parseNumber c tokenBlock
  pure (⟨red, green, blue⟩, tokenBlock)

/-- The conversion of an `int` to `unsigned int` (32 bits). -/
def SceneReader.toUnsigned (i : Int) : Nat :=
  (i % 2 ^ 32).toNat

/-- One iteration of the loop of `SceneReader::parseSceneBlock`, after `token` has been taken
from the queue. -/
def SceneReader.parseSceneElement (c : Libc K) (scene : Scene K) (token : String)
    (tokenBlock : List String) : Except SceneReader.Failure (Scene K × List String) :=
  if token = "AMBIENTLIGHT" then do
    let (colour, tokenBlock) ← parseColour c tokenBlock
    pure ({ scene with ambientLight := colour }, tokenBlock)
  else if token = "BACKGROUNDCOLOUR" then do
    let (colour, tokenBlock) ← parseColour c tokenBlock
    pure ({ scene with backgroundColour := colour }, tokenBlock)
  else if token = "RENDERSIZE" then do
    let (width, tokenBlock) ← parseNumber c tokenBlock
    let scene := { scene with renderWidth := toUnsigned (c.toInt width) }
    let (height, tokenBlock) ← parseNumber c tokenBlock
    pure ({ scene with renderHeight := toUnsigned (c.toInt height) }, tokenBlock)
  else if token = "FILENAME" then do
    let filename ← front tokenBlock
    let tokenBlock ← pop tokenBlock
    pure ({ scene with filename := filename.toLower }, tokenBlock)
  else if token = "RAYDEPTH" then do
    let (depth, tokenBlock) ← parseNumber c tokenBlock
    pure ({ scene with maxRayDepth := toUnsigned (c.toInt depth) }, tokenBlock)
  else
    throw .exit

/-- The function `SceneReader::parseSceneBlock`, its loop run for at most `fuel`
iterations. -/
def SceneReader.parseSceneBlock (c : Libc K) :
    Nat → Scene K → List String → Except SceneReader.Failure (Scene K)
  | _, scene, [] => pure scene
  | 0, _, _ :: _ => throw .fuel
  | fuel + 1, scene, token :: tokenBlock => do
    let (scene, tokenBlock) ← parseSceneElement c scene token tokenBlock
    parseSceneBlock c fuel scene tokenBlock

/-- The elements `ROTATE`, `TRANSLATE`, `SCALE` and `SCALE3` of a camera or object block,
after `token` has been taken from the queue: the changed transform and the rest of the
queue, or `none` when `token` is none of the four. -/
def SceneReader.parseTransformElement (m : Libm K) (c : Libc K) (transform : Transform K)
    (token : String) (tokenBlock : List String) : Option (Except SceneReader.Failure (Transform K × List String)) :=
  if token = "ROTATE" then
    some do
      let axis ← front tokenBlock
      let tokenBlock ← pop tokenBlock
      let (angle, tokenBlock) ← parseNumber c tokenBlock
      if axis = "X" then pure (transform.rotateX m angle, tokenBlock)
      else if axis = "Y" then pure (transform.rotateY m angle, tokenBlock)
      else if axis = "Z" then pure (transform.rotateZ m angle, tokenBlock)
      else throw .exit
  else if token = "TRANSLATE" then
    some do
      let (tx, tokenBlock) ← parseNumber c tokenBlock
      let (ty, tokenBlock) ← parseNumber c tokenBlock
      let (tz, tokenBlock) ← parseNumber c tokenBlock
      pure (transform.translate tx ty tz, tokenBlock)
  else if token = "SCALE" then
    some do
      let (s, tokenBlock) ← parseNumber c tokenBlock
      pure (transform.scale s, tokenBlock)
  else if token = "SCALE3" then
    some do
      let (sx, tokenBlock) ← parseNumber c tokenBlock
      let (sy, tokenBlock) ← parseNumber c tokenBlock
      let (sz, tokenBlock) ← parseNumber c tokenBlock
      pure (transform.scale3 sx sy sz, tokenBlock)
  else
    none

/-- The elements `COLOUR`, `AMBIENT`, `DIFFUSE`, `SPECULAR` and `MIRROR` of a material or
object block, after `token` has been taken from the queue: the changed material and the rest
of the queue, or `none` when `token` is none of the five. -/
def SceneReader.parseMaterialElement (c : Libc K) (material : Material K) (token : String)
    (tokenBlock : List String) : Option (Except SceneReader.Failure (Material K × List String)) :=
  if token = "COLOUR" then
    some do
      let (objColour, tokenBlock) ← parseColour c tokenBlock
      pure ({ material with ambientColour := objColour, diffuseColour := objColour },
        tokenBlock)
  else if token = "AMBIENT" then
    some do
      let (colour, tokenBlock) ← parseColour c tokenBlock
      pure ({ material with ambientColour := colour }, tokenBlock)
  else if token = "DIFFUSE" then
    some do
      let (colour, tokenBlock) ← parseColour c tokenBlock
      pure ({ material with diffuseColour := colour }, tokenBlock)
  else if token = "SPECULAR" then
    some do
      let (colour, tokenBlock) ← parseColour c tokenBlock
      let (exponent, tokenBlock) ← parseNumber c tokenBlock
      pure ({ material with specularColour := colour, specularExponent := exponent },
        tokenBlock)
  else if token = "MIRROR" then
    some do
      let (colour, tokenBlock) ← parseColour c tokenBlock
      pure ({ material with mirrorColour := colour }, tokenBlock)
  else
    none

/-- The loop of `SceneReader::parseCameraBlock` over the elements of the block, run for at
most `fuel` iterations on the camera that `camera` points to. -/
def SceneReader.parseCameraElements (m : Libm K) (c : Libc K) :
    Nat → PinholeCamera K → List String → Except SceneReader.Failure (PinholeCamera K)
  | _, camera, [] => pure camera
  | 0, _, _ :: _ => throw .fuel
  | fuel + 1, camera, token :: tokenBlock =>
    match parseTransformElement m c camera.transform token tokenBlock with
    | some res => do
      let (transform, tokenBlock) ← res
      parseCameraElements m c fuel { camera with transform := transform } tokenBlock
    | none => throw .exit

/-- The function `SceneReader::parseCameraBlock`: the new camera replaces `camera_` and is
then changed through the pointer `camera`. -/
def SceneReader.parseCameraBlock (m : Libm K) (c : Libc K) (scene : Scene K)
    (tokenBlock : List String) : Except SceneReader.Failure (Scene K) := do
  let cameraType ← front tokenBlock
  let tokenBlock ← pop tokenBlock
  if cameraType = "PINHOLECAMERA" then do
    let (focalLength, tokenBlock) ← parseNumber c tokenBlock
    let scene := scene.newCamera focalLength
    let camera ← parseCameraElements m c tokenBlock.length (PinholeCamera.new focalLength)
      tokenBlock
    pure { scene with camera_ := some camera }
  else
    throw .exit

/-- The loop of `SceneReader::parseLightBlock` over the elements of the block, run for at
most `fuel` iterations on the light that `light` points to. -/
def SceneReader.parseLightElements (c : Libc K) :
    Nat → PointLightSource K → List String → Except SceneReader.Failure (PointLightSource K)
  | _, light, [] => pure light
  | 0, _, _ :: _ => throw .fuel
  | fuel + 1, light, token :: tokenBlock =>
    if token = "LOCATION" then do
      let (x, tokenBlock) ← parseNumber c tokenBlock
      let (y, tokenBlock) ← parseNumber c tokenBlock
      let (z, tokenBlock) ← parseNumber c tokenBlock
      parseLightElements c fuel { light with location := ![x, y, z] } tokenBlock
    else if token = "COLOUR" then do
      let (colour, tokenBlock) ← parseColour c tokenBlock
      parseLightElements c fuel { light with colour := colour } tokenBlock
    else
      throw .exit

/-- The function `SceneReader::parseLightBlock`: the new light is appended to `lights_` and
is then changed through the pointer `light`. -/
def SceneReader.parseLightBlock (c : Libc K) (scene : Scene K) (tokenBlock : List String) :
    Except SceneReader.Failure (Scene K) := do
  let lightType ← front tokenBlock
  let tokenBlock ← pop tokenBlock
  if lightType = "POINTLIGHT" then do
    let scene := scene.newLight
    let light ← parseLightElements c tokenBlock.length
      { colour := ⟨1, 1, 1⟩, location := ![0, 0, 0] } tokenBlock
    pure { scene with lights_ := scene.lights_.dropLast ++ [light] }
  else
    throw .exit

/-- One iteration of the loop of `SceneReader::parseObjectBlock` over the elements of the
block, after `token` has been taken from the queue: the changed object and the rest of the
queue. -/
def SceneReader.parseObjectElement (m : Libm K) (c : Libc K)
    (materials_ : String → Option (Material K)) (object : Object K) (token : String)
    (tokenBlock : List String) : Except SceneReader.Failure (Object K × List String) :=
  if token = "ROTATE" then do
    let axis ← front tokenBlock
    let tokenBlock ← pop tokenBlock
    let (angle, tokenBlock) ← parseNumber c tokenBlock
    if axis = "X" then pure (object.mapTransform fun t => t.rotateX m angle, tokenBlock)
    else if axis = "Y" then pure (object.mapTransform fun t => t.rotateY m angle, tokenBlock)
    else if axis = "Z" then pure (object.mapTransform fun t => t.rotateZ m angle, tokenBlock)
    else throw .exit
  else if token = "TRANSLATE" then do
    let (tx, tokenBlock) ← parseNumber c tokenBlock
    let (ty, tokenBlock) ← parseNumber c tokenBlock
    let (tz, tokenBlock) ← parseNumber c tokenBlock
    pure (object.mapTransform fun t => t.translate tx ty tz, tokenBlock)
  else if token = "SCALE" then do
    let (s, tokenBlock) ← parseNumber c tokenBlock
    pure (object.mapTransform fun t => t.scale s, tokenBlock)
  else if token = "SCALE3" then do
    let (sx, tokenBlock) ← parseNumber c tokenBlock
    let (sy, tokenBlock) ← parseNumber c tokenBlock
    let (sz, tokenBlock) ← parseNumber c tokenBlock
    pure (object.mapTransform fun t => t.scale3 sx sy sz, tokenBlock)
  else if token = "MATERIAL" then do
    let materialName ← front tokenBlock
    let tokenBlock ← pop tokenBlock
    match materials_ materialName with
    | none => throw .exit
    | some material => pure (object.mapMaterial fun _ => material, tokenBlock)
  else if token = "COLOUR" then do
    let (objColour, tokenBlock) ← parseColour c tokenBlock
    pure (object.mapMaterial fun mat =>
      { mat with ambientColour := objColour, diffuseColour := objColour }, tokenBlock)
  else if token = "AMBIENT" then do
    let (colour, tokenBlock) ← parseColour c tokenBlock
    pure (object.mapMaterial fun mat => { mat with ambientColour := colour }, tokenBlock)
  else if token = "DIFFUSE" then do
    let (colour, tokenBlock) ← parseColour c tokenBlock
    pure (object.mapMaterial fun mat => { mat with diffuseColour := colour }, tokenBlock)
  else if token = "SPECULAR" then do
    let (colour, tokenBlock) ← parseColour c tokenBlock
    let (exponent, tokenBlock) ← parseNumber c tokenBlock
    pure (object.mapMaterial fun mat =>
      { mat with specularColour := colour, specularExponent := exponent }, tokenBlock)
  else if token = "MIRROR" then do
    let (colour, tokenBlock) ← parseColour c tokenBlock
    pure (object.mapMaterial fun mat => { mat with mirrorColour := colour }, tokenBlock)
  else
    throw .exit

/-- The loop of `SceneReader::parseObjectBlock` over the elements of the block ("Parse object
details"), run for at most `fuel` iterations on the object that `object` points to. -/
def SceneReader.parseObjectElements (m : Libm K) (c : Libc K)
    (materials_ : String → Option (Material K)) :
    Nat → Object K → List String → Except SceneReader.Failure (Object K)
  | _, object, [] => pure object
  | 0, _, _ :: _ => throw .fuel
  | fuel + 1, object, token :: tokenBlock => do
    let (object, tokenBlock) ← parseObjectElement m c materials_ object token tokenBlock
    parseObjectElements m c materials_ fuel object tokenBlock

/-- The loop of `SceneReader::parseObjectBlock` that moves the tokens of an inner Object block
from `tokenBlock` to `obj`, up to the `END` that closes the block: the tokens pushed to `obj`
and the rest of `tokenBlock`, whose front is that `END` unless the queue ran empty. -/
def SceneReader.takeObject : Int → List String → List String × List String
  | _, [] => ([], [])
  | objectDepth, t :: tokenBlock =>
    if t = "END" then
      if objectDepth - 1 = 0 then ([], t :: tokenBlock)
      else (t :: (takeObject (objectDepth - 1) tokenBlock).1,
        (takeObject (objectDepth - 1) tokenBlock).2)
    else if t = "OBJECT" then
      (t :: (takeObject (objectDepth + 1) tokenBlock).1,
        (takeObject (objectDepth + 1) tokenBlock).2)
    else
      (t :: (takeObject objectDepth tokenBlock).1, (takeObject objectDepth tokenBlock).2)

/-- The statements `scene_->objects_.back()` and `scene_->objects_.pop_back()`: the last
object and the scene without it. -/
def SceneReader.takeBack (scene : Scene K) : Except SceneReader.Failure (Object K × Scene K) :=
  match scene.objects_.getLast? with
  | none => .error .emptyVector
  | some object => .ok (object, { scene with objects_ := scene.objects_.dropLast })

/-- The part of `SceneReader::parseObjectBlock` that reads one child of a CSG block: the
front of the queue must be `OBJECT`; the tokens of the inner block are moved to `obj`, the
closing `END` is popped, `obj` is parsed by the recursive call `parse` and the object it
appended is taken back from the scene.  The queue `obj` is empty before the tokens are moved
to it, also for the second child: the recursive call returns only when it has emptied it. -/
def SceneReader.parseChild
    (parse : Scene K → List String → Except SceneReader.Failure (Scene K)) (scene : Scene K) (tokenBlock : List String) :
    Except SceneReader.Failure (Object K × Scene K × List String) := do
  let t ← front tokenBlock
  if t ≠ "OBJECT" then throw .exit
  let tokenBlock ← pop tokenBlock
  let obj := (takeObject 1 tokenBlock).1
  let tokenBlock := (takeObject 1 tokenBlock).2
  let tokenBlock ← pop tokenBlock
  let scene ← parse scene obj
  let (child, scene) ← takeBack scene
  pure (child, scene, tokenBlock)

/-- The function `SceneReader::parseObjectBlock`, with at most `fuel` nested calls.  The new
object is appended to `objects_` and is then changed through the pointer `object`. -/
def SceneReader.parseObjectBlock (m : Libm K) (c : Libc K)
    (materials_ : String → Option (Material K)) :
    Nat → Scene K → List String → Except SceneReader.Failure (Scene K)
  | 0, _, _ => throw .fuel
  | fuel + 1, scene, tokenBlock => do
    let objectType ← front tokenBlock
    let tokenBlock ← pop tokenBlock
    let (scene, object, tokenBlock) ←
      (if objectType = "SPHERE" then
        pure (scene.newObject (Object.sphere Sphere.default), Object.sphere Sphere.default,
          tokenBlock)
      else if objectType = "CONE" then
        pure (scene.newObject (Object.cone Cone.default), Object.cone Cone.default,
          tokenBlock)
      else if objectType = "CSG" then do
        let csgType ← front tokenBlock
        let tokenBlock ← pop tokenBlock
        if csgType ≠ "UNION" ∧ csgType ≠ "INTERSECTION" ∧ csgType ≠ "DIFFERENCE" then
          throw .exit
        let (left, scene, tokenBlock) ←
          parseChild (parseObjectBlock m c materials_ fuel) scene tokenBlock
        let (right, scene, tokenBlock) ←
          parseChild (parseObjectBlock m c materials_ fuel) scene tokenBlock
        let scene := scene.newObject (CSG.default : CSG K).toObject
        let csgNode : CSG K := { (CSG.default : CSG K) with left := some left }
        let csgNode : CSG K := { csgNode with right := some right }
        let csgNode := csgNode.setupCSG csgType
        pure (scene, csgNode.toObject, tokenBlock)
      else
        throw .exit :
        Except SceneReader.Failure (Scene K × Object K × List String))
    let object ← parseObjectElements m c materials_ tokenBlock.length object tokenBlock
    pure { scene with objects_ := scene.objects_.dropLast ++ [object] }

/-- The loop of `SceneReader::parseMaterialBlock` over the elements of the block, run for at
most `fuel` iterations on the material `material`. -/
def SceneReader.parseMaterialElements (c : Libc K) :
    Nat → Material K → List String → Except SceneReader.Failure (Material K)
  | _, material, [] => pure material
  | 0, _, _ :: _ => throw .fuel
  | fuel + 1, material, token :: tokenBlock =>
    match parseMaterialElement c material token tokenBlock with
    | some res => do
      let (material, tokenBlock) ← res
      parseMaterialElements c fuel material tokenBlock
    | none => throw .exit

/-- The function `SceneReader::parseMaterialBlock`: the material named by the first token, a
new default material unless the name is already defined, is changed by the elements of the
block and stored under that name. -/
def SceneReader.parseMaterialBlock (c : Libc K) (materials_ : String → Option (Material K))
    (tokenBlock : List String) :
    Except SceneReader.Failure (String → Option (Material K)) := do
  let materialName ← front tokenBlock
  let tokenBlock ← pop tokenBlock
  let material := (materials_ materialName).getD Material.default
  let material ← parseMaterialElements c tokenBlock.length material tokenBlock
  pure fun name => if name = materialName then some material else materials_ name

/-- The function `SceneReader::parseTokenBlock`. -/
def SceneReader.parseTokenBlock (m : Libm K) (c : Libc K) (r : SceneReader K)
    (tokenBlock : List String) : Except SceneReader.Failure (SceneReader K) := do
  let blockType ← front tokenBlock
  let tokenBlock ← pop tokenBlock
  if blockType = "SCENE" then do
    let scene ← parseSceneBlock c tokenBlock.length r.scene_ tokenBlock
    pure { r with scene_ := scene }
  else if blockType = "CAMERA" then do
    let scene ← parseCameraBlock m c r.scene_ tokenBlock
    pure { r with scene_ := scene }
  else if blockType = "OBJECT" then do
    let scene ← parseObjectBlock m c r.materials_ (tokenBlock.length + 1) r.scene_ tokenBlock
    pure { r with scene_ := scene }
  else if blockType = "LIGHT" then do
    let scene ← parseLightBlock c r.scene_ tokenBlock
    pure { r with scene_ := scene }
  else if blockType = "MATERIAL" then do
    let materials ← parseMaterialBlock c r.materials_ tokenBlock
    pure { r with materials_ := materials }
  else
    throw .exit

/-- The reader and the local variables `objectDepth` and `tokenBlock` of
`SceneReader::read`. -/
structure SceneReader.Locals (K : Type) [LinearOrderedField K] where
  reader : SceneReader K
  objectDepth : Int
  tokenBlock : List String

/-- The body of the inner loop of `SceneReader::read` for a token that does not start a
comment, on the line `lineNumber`.  When `parseTokenBlock` returns, it has emptied the
queue: each of the five parse functions ends with a loop that runs until the queue is
empty. -/
def SceneReader.readToken (m : Libm K) (c : Libc K) (lineNumber : Int)
    (st : SceneReader.Locals K) (token : String) :
    Except SceneReader.Failure (SceneReader.Locals K) :=
  if token = "OBJECT" then
    pure { st with objectDepth := st.objectDepth + 1, tokenBlock := st.tokenBlock ++ [token] }
  else if token = "END" then
    let objectDepth := st.objectDepth - 1
    let objectDepth := if objectDepth < 0 then 0 else objectDepth
    if objectDepth ≠ 0 then
      pure { st with objectDepth := objectDepth, tokenBlock := st.tokenBlock ++ [token] }
    else do
      let reader ← parseTokenBlock m c st.reader st.tokenBlock
      pure { st with objectDepth := objectDepth, reader := reader, tokenBlock := [] }
  else
    let reader :=
      if st.tokenBlock.length = 0 then { st.reader with startLine_ := lineNumber }
      else st.reader
    pure { st with reader := reader, tokenBlock := st.tokenBlock ++ [token] }

/-- The inner loop of `SceneReader::read` over the tokens of the line `lineNumber`; a token
that begins with `#` ends the line. -/
def SceneReader.readLine (m : Libm K) (c : Libc K) (lineNumber : Int) :
    SceneReader.Locals K → List String → Except SceneReader.Failure (SceneReader.Locals K)
  | st, [] => pure st
  | st, token :: line =>
    if token.get 0 = '#' then pure st
    else do
      let st ← readToken m c lineNumber st token
      readLine m c lineNumber st line

/-- The outer loop of `SceneReader::read` over the lines that follow line `lineNumber`. -/
def SceneReader.readLines (m : Libm K) (c : Libc K) :
    Int → SceneReader.Locals K → List (List String) →
      Except SceneReader.Failure (SceneReader.Locals K)
  | _, st, [] => pure st
  | lineNumber, st, line :: lines => do
    let lineNumber := lineNumber + 1
    let st ← readLine m c lineNumber st line
    readLines m c lineNumber st lines

/-- The function `SceneReader::read` on the lines of the file, each line given as the list
of its tokens: the words between white space, after the line went through `toupper`. -/
def SceneReader.read (m : Libm K) (c : Libc K) (r : SceneReader K) (lines : List (List String)) :
    Except SceneReader.Failure (SceneReader K) := do
  let st ← readLines m c 0
    { reader := { r with startLine_ := 0 }, objectDepth := 0, tokenBlock := [] } lines
  if st.tokenBlock.length > 0 then throw .exit
  pure st.reader

/-! ## Object blocks, as the documentation of SceneReader describes them -/

/-- An Object block of a scene file, without the `OBJECT` that opens it and the `END` that
closes it: the type of object, for a CSG block the operation and the two inner Object blocks,
and then the tokens of the elements of the block. -/
inductive ObjectBlock where
  | sphere (elements : List String)
  | cone (elements : List String)
  | csg (csgType : String) (left right : ObjectBlock) (elements : List String)

/-- The tokens of an Object block between its `OBJECT` and its `END`. -/
def ObjectBlock.tokens : ObjectBlock → List String
  | .sphere elements => "SPHERE" :: elements
  | .cone elements => "CONE" :: elements
  | .csg csgType left right elements =>
    "CSG" :: csgType :: "OBJECT" :: (left.tokens ++ "END" :: "OBJECT" ::
      (right.tokens ++ "END" :: elements))

/-- The depth to which CSG blocks are nested in the block. -/
def ObjectBlock.depth : ObjectBlock → Nat
  | .sphere _ => 0
  | .cone _ => 0
  | .csg _ left right _ => max left.depth right.depth + 1

/-- The tokens are elements that an Object block accepts: none of them is `OBJECT` or `END`,
and the loop over the elements reads them to the end, on whatever object. -/
def SceneReader.ElementsOk (m : Libm K) (c : Libc K) (materials_ : String → Option (Material K))
    (elements : List String) : Prop :=
  "OBJECT" ∉ elements ∧ "END" ∉ elements ∧
    ∀ object : Object K, ∃ object',
      SceneReader.parseObjectElements m c materials_ elements.length object elements
        = .ok object'

/-- The Object block is well formed: the operation of every CSG block is `UNION`,
`INTERSECTION` or `DIFFERENCE`, and the elements of every block are accepted. -/
def ObjectBlock.WellFormed (m : Libm K) (c : Libc K)
    (materials_ : String → Option (Material K)) : ObjectBlock → Prop
  | .sphere elements => SceneReader.ElementsOk m c materials_ elements
  | .cone elements => SceneReader.ElementsOk m c materials_ elements
  | .csg csgType left right elements =>
    (csgType = "UNION" ∨ csgType = "INTERSECTION" ∨ csgType = "DIFFERENCE") ∧
      left.WellFormed m c materials_ ∧ right.WellFormed m c materials_ ∧
      SceneReader.ElementsOk m c materials_ elements

/-- The object that an Object block describes: a default sphere or cone, or a CSG node of the
given operation whose children are the objects that the first and the second inner block
describe, changed by the elements of the block. -/
def ObjectBlock.object (m : Libm K) (c : Libc K) (materials_ : String → Option (Material K)) :
    ObjectBlock → Except SceneReader.Failure (Object K)
  | .sphere elements =>
    SceneReader.parseObjectElements m c materials_ elements.length
      (Object.sphere Sphere.default) elements
  | .cone elements =>
    SceneReader.parseObjectElements m c materials_ elements.length
      (Object.cone Cone.default) elements
  | .csg csgType left right elements => do
    let leftObject ← left.object m c materials_
    let rightObject ← right.object m c materials_
    SceneReader.parseObjectElements m c materials_ elements.length
      (Object.csg Transform.identity Material.default csgType
        (some leftObject) (some rightObject)) elements

/-- The tokens of some lines, each with the number of its line; the first line has the
number `lineNumber + 1`. -/
def SceneReader.numbered : Int → List (List String) → List (Int × String)
  | _, [] => []
  | lineNumber, line :: lines =>
    line.map (fun token => (lineNumber + 1, token)) ++ numbered (lineNumber + 1) lines

/-- The body of the inner loop of `SceneReader::read` on a token with the number of its
line. -/
def SceneReader.readNumbered (m : Libm K) (c : Libc K) (st : SceneReader.Locals K)
    (p : Int × String) : Except SceneReader.Failure (SceneReader.Locals K) :=
  SceneReader.readToken m c p.1 st p.2

/-- When the step of a block returns an object, the object is a CSG node with the operation
`csgType` and the children `left` and `right`. -/
def SceneReader.KeepsChildren (csgType : String) (left right : Option (Object K))
    (res : Except SceneReader.Failure (Object K × List String)) : Prop :=
  ∀ object rest, res = .ok (object, rest) →
    ∃ transform material, object = Object.csg transform material csgType left right

/-- A C library for the examples: `strtod` converts the tokens `0`, `1` and `2`; the
conversion to `int` is not used by the examples. -/
def Libc.small : Libc K :=
  { strtod := fun token =>
      if token = "0" then some 0 else if token = "1" then some 1
      else if token = "2" then some 2 else none
    toInt := fun _ => 0 }

/-- The block `CSG UNION Object Sphere Translate 1 0 0 End Object Cone End Scale 2`. -/
def ObjectBlock.unionExample : ObjectBlock :=
  ObjectBlock.csg "UNION" (ObjectBlock.sphere ["TRANSLATE", "1", "0", "0"])
    (ObjectBlock.cone []) ["SCALE", "2"]

/-- A reader on a default scene, without materials. -/
def SceneReader.new : SceneReader K :=
  { scene_ := {}, startLine_ := 0, materials_ := fun _ => none }

/-- A C library for the examples with decimal tokens: `strtod` converts the tokens `0`, `1`,
`0.2` and `0.5`; the conversion to `int` is not used by the examples. -/
def Libc.decimal : Libc K :=
  { strtod := fun token =>
      if token = "0" then some 0 else if token = "1" then some 1
      else if token = "0.2" then some (1 / 5) else if token = "0.5" then some (1 / 2)
      else none
    toInt := fun _ => 0 }

/-- The states in which the iterations of the `while` loop of `CSG::intersect` begin, in
order, for at most `fuel` iterations: one entry per iteration.  The result is `none` when the
fuel runs out before the loop ends or an element is read outside its list. -/
def CSG.mergeTrace (leftIntersections rightIntersections : List (RayIntersection K)) :
    Nat → CSG.Locals K → Option (List (CSG.Locals K))
  | fuel, st =>
    if st.lIi < leftIntersections.length ∨ st.rIi < rightIntersections.length then
      match fuel with
      | 0 => none
      | fuel + 1 =>
        (CSG.mergeStep leftIntersections rightIntersections st).bind fun st' =>
          (CSG.mergeTrace leftIntersections rightIntersections fuel st').map fun trace =>
            st :: trace
    else
      some []

/-- The material with its mirror colour set to black. -/
def Material.eraseMirror (mat : Material K) : Material K :=
  { mat with mirrorColour := ⟨0, 0, 0⟩ }

/-- The hit with the mirror colour of its material set to black. -/
def RayIntersection.eraseMirror (h : RayIntersection K) : RayIntersection K :=
  { h with material := h.material.eraseMirror }

/-- The object with the mirror colour of its material, and of the materials of the objects
below it, set to black.  Two objects with the same image differ at most in mirror
colours. -/
def Object.eraseMirror : Object K → Object K
  | .sphere s => .sphere { s with material := s.material.eraseMirror }
  | .cone c => .cone { c with material := c.material.eraseMirror }
  | .csg transform material csgType left right =>
    .csg transform material.eraseMirror csgType
      (match left with
        | some left => some left.eraseMirror
        | none => none)
      (match right with
        | some right => some right.eraseMirror
        | none => none)

/-- The scene with the mirror colours of all its objects set to black.  Two scenes with the
same image differ at most in the mirror colours of their objects. -/
def Scene.eraseMirror (sc : Scene K) : Scene K :=
  { sc with objects_ := sc.objects_.map Object.eraseMirror }

end Defs

/-! ## Matrix and Vector lemmas -/

section Lemmas

variable {K : Type} [LinearOrderedField K]

theorem foldl_add_eq_sum {n : Nat} (f : Fin n → K) :
    Fin.foldl n (fun acc i => acc + f i) 0 = ∑ i, f i := by
  induction n with
  | zero => simp
  | succ n ih =>
    rw [Fin.foldl_succ_last, Fin.sum_univ_castSucc]
    exact congrArg (· + f (Fin.last n)) (ih (fun i => f i.castSucc))

theorem Mat.mul_eq {n k p : Nat} (A : Mat K n k) (B : Mat K k p) : Mat.mul A B = A * B := by
  ext r c
  simp [Mat.mul, foldl_add_eq_sum, Matrix.mul_apply]

theorem Mat.mulVec_eq {n k : Nat} (A : Mat K n k) (v : Vec K k) :
    Mat.mulVec A v = Matrix.mulVec A v := by
  ext r
  simp [Mat.mulVec, foldl_add_eq_sum, Matrix.mulVec, Matrix.dotProduct]

theorem Vec.dot_eq {n : Nat} (u v : Vec K n) : Vec.dot u v = Matrix.dotProduct u v := by
  simp [Vec.dot, foldl_add_eq_sum, Matrix.dotProduct]

theorem Mat.identity_eq {n : Nat} : (Mat.identity : Mat K n n) = 1 := by
  ext r c
  simp [Mat.identity, Matrix.one_apply, Fin.ext_iff]

theorem Mat.transpose_eq {R : Type} {n k : Nat} (A : Mat R n k) :
    Mat.transpose A = Matrix.transpose A :=
  rfl

end Lemmas

/-! ## The mutators and the elementary matrices -/

theorem Op.run_T (op : Op ℝ) (t : Transform ℝ) :
    (op.run Libm.real t).T_ = op.elementary Libm.real * t.T_ := by
  cases op <;>
    simp only [Op.run, Op.elementary, Transform.rotateX, Transform.rotateY, Transform.rotateZ,
      Transform.scale, Transform.scale3, Transform.translate, Mat.mul_eq] <;>
    congr 1 <;> ext i j <;> fin_cases i <;> fin_cases j <;>
    simp [Mat.set, Mat.identity, rotationX, rotationY, rotationZ, scaling, translation,
      Matrix.vecHead, Matrix.vecTail]

theorem Op.run_Tinv (op : Op ℝ) (t : Transform ℝ) :
    (op.run Libm.real t).Tinv_ = t.Tinv_ * op.inverse.elementary Libm.real := by
  cases op <;>
    simp only [Op.run, Op.elementary, Op.inverse, Transform.rotateX, Transform.rotateY,
      Transform.rotateZ, Transform.scale, Transform.scale3, Transform.translate, Mat.mul_eq] <;>
    congr 1 <;> ext i j <;> fin_cases i <;> fin_cases j <;>
    simp [Mat.set, Mat.identity, Mat.transpose, rotationX, rotationY, rotationZ, scaling,
      translation, deg2rad, Libm.real, neg_mul, neg_div, Real.cos_neg, Real.sin_neg,
      Matrix.vecHead, Matrix.vecTail]

theorem rotationX_mul_neg (a b : ℝ) (hb : b = -a) :
    rotationX Libm.real a * rotationX Libm.real b = 1 := by
  subst hb
  have h := Real.cos_sq_add_sin_sq (a * Real.pi / 180)
  ext i j
  fin_cases i <;> fin_cases j <;>
    simp [rotationX, Matrix.mul_apply, Fin.sum_univ_four, deg2rad, Libm.real, neg_mul, neg_div,
      Real.cos_neg, Real.sin_neg, Matrix.vecHead, Matrix.vecTail] <;>
    nlinarith [h]

theorem rotationY_mul_neg (a b : ℝ) (hb : b = -a) :
    rotationY Libm.real a * rotationY Libm.real b = 1 := by
  subst hb
  have h := Real.cos_sq_add_sin_sq (a * Real.pi / 180)
  ext i j
  fin_cases i <;> fin_cases j <;>
    simp [rotationY, Matrix.mul_apply, Fin.sum_univ_four, deg2rad, Libm.real, neg_mul, neg_div,
      Real.cos_neg, Real.sin_neg, Matrix.vecHead, Matrix.vecTail] <;>
    nlinarith [h]

theorem rotationZ_mul_neg (a b : ℝ) (hb : b = -a) :
    rotationZ Libm.real a * rotationZ Libm.real b = 1 := by
  subst hb
  have h := Real.cos_sq_add_sin_sq (a * Real.pi / 180)
  ext i j
  fin_cases i <;> fin_cases j <;>
    simp [rotationZ, Matrix.mul_apply, Fin.sum_univ_four, deg2rad, Libm.real, neg_mul, neg_div,
      Real.cos_neg, Real.sin_neg, Matrix.vecHead, Matrix.vecTail] <;>
    nlinarith [h]

theorem scaling_mul_inv (sx sy sz : ℝ) (hx : sx ≠ 0) (hy : sy ≠ 0) (hz : sz ≠ 0) :
    scaling sx sy sz * scaling (1 / sx) (1 / sy) (1 / sz) = 1 ∧
      scaling (1 / sx) (1 / sy) (1 / sz) * scaling sx sy sz = 1 := by
  constructor <;> ext i j <;> fin_cases i <;> fin_cases j <;>
    simp [scaling, Matrix.mul_apply, Fin.sum_univ_four, Matrix.vecHead, Matrix.vecTail, hx, hy, hz]

theorem translation_mul_neg (tx ty tz : ℝ) :
    translation tx ty tz * translation (-tx) (-ty) (-tz) = 1 := by
  ext i j
  fin_cases i <;> fin_cases j <;>
    simp [translation, Matrix.mul_apply, Fin.sum_univ_four, Matrix.vecHead, Matrix.vecTail]

/-- The elementary matrix of a call times that of the inverse call is the identity. -/
theorem Op.elementary_mul_inverse (op : Op ℝ) (h : op.NonZero) :
    op.elementary Libm.real * op.inverse.elementary Libm.real = 1 := by
  cases op with
  | rotateX rx => exact rotationX_mul_neg rx (-rx) rfl
  | rotateY ry => exact rotationY_mul_neg ry (-ry) rfl
  | rotateZ rz => exact rotationZ_mul_neg rz (-rz) rfl
  | scale s => exact (scaling_mul_inv s s s h h h).1
  | scale3 sx sy sz => exact (scaling_mul_inv sx sy sz h.1 h.2.1 h.2.2).1
  | translate tx ty tz => exact translation_mul_neg tx ty tz

/-- The elementary matrix of the inverse call times that of the call is the identity. -/
theorem Op.inverse_mul_elementary (op : Op ℝ) (h : op.NonZero) :
    op.inverse.elementary Libm.real * op.elementary Libm.real = 1 := by
  cases op with
  | rotateX rx => exact rotationX_mul_neg (-rx) rx (neg_neg rx).symm
  | rotateY ry => exact rotationY_mul_neg (-ry) ry (neg_neg ry).symm
  | rotateZ rz => exact rotationZ_mul_neg (-rz) rz (neg_neg rz).symm
  | scale s => exact (scaling_mul_inv s s s h h h).2
  | scale3 sx sy sz => exact (scaling_mul_inv sx sy sz h.1 h.2.1 h.2.2).2
  | translate tx ty tz =>
    have := translation_mul_neg (-tx) (-ty) (-tz)
    simpa only [Op.inverse, Op.elementary, neg_neg] using this

/-! ## Invariants of the transforms built by the mutators -/

theorem Mat.affine_one : Mat.Affine (1 : Mat ℝ 4 4) := by
  simp [Mat.Affine, Matrix.one_apply]

theorem Mat.Affine.mul {A B : Mat ℝ 4 4} (hA : Mat.Affine A) (hB : Mat.Affine B) :
    Mat.Affine (A * B) := by
  obtain ⟨a0, a1, a2, a3⟩ := hA
  obtain ⟨b0, b1, b2, b3⟩ := hB
  simp [Mat.Affine, Matrix.mul_apply, Fin.sum_univ_four, a0, a1, a2, a3, b0, b1, b2, b3]

theorem Op.affine_elementary (op : Op ℝ) : Mat.Affine (op.elementary Libm.real) := by
  cases op <;>
    simp [Mat.Affine, Op.elementary, rotationX, rotationY, rotationZ, scaling, translation,
      Matrix.vecHead, Matrix.vecTail]

theorem Mat.Affine.mulVec_hom {A : Mat ℝ 4 4} (hA : Mat.Affine A) (v : Vec ℝ 3) (w : ℝ) :
    Matrix.mulVec A (hom v w) = hom (proj3 (Matrix.mulVec A (hom v w))) w := by
  obtain ⟨a0, a1, a2, a3⟩ := hA
  ext i
  fin_cases i <;>
    simp [hom, proj3, Matrix.mulVec, Matrix.dotProduct, Fin.sum_univ_four, a0, a1, a2, a3]

theorem hom_proj3_self (v : Vec ℝ 3) (w : ℝ) : proj3 (hom v w) = v := by
  ext i
  fin_cases i <;> simp [hom, proj3]

theorem Transform.build_snoc (ops : List (Op ℝ)) (op : Op ℝ) :
    Transform.build Libm.real (ops ++ [op]) = op.run Libm.real (Transform.build Libm.real ops) := by
  simp [Transform.build, List.foldl_append]

theorem Transform.affine_build (ops : List (Op ℝ)) :
    (Transform.build Libm.real ops).Affine := by
  induction ops using List.reverseRecOn with
  | nil =>
    simp only [Transform.build, List.foldl_nil, Transform.Affine, Transform.identity,
      Mat.identity_eq]
    exact ⟨Mat.affine_one, Mat.affine_one⟩
  | append_singleton ops op ih =>
    rw [Transform.build_snoc]
    refine ⟨?_, ?_⟩
    · rw [Op.run_T]
      exact (Op.affine_elementary op).mul ih.1
    · rw [Op.run_Tinv]
      exact ih.2.mul (Op.affine_elementary op.inverse)

theorem Transform.inverse_build (ops : List (Op ℝ)) (h : ∀ op ∈ ops, op.NonZero) :
    (Transform.build Libm.real ops).Inverse := by
  induction ops using List.reverseRecOn with
  | nil =>
    simp [Transform.build, Transform.Inverse, Transform.identity, Mat.identity_eq]
  | append_singleton ops op ih =>
    have hops : ∀ o ∈ ops, o.NonZero := fun o ho => h o (List.mem_append_left _ ho)
    have hop : op.NonZero := h op (by simp)
    obtain ⟨h1, h2⟩ := ih hops
    rw [Transform.build_snoc]
    refine ⟨?_, ?_⟩
    · rw [Op.run_T, Op.run_Tinv]
      calc op.elementary Libm.real * (Transform.build Libm.real ops).T_ *
            ((Transform.build Libm.real ops).Tinv_ * op.inverse.elementary Libm.real)
          = op.elementary Libm.real *
              ((Transform.build Libm.real ops).T_ * (Transform.build Libm.real ops).Tinv_) *
              op.inverse.elementary Libm.real := by
            simp only [Matrix.mul_assoc]
        _ = 1 := by rw [h1, Matrix.mul_one, Op.elementary_mul_inverse op hop]
    · rw [Op.run_T, Op.run_Tinv]
      calc (Transform.build Libm.real ops).Tinv_ * op.inverse.elementary Libm.real *
            (op.elementary Libm.real * (Transform.build Libm.real ops).T_)
          = (Transform.build Libm.real ops).Tinv_ *
              (op.inverse.elementary Libm.real * op.elementary Libm.real) *
              (Transform.build Libm.real ops).T_ := by
            simp only [Matrix.mul_assoc]
        _ = 1 := by rw [Op.inverse_mul_elementary op hop, Matrix.mul_one, h2]

/-- C1: for every transform built from the identity by rotations, scalings with non-zero
factors and translations, `T_ * Tinv_` and `Tinv_ * T_` are both the 4x4 identity. -/
theorem transform_inverse_invariant (ops : List (Op ℝ)) (h : ∀ op ∈ ops, op.NonZero) :
    Mat.mul (Transform.build Libm.real ops).T_ (Transform.build Libm.real ops).Tinv_
        = Mat.identity ∧
      Mat.mul (Transform.build Libm.real ops).Tinv_ (Transform.build Libm.real ops).T_
        = Mat.identity := by
  simp only [Mat.mul_eq, Mat.identity_eq]
  exact Transform.inverse_build ops h

/-- C1 (witness): a rotation, a non-uniform scaling, a translation and a mirroring scaling. -/
theorem transform_inverse_invariant_witness :
    (∀ op ∈ [Op.rotateX (30 : ℝ), Op.scale3 2 3 4, Op.translate 1 2 3, Op.scale (-2)],
        op.NonZero) ∧
      Mat.mul
        (Transform.build Libm.real
          [Op.rotateX (30 : ℝ), Op.scale3 2 3 4, Op.translate 1 2 3, Op.scale (-2)]).T_
        (Transform.build Libm.real
          [Op.rotateX (30 : ℝ), Op.scale3 2 3 4, Op.translate 1 2 3, Op.scale (-2)]).Tinv_
        = Mat.identity :=
  ⟨by simp [Op.NonZero],
    (transform_inverse_invariant _ (by simp [Op.NonZero])).1⟩

/-! ## apply and applyInverse in matrix form -/

theorem Transform.applyDirection_eq (t : Transform ℝ) (d : Direction ℝ) :
    t.applyDirection d = proj3 (Matrix.mulVec t.T_ (hom d 0)) := by
  simp only [Transform.applyDirection, Mat.mulVec_eq]
  rfl

theorem Transform.applyInverseDirection_eq (t : Transform ℝ) (d : Direction ℝ) :
    t.applyInverseDirection d = proj3 (Matrix.mulVec t.Tinv_ (hom d 0)) := by
  simp only [Transform.applyInverseDirection, Mat.mulVec_eq]
  rfl

theorem Transform.applyNormal_eq (t : Transform ℝ) (n : Normal ℝ) :
    t.applyNormal n = proj3 (Matrix.mulVec (Matrix.transpose t.Tinv_) (hom n 0)) := by
  simp only [Transform.applyNormal, Mat.mulVec_eq, Mat.transpose_eq]
  rfl

theorem Mat.Affine.mulVec_hom_last {A : Mat ℝ 4 4} (hA : Mat.Affine A) (v : Vec ℝ 3) (w : ℝ) :
    Matrix.mulVec A (hom v w) 3 = w := by
  obtain ⟨a0, a1, a2, a3⟩ := hA
  simp [hom, Matrix.mulVec, Matrix.dotProduct, Fin.sum_univ_four, a0, a1, a2, a3]

theorem Transform.applyPoint_eq (t : Transform ℝ) (h : Mat.Affine t.T_) (p : Point ℝ) :
    t.applyPoint p = proj3 (Matrix.mulVec t.T_ (hom p 1)) := by
  have h3 := h.mulVec_hom_last p 1
  simp only [hom] at h3
  simp only [Transform.applyPoint, Mat.mulVec_eq, h3, div_one]
  rfl

theorem Transform.applyInversePoint_eq (t : Transform ℝ) (h : Mat.Affine t.Tinv_) (p : Point ℝ) :
    t.applyInversePoint p = proj3 (Matrix.mulVec t.Tinv_ (hom p 1)) := by
  have h3 := h.mulVec_hom_last p 1
  simp only [hom] at h3
  simp only [Transform.applyInversePoint, Mat.mulVec_eq, h3, div_one]
  rfl

theorem Transform.applyInverse_applyPoint (t : Transform ℝ) (ha : t.Affine) (hi : t.Inverse)
    (p : Point ℝ) : t.applyInversePoint (t.applyPoint p) = p := by
  rw [t.applyPoint_eq ha.1, t.applyInversePoint_eq ha.2, ← ha.1.mulVec_hom, Matrix.mulVec_mulVec,
    hi.2, Matrix.one_mulVec, hom_proj3_self]

theorem Transform.apply_applyInversePoint (t : Transform ℝ) (ha : t.Affine) (hi : t.Inverse)
    (p : Point ℝ) : t.applyPoint (t.applyInversePoint p) = p := by
  rw [t.applyInversePoint_eq ha.2, t.applyPoint_eq ha.1, ← ha.2.mulVec_hom, Matrix.mulVec_mulVec,
    hi.1, Matrix.one_mulVec, hom_proj3_self]

/-- C2: for every transform built from the identity by rotations, scalings with non-zero
factors and translations, and every point `p`, `applyInverse(apply(p)) = p` and
`apply(applyInverse(p)) = p`. -/
theorem applyInverse_apply_roundtrip (ops : List (Op ℝ)) (h : ∀ op ∈ ops, op.NonZero)
    (p : Point ℝ) :
    (Transform.build Libm.real ops).applyInversePoint
        ((Transform.build Libm.real ops).applyPoint p) = p ∧
      (Transform.build Libm.real ops).applyPoint
        ((Transform.build Libm.real ops).applyInversePoint p) = p :=
  ⟨Transform.applyInverse_applyPoint _ (Transform.affine_build ops)
      (Transform.inverse_build ops h) p,
    Transform.apply_applyInversePoint _ (Transform.affine_build ops)
      (Transform.inverse_build ops h) p⟩

/-- C2 (witness): a rotation, a non-uniform scaling and a translation, at the point
`(1, 0, -1)`. -/
theorem applyInverse_apply_roundtrip_witness :
    (∀ op ∈ [Op.rotateZ (45 : ℝ), Op.scale3 2 (-3) 4, Op.translate 1 2 3], op.NonZero) ∧
      (Transform.build Libm.real [Op.rotateZ (45 : ℝ), Op.scale3 2 (-3) 4, Op.translate 1 2 3]
        ).applyInversePoint
        ((Transform.build Libm.real [Op.rotateZ (45 : ℝ), Op.scale3 2 (-3) 4, Op.translate 1 2 3]
          ).applyPoint ![1, 0, -1]) = ![1, 0, -1] :=
  ⟨by simp [Op.NonZero],
    (applyInverse_apply_roundtrip _ (by simp [Op.NonZero]) ![1, 0, -1]).1⟩

theorem dot_proj3 (u v : Vec ℝ 4) (hv : v 3 = 0) :
    Vec.dot (proj3 u) (proj3 v) = Matrix.dotProduct u v := by
  simp [Vec.dot_eq, Matrix.dotProduct, Fin.sum_univ_four, Fin.sum_univ_three, proj3, hv]

theorem dot_hom_zero (u v : Vec ℝ 3) :
    Matrix.dotProduct (hom u 0) (hom v 0) = Vec.dot u v := by
  simp [Vec.dot_eq, Matrix.dotProduct, Fin.sum_univ_four, Fin.sum_univ_three, hom]

theorem Transform.applyNormal_dot_applyDirection (t : Transform ℝ) (ha : t.Affine)
    (hi : t.Inverse) (n : Normal ℝ) (d : Direction ℝ) :
    Vec.dot (t.applyNormal n) (t.applyDirection d) = Vec.dot n d := by
  rw [t.applyNormal_eq, t.applyDirection_eq, dot_proj3 _ _ (ha.1.mulVec_hom_last d 0),
    Matrix.mulVec_transpose, ← Matrix.dotProduct_mulVec, Matrix.mulVec_mulVec, hi.2,
    Matrix.one_mulVec, dot_hom_zero]

/-- C3: for every transform built from the identity by rotations, scalings with non-zero
factors (uniform or not) and translations, every normal `n` and every direction `d`,
`apply(n) . apply(d) = n . d`; in particular a normal perpendicular to `d` stays
perpendicular to it after the transform. -/
theorem normal_dot_direction_preserved (ops : List (Op ℝ)) (h : ∀ op ∈ ops, op.NonZero)
    (n : Normal ℝ) (d : Direction ℝ) :
    Vec.dot ((Transform.build Libm.real ops).applyNormal n)
        ((Transform.build Libm.real ops).applyDirection d) = Vec.dot n d ∧
      (Vec.dot n d = 0 →
        Vec.dot ((Transform.build Libm.real ops).applyNormal n)
          ((Transform.build Libm.real ops).applyDirection d) = 0) := by
  have key := Transform.applyNormal_dot_applyDirection _ (Transform.affine_build ops)
    (Transform.inverse_build ops h) n d
  exact ⟨key, fun h0 => key.trans h0⟩

/-- C3 (witness): a non-uniform scaling followed by a rotation; the normal `(1,1,0)` is
perpendicular to the direction `(1,-1,0)` and stays so. -/
theorem normal_dot_direction_preserved_witness :
    (∀ op ∈ [Op.scale3 (1 : ℝ) 2 3, Op.rotateY 10], op.NonZero) ∧
      Vec.dot (![1, 1, 0] : Vec ℝ 3) ![1, -1, 0] = 0 ∧
      Vec.dot ((Transform.build Libm.real [Op.scale3 (1 : ℝ) 2 3, Op.rotateY 10]).applyNormal
          ![1, 1, 0])
        ((Transform.build Libm.real [Op.scale3 (1 : ℝ) 2 3, Op.rotateY 10]).applyDirection
          ![1, -1, 0]) = 0 :=
  ⟨by simp [Op.NonZero],
    by simp [Vec.dot_eq, Matrix.dotProduct, Fin.sum_univ_three],
    (normal_dot_direction_preserved _ (by simp [Op.NonZero]) ![1, 1, 0] ![1, -1, 0]).2
      (by simp [Vec.dot_eq, Matrix.dotProduct, Fin.sum_univ_three])⟩

/-! ## Translation -/

theorem proj3_translation_mulVec (tx ty tz : ℝ) (q : Vec ℝ 3) (w : ℝ) :
    proj3 (Matrix.mulVec (translation tx ty tz) (hom q w)) = q + w • ![tx, ty, tz] := by
  ext i
  fin_cases i <;>
    simp [proj3, hom, translation, Matrix.mulVec, Matrix.dotProduct, Fin.sum_univ_four,
      Matrix.vecHead, Matrix.vecTail, mul_comm]

theorem proj3_translation_transpose_mulVec (tx ty tz : ℝ) (x : Vec ℝ 4) :
    proj3 (Matrix.mulVec (Matrix.transpose (translation tx ty tz)) x) = proj3 x := by
  ext i
  fin_cases i <;>
    simp [proj3, translation, Matrix.mulVec, Matrix.dotProduct, Fin.sum_univ_four,
      Matrix.vecHead, Matrix.vecTail]

theorem Transform.translate_applyPoint (t : Transform ℝ) (ha : Mat.Affine t.T_)
    (tx ty tz : ℝ) (p : Point ℝ) :
    (t.translate tx ty tz).applyPoint p = t.applyPoint p + ![tx, ty, tz] := by
  have hT : (t.translate tx ty tz).T_ = translation tx ty tz * t.T_ :=
    Op.run_T (Op.translate tx ty tz) t
  have ha2 : Mat.Affine (t.translate tx ty tz).T_ := by
    rw [hT]
    exact (Op.affine_elementary (Op.translate tx ty tz)).mul ha
  rw [Transform.applyPoint_eq _ ha2, hT, ← Matrix.mulVec_mulVec, ha.mulVec_hom,
    proj3_translation_mulVec, one_smul, t.applyPoint_eq ha]

theorem Transform.translate_applyDirection (t : Transform ℝ) (ha : Mat.Affine t.T_)
    (tx ty tz : ℝ) (d : Direction ℝ) :
    (t.translate tx ty tz).applyDirection d = t.applyDirection d := by
  have hT : (t.translate tx ty tz).T_ = translation tx ty tz * t.T_ :=
    Op.run_T (Op.translate tx ty tz) t
  rw [Transform.applyDirection_eq, hT, ← Matrix.mulVec_mulVec, ha.mulVec_hom,
    proj3_translation_mulVec, zero_smul, add_zero, t.applyDirection_eq]

theorem Transform.translate_applyNormal (t : Transform ℝ) (tx ty tz : ℝ) (n : Normal ℝ) :
    (t.translate tx ty tz).applyNormal n = t.applyNormal n := by
  have hT : (t.translate tx ty tz).Tinv_ = t.Tinv_ * translation (-tx) (-ty) (-tz) :=
    Op.run_Tinv (Op.translate tx ty tz) t
  rw [Transform.applyNormal_eq, hT, Matrix.transpose_mul, ← Matrix.mulVec_mulVec,
    proj3_translation_transpose_mulVec, t.applyNormal_eq]

/-- C4: for every transform `t` reached from the identity by mutator calls whose scale
factors are not zero, and every `(tx,ty,tz)`, point `p`, direction `d` and normal `n`: after
`t.translate(tx,ty,tz)`, `apply(p)` is its value before the call plus `(tx,ty,tz)`, while
`apply(d)` and `apply(n)` are what they were before the call.  (A scale factor 0 makes the
code store `1.0/0` in `Tinv_`; such transforms are left out.) -/
theorem translate_moves_points_only (ops : List (Op ℝ)) (_hnz : ∀ op ∈ ops, op.NonZero)
    (tx ty tz : ℝ) (p : Point ℝ) (d : Direction ℝ) (n : Normal ℝ) :
    ((Transform.build Libm.real ops).translate tx ty tz).applyPoint p
        = (Transform.build Libm.real ops).applyPoint p + ![tx, ty, tz] ∧
      ((Transform.build Libm.real ops).translate tx ty tz).applyDirection d
        = (Transform.build Libm.real ops).applyDirection d ∧
      ((Transform.build Libm.real ops).translate tx ty tz).applyNormal n
        = (Transform.build Libm.real ops).applyNormal n :=
  ⟨Transform.translate_applyPoint _ (Transform.affine_build ops).1 tx ty tz p,
    Transform.translate_applyDirection _ (Transform.affine_build ops).1 tx ty tz d,
    Transform.translate_applyNormal _ tx ty tz n⟩

/-- C4 (witness): a rotation and a non-uniform scaling, followed by `translate(1,2,3)`; the
point `(1,0,0)`, the direction `(0,1,0)` and the normal `(0,0,1)`. -/
theorem translate_moves_points_only_witness :
    (∀ op ∈ [Op.rotateX (30 : ℝ), Op.scale3 2 3 4], op.NonZero) ∧
      ((Transform.build Libm.real [Op.rotateX (30 : ℝ), Op.scale3 2 3 4]).translate 1 2 3).applyPoint
          ![1, 0, 0]
        = (Transform.build Libm.real [Op.rotateX (30 : ℝ), Op.scale3 2 3 4]).applyPoint
            ![1, 0, 0] + ![1, 2, 3] ∧
      ((Transform.build Libm.real
            [Op.rotateX (30 : ℝ), Op.scale3 2 3 4]).translate 1 2 3).applyDirection ![0, 1, 0]
        = (Transform.build Libm.real [Op.rotateX (30 : ℝ), Op.scale3 2 3 4]).applyDirection
            ![0, 1, 0] ∧
      ((Transform.build Libm.real
            [Op.rotateX (30 : ℝ), Op.scale3 2 3 4]).translate 1 2 3).applyNormal ![0, 0, 1]
        = (Transform.build Libm.real [Op.rotateX (30 : ℝ), Op.scale3 2 3 4]).applyNormal
            ![0, 0, 1] :=
  ⟨by simp [Op.NonZero],
    translate_moves_points_only [Op.rotateX (30 : ℝ), Op.scale3 2 3 4] (by simp [Op.NonZero])
      1 2 3 ![1, 0, 0] ![0, 1, 0] ![0, 0, 1]⟩

/-! ## Composition of the mutators -/

theorem epsilon_pos : (0 : ℝ) < epsilon := by
  norm_num [epsilon]

theorem sign_eq_zero_iff (x : ℝ) : sign x = 0 ↔ |x| < epsilon := by
  unfold sign
  split_ifs <;> simp_all

theorem sign_eq_one_iff (x : ℝ) : sign x = 1 ↔ epsilon ≤ x := by
  have he := epsilon_pos
  unfold sign
  split_ifs with h1 h2
  · have := (abs_lt.mp h1).2
    simp only [zero_ne_one, false_iff, not_le]
    exact this
  · simp only [Int.reduceNeg, Int.reduceEq, false_iff, not_le] 
    linarith
  · simp only [true_iff]
    rw [abs_of_nonneg (not_lt.mp h2)] at h1
    exact not_lt.mp h1

theorem sign_eq_neg_one_iff (x : ℝ) : sign x = -1 ↔ x ≤ -epsilon := by
  have he := epsilon_pos
  unfold sign
  split_ifs with h1 h2
  · have := (abs_lt.mp h1).1
    simp only [Int.reduceNeg, Int.reduceEq, false_iff, not_le]
    exact this
  · simp only [true_iff]
    rw [abs_of_neg h2] at h1
    linarith [not_lt.mp h1]
  · simp only [Int.reduceNeg, Int.reduceEq, false_iff, not_le]
    linarith [not_lt.mp h2]

theorem sign_cases (x : ℝ) : sign x = -1 ∨ sign x = 0 ∨ sign x = 1 := by
  unfold sign
  split_ifs <;> simp

/-! ## The cases of Sphere::intersect -/

theorem Sphere.discriminant_eq (s : Sphere ℝ) (ray : Ray ℝ) :
    s.discriminant ray
      = s.coeffB ray * s.coeffB ray - 4 * s.coeffA ray * s.coeffC ray :=
  rfl

theorem Sphere.intersect_of_discriminant_neg (s : Sphere ℝ) (ray : Ray ℝ)
    (h : s.discriminant ray ≤ -epsilon) : s.intersect Libm.real ray = some [] := by
  have hs := (sign_eq_neg_one_iff _).mpr h
  unfold Sphere.discriminant at hs
  simp only [Sphere.intersect, hs, if_true]

theorem Sphere.intersect_of_discriminant_zero (s : Sphere ℝ) (ray : Ray ℝ)
    (h : |s.discriminant ray| < epsilon) :
    s.intersect Libm.real ray
      = some (if 0 < -s.coeffB ray / (2 * s.coeffA ray) then
          [s.hitAt Libm.real ray (s.transform.applyInverseRay ray)
            (-s.coeffB ray / (2 * s.coeffA ray))]
        else []) := by
  have hs := (sign_eq_zero_iff _).mpr h
  unfold Sphere.discriminant at hs
  simp only [Sphere.intersect, hs, Sphere.coeffA, Sphere.coeffB, gt_iff_lt, List.nil_append]
  simp

theorem Sphere.intersect_of_discriminant_pos (s : Sphere ℝ) (ray : Ray ℝ)
    (h : epsilon ≤ s.discriminant ray) :
    s.intersect Libm.real ray
      = some ((if 0 < (-s.coeffB ray + Real.sqrt (s.discriminant ray)) / (2 * s.coeffA ray) then
            [s.hitAt Libm.real ray (s.transform.applyInverseRay ray)
              ((-s.coeffB ray + Real.sqrt (s.discriminant ray)) / (2 * s.coeffA ray))]
          else []) ++
        (if 0 < (-s.coeffB ray - Real.sqrt (s.discriminant ray)) / (2 * s.coeffA ray) then
            [s.hitAt Libm.real ray (s.transform.applyInverseRay ray)
              ((-s.coeffB ray - Real.sqrt (s.discriminant ray)) / (2 * s.coeffA ray))]
          else [])) := by
  have hs := (sign_eq_one_iff _).mpr h
  unfold Sphere.discriminant at hs
  simp only [Sphere.intersect, hs, Sphere.coeffA, Sphere.coeffB, Sphere.discriminant,
    gt_iff_lt, List.nil_append, Libm.real]
  simp
  split_ifs <;> simp

theorem Sphere.discriminant_cases (s : Sphere ℝ) (ray : Ray ℝ) :
    s.discriminant ray ≤ -epsilon ∨ |s.discriminant ray| < epsilon ∨
      epsilon ≤ s.discriminant ray := by
  rcases sign_cases (s.discriminant ray) with h | h | h
  · exact Or.inl ((sign_eq_neg_one_iff _).mp h)
  · exact Or.inr (Or.inl ((sign_eq_zero_iff _).mp h))
  · exact Or.inr (Or.inr ((sign_eq_one_iff _).mp h))

/-- The switch of `Sphere::intersect` never reaches its `default:` branch: a list of hits is
always returned. -/
theorem Sphere.intersect_total (s : Sphere ℝ) (ray : Ray ℝ) :
    ∃ hits, s.intersect Libm.real ray = some hits := by
  rcases s.discriminant_cases ray with h | h | h
  · exact ⟨_, s.intersect_of_discriminant_neg ray h⟩
  · exact ⟨_, s.intersect_of_discriminant_zero ray h⟩
  · exact ⟨_, s.intersect_of_discriminant_pos ray h⟩

theorem Vec.dot_self_nonneg (v : Vec ℝ 3) : 0 ≤ Vec.dot v v := by
  rw [Vec.dot_eq]
  simp only [Matrix.dotProduct, Fin.sum_univ_three]
  nlinarith [mul_self_nonneg (v 0), mul_self_nonneg (v 1), mul_self_nonneg (v 2)]

theorem Sphere.coeffA_nonneg (s : Sphere ℝ) (ray : Ray ℝ) : 0 ≤ s.coeffA ray :=
  Vec.dot_self_nonneg _

theorem Sphere.intersect_eq_nil_of_away (s : Sphere ℝ) (ray : Ray ℝ)
    (hout : 1 < Vec.squaredNorm (s.transform.applyInverseRay ray).point)
    (haway : 0 ≤ Vec.dot (s.transform.applyInverseRay ray).direction
      (s.transform.applyInverseRay ray).point) :
    s.intersect Libm.real ray = some [] := by
  have ha : 0 ≤ s.coeffA ray := s.coeffA_nonneg ray
  have hb : 0 ≤ s.coeffB ray := by
    unfold Sphere.coeffB
    linarith
  have hc : 0 < s.coeffC ray := by
    unfold Sphere.coeffC
    linarith
  have h2a : 0 ≤ 2 * s.coeffA ray := by linarith
  rcases s.discriminant_cases ray with h | h | h
  · exact s.intersect_of_discriminant_neg ray h
  · rw [s.intersect_of_discriminant_zero ray h, if_neg]
    exact not_lt.mpr (div_nonpos_of_nonpos_of_nonneg (by linarith) h2a)
  · have hsq : Real.sqrt (s.discriminant ray) ≤ s.coeffB ray := by
      rw [Real.sqrt_le_left hb, s.discriminant_eq]
      nlinarith [mul_nonneg ha hc.le]
    have hs0 : 0 ≤ Real.sqrt (s.discriminant ray) := Real.sqrt_nonneg _
    rw [s.intersect_of_discriminant_pos ray h, if_neg, if_neg]
    · rfl
    · exact not_lt.mpr (div_nonpos_of_nonpos_of_nonneg (by linarith) h2a)
    · exact not_lt.mpr (div_nonpos_of_nonpos_of_nonneg (by linarith) h2a)

/-- C6: for every sphere whose transform is built with non-zero scale factors and every ray
with non-zero direction, if in the sphere's local space the ray origin `o` is outside the
unit sphere (`|o|^2 > 1`) and the direction `d` points away from it (`d . o >= 0`), then
`Sphere::intersect` returns the empty list. -/
theorem sphere_miss_when_pointing_away (s : Sphere ℝ) (ops : List (Op ℝ))
    (_hs : s.transform = Transform.build Libm.real ops) (_h : ∀ op ∈ ops, op.NonZero)
    (ray : Ray ℝ) (_hdir : ray.direction ≠ 0)
    (hout : 1 < Vec.squaredNorm (s.transform.applyInverseRay ray).point)
    (haway : 0 ≤ Vec.dot (s.transform.applyInverseRay ray).direction
      (s.transform.applyInverseRay ray).point) :
    s.intersect Libm.real ray = some [] :=
  s.intersect_eq_nil_of_away ray hout haway

theorem build_scale_two_applyInverseRay (p d : Vec ℝ 3) :
    (Transform.build Libm.real [Op.scale (2 : ℝ)]).applyInverseRay ⟨p, d⟩
      = ⟨![p 0 / 2, p 1 / 2, p 2 / 2], ![d 0 / 2, d 1 / 2, d 2 / 2]⟩ := by
  simp [Transform.build, Op.run, Transform.scale, Transform.applyInverseRay,
    Transform.applyInversePoint, Transform.applyInverseDirection, Transform.identity,
    Mat.mul_eq, Mat.mulVec_eq, Mat.identity_eq, Matrix.mulVec, Matrix.dotProduct,
    Fin.sum_univ_four, Mat.set, Matrix.one_apply, Matrix.mul_apply]
  constructor <;> ext i <;> fin_cases i <;> simp <;> ring

theorem ne_zero_of_third {v : Vec ℝ 3} (h : v 2 ≠ 0) : v ≠ 0 :=
  fun h0 => h (by rw [h0]; rfl)

/-- C6 (witness): the sphere of radius 2 (`scale(2)`) and the ray from `(0,0,6)` along
`(0,0,1)`. -/
theorem sphere_miss_when_pointing_away_witness :
    Sphere.intersect Libm.real
      { transform := Transform.build Libm.real [Op.scale (2 : ℝ)], material := Material.default }
      ⟨![0, 0, 6], ![0, 0, 1]⟩ = some [] :=
  sphere_miss_when_pointing_away
    { transform := Transform.build Libm.real [Op.scale (2 : ℝ)], material := Material.default }
    [Op.scale (2 : ℝ)] rfl (by simp [Op.NonZero])
    ⟨![0, 0, 6], ![0, 0, 1]⟩ (ne_zero_of_third (by simp))
    (by
      rw [build_scale_two_applyInverseRay]
      norm_num [Vec.squaredNorm, Vec.dot_eq, Matrix.dotProduct, Fin.sum_univ_three])
    (by
      rw [build_scale_two_applyInverseRay]
      norm_num [Vec.dot_eq, Matrix.dotProduct, Fin.sum_univ_three])

/-! ## Hits of Sphere::intersect -/

theorem hom_add_smul (u v : Vec ℝ 3) (k : ℝ) :
    hom (u + k • v) 1 = hom u 1 + k • hom v 0 := by
  ext i
  fin_cases i <;> simp [hom]

theorem proj3_add_smul (x y : Vec ℝ 4) (k : ℝ) :
    proj3 (x + k • y) = proj3 x + k • proj3 y := by
  ext i
  fin_cases i <;> simp [proj3]

theorem Transform.applyInversePoint_add_smul (t : Transform ℝ) (ha : t.Affine) (p v : Vec ℝ 3)
    (k : ℝ) :
    t.applyInversePoint (p + k • v) = t.applyInversePoint p + k • t.applyInverseDirection v := by
  rw [t.applyInversePoint_eq ha.2, t.applyInversePoint_eq ha.2, t.applyInverseDirection_eq,
    hom_add_smul, Matrix.mulVec_add, Matrix.mulVec_smul, proj3_add_smul]

theorem Transform.applyPoint_add_smul (t : Transform ℝ) (ha : t.Affine) (p v : Vec ℝ 3)
    (k : ℝ) :
    t.applyPoint (p + k • v) = t.applyPoint p + k • t.applyDirection v := by
  rw [t.applyPoint_eq ha.1, t.applyPoint_eq ha.1, t.applyDirection_eq,
    hom_add_smul, Matrix.mulVec_add, Matrix.mulVec_smul, proj3_add_smul]

theorem Transform.apply_applyInverseDirection (t : Transform ℝ) (ha : t.Affine)
    (hi : t.Inverse) (v : Direction ℝ) : t.applyDirection (t.applyInverseDirection v) = v := by
  rw [t.applyInverseDirection_eq, t.applyDirection_eq, ← ha.2.mulVec_hom, Matrix.mulVec_mulVec,
    hi.1, Matrix.one_mulVec, hom_proj3_self]

/-- The world point of the local point `o + k d` of the local ray is `p + k dir`. -/
theorem Transform.applyPoint_local (t : Transform ℝ) (ha : t.Affine) (hi : t.Inverse)
    (ray : Ray ℝ) (k : ℝ) :
    t.applyPoint ((t.applyInverseRay ray).point + k • (t.applyInverseRay ray).direction)
      = ray.point + k • ray.direction := by
  simp only [Transform.applyInverseRay]
  rw [t.applyPoint_add_smul ha, t.apply_applyInversePoint ha hi,
    t.apply_applyInverseDirection ha hi]

theorem Transform.applyNormal_smul (t : Transform ℝ) (n : Normal ℝ) (k : ℝ) :
    t.applyNormal (k • n) = k • t.applyNormal n := by
  have h : hom (k • n) 0 = k • hom n 0 := by
    ext i
    fin_cases i <;> simp [hom]
  have h2 : ∀ x : Vec ℝ 4, proj3 (k • x) = k • proj3 x := by
    intro x
    ext i
    fin_cases i <;> simp [proj3]
  rw [t.applyNormal_eq, t.applyNormal_eq, h, Matrix.mulVec_smul, h2]

theorem Vec.dot_smul_left (u v : Vec ℝ 3) (k : ℝ) : Vec.dot (k • u) v = k * Vec.dot u v := by
  simp only [Vec.dot_eq, Matrix.smul_dotProduct, smul_eq_mul]

theorem Vec.dot_smul_right (u v : Vec ℝ 3) (k : ℝ) : Vec.dot u (k • v) = k * Vec.dot u v := by
  simp only [Vec.dot_eq, Matrix.dotProduct_smul, smul_eq_mul]

theorem Vec.dot_neg_left (u v : Vec ℝ 3) : Vec.dot (-u) v = -Vec.dot u v := by
  simp only [Vec.dot_eq, Matrix.neg_dotProduct]

theorem Vec.norm_smul (v : Vec ℝ 3) (k : ℝ) (hk : 0 ≤ k) :
    Vec.norm Libm.real (k • v) = k * Vec.norm Libm.real v := by
  simp only [Vec.norm, Libm.real, Vec.dot_smul_left, Vec.dot_smul_right]
  rw [← mul_assoc, Real.sqrt_mul (mul_self_nonneg k), Real.sqrt_mul_self hk]

/-- Every hit returned comes from a root `t > 0`, and the coefficient `a` is then positive. -/
theorem Sphere.mem_intersect (s : Sphere ℝ) (ray : Ray ℝ) (hits : List (RayIntersection ℝ))
    (h : s.intersect Libm.real ray = some hits) (x : RayIntersection ℝ) (hx : x ∈ hits) :
    ∃ t : ℝ, 0 < t ∧ 0 < s.coeffA ray ∧
      x = s.hitAt Libm.real ray (s.transform.applyInverseRay ray) t := by
  have ha : 0 ≤ s.coeffA ray := s.coeffA_nonneg ray
  have key : ∀ n : ℝ, 0 < n / (2 * s.coeffA ray) → 0 < s.coeffA ray := by
    intro n hn
    rcases ha.eq_or_lt with h0 | h0
    · rw [← h0] at hn
      simp at hn
    · exact h0
  rcases s.discriminant_cases ray with hd | hd | hd
  · rw [s.intersect_of_discriminant_neg ray hd] at h
    cases h
    simp at hx
  · rw [s.intersect_of_discriminant_zero ray hd] at h
    cases h
    split_ifs at hx with h1
    · simp only [List.mem_singleton] at hx
      exact ⟨_, h1, key _ h1, hx⟩
    · simp at hx
  · rw [s.intersect_of_discriminant_pos ray hd] at h
    cases h
    rcases List.mem_append.mp hx with hx | hx
    · split_ifs at hx with h1
      · simp only [List.mem_singleton] at hx
        exact ⟨_, h1, key _ h1, hx⟩
      · simp at hx
    · split_ifs at hx with h1
      · simp only [List.mem_singleton] at hx
        exact ⟨_, h1, key _ h1, hx⟩
      · simp at hx

/-- C10: for every sphere and every ray, `Sphere::intersect` returns a list of hits, and
every hit in it has a normal that does not point along the incoming ray:
`hit.normal . ray.direction <= 0`. -/
theorem sphere_normal_opposes_ray (s : Sphere ℝ) (ray : Ray ℝ) :
    ∃ hits, s.intersect Libm.real ray = some hits ∧
      ∀ hit ∈ hits, Vec.dot hit.normal ray.direction ≤ 0 := by
  obtain ⟨hits, h⟩ := s.intersect_total ray
  refine ⟨hits, h, fun hit hmem => ?_⟩
  obtain ⟨t, -, -, rfl⟩ := s.mem_intersect ray hits h hit hmem
  simp only [Sphere.hitAt]
  split_ifs with h1
  · rw [Vec.dot_neg_left]
    linarith
  · exact not_lt.mp h1

/-! ## The default sphere on concrete rays -/

theorem Transform.affine_identity : (Transform.identity : Transform ℝ).Affine :=
  Transform.affine_build []

theorem Transform.inverse_identity : (Transform.identity : Transform ℝ).Inverse :=
  Transform.inverse_build [] (by simp)

theorem Transform.identity_applyInverseRay (ray : Ray ℝ) :
    (Transform.identity : Transform ℝ).applyInverseRay ray = ray := by
  have h1 : (Transform.identity : Transform ℝ).applyInversePoint ray.point = ray.point := by
    rw [Transform.applyInversePoint_eq _ Transform.affine_identity.2]
    simp [Transform.identity, Mat.identity_eq, hom_proj3_self]
  have h2 : (Transform.identity : Transform ℝ).applyInverseDirection ray.direction
      = ray.direction := by
    rw [Transform.applyInverseDirection_eq]
    simp [Transform.identity, Mat.identity_eq, hom_proj3_self]
  simp only [Transform.applyInverseRay, h1, h2]

theorem Transform.identity_applyPoint (p : Point ℝ) :
    (Transform.identity : Transform ℝ).applyPoint p = p := by
  rw [Transform.applyPoint_eq _ Transform.affine_identity.1]
  simp [Transform.identity, Mat.identity_eq, hom_proj3_self]

theorem Transform.identity_applyNormal (n : Normal ℝ) :
    (Transform.identity : Transform ℝ).applyNormal n = n := by
  rw [Transform.applyNormal_eq]
  simp [Transform.identity, Mat.identity_eq, hom_proj3_self]

theorem Vec.dot_z (x y : ℝ) : Vec.dot (![0, 0, x] : Vec ℝ 3) ![0, 0, y] = x * y := by
  simp [Vec.dot_eq, Matrix.dotProduct, Fin.sum_univ_three]

/-- The hit of the default sphere for the root `t` of a ray along the z axis. -/
theorem Sphere.default_hitAt_z (z dz t : ℝ) :
    (Sphere.default : Sphere ℝ).hitAt Libm.real ⟨![0, 0, z], ![0, 0, dz]⟩
        ⟨![0, 0, z], ![0, 0, dz]⟩ t
      = { point := ![0, 0, z + t * dz]
          normal := if 0 < (z + t * dz) * dz then ![0, 0, -(z + t * dz)] else ![0, 0, z + t * dz]
          material := Material.default
          distance := Real.sqrt ((t * dz) * (t * dz)) * ((sign t : Int) : ℝ) } := by
  have hp : (![0, 0, z] : Vec ℝ 3) + t • ![0, 0, dz] = ![0, 0, z + t * dz] := by
    ext i
    fin_cases i <;> simp
  have hq : (![0, 0, z + t * dz] : Vec ℝ 3) - ![0, 0, z] = ![0, 0, t * dz] := by
    ext i
    fin_cases i <;> simp
  have hn : -(![0, 0, z + t * dz] : Vec ℝ 3) = ![0, 0, -(z + t * dz)] := by
    ext i
    fin_cases i <;> simp
  simp only [Sphere.hitAt, Sphere.default, Transform.identity_applyPoint,
    Transform.identity_applyNormal, hp, hq, hn, Vec.norm, Vec.dot_z, Libm.real, gt_iff_lt]

theorem Sphere.default_coeffs_z (z dz : ℝ) :
    (Sphere.default : Sphere ℝ).coeffA ⟨![0, 0, z], ![0, 0, dz]⟩ = dz * dz ∧
      (Sphere.default : Sphere ℝ).coeffB ⟨![0, 0, z], ![0, 0, dz]⟩ = 2 * (dz * z) ∧
      (Sphere.default : Sphere ℝ).discriminant ⟨![0, 0, z], ![0, 0, dz]⟩ = 4 * (dz * dz) := by
  refine ⟨?_, ?_, ?_⟩ <;>
    simp only [Sphere.coeffA, Sphere.coeffB, Sphere.discriminant, Sphere.default,
      Transform.identity_applyInverseRay, Vec.squaredNorm, Vec.dot_z]
  ring

/-- The unit sphere at the origin and the ray from `(0,0,-5)` along `(0,0,1)`: two hits, at
distances 6 and 4, both with normal `(0,0,-1)`. -/
theorem Sphere.default_intersect_axis :
    (Sphere.default : Sphere ℝ).intersect Libm.real ⟨![0, 0, -5], ![0, 0, 1]⟩
      = some [{ point := ![0, 0, 1], normal := ![0, 0, -1], material := Material.default,
                distance := 6 },
              { point := ![0, 0, -1], normal := ![0, 0, -1], material := Material.default,
                distance := 4 }] := by
  obtain ⟨hA, hB, hD⟩ := Sphere.default_coeffs_z (-5) 1
  have hs : Real.sqrt (4 * (1 * 1)) = 2 := by
    rw [show (4 : ℝ) * (1 * 1) = 2 * 2 by norm_num]
    exact Real.sqrt_mul_self (by norm_num)
  have h6 : Real.sqrt 36 = 6 := by
    rw [show (36 : ℝ) = 6 * 6 by norm_num]
    exact Real.sqrt_mul_self (by norm_num)
  have h4 : Real.sqrt 16 = 4 := by
    rw [show (16 : ℝ) = 4 * 4 by norm_num]
    exact Real.sqrt_mul_self (by norm_num)
  have s6 : sign (6 : ℝ) = 1 := (sign_eq_one_iff _).mpr (by norm_num [epsilon])
  have s4 : sign (4 : ℝ) = 1 := (sign_eq_one_iff _).mpr (by norm_num [epsilon])
  have ht : (Sphere.default : Sphere ℝ).transform = Transform.identity := rfl
  rw [Sphere.intersect_of_discriminant_pos _ _ (by rw [hD]; norm_num [epsilon]), ht,
    Transform.identity_applyInverseRay, hA, hB, hD, hs]
  norm_num [Sphere.default_hitAt_z, h6, h4, s6, s4]

/-! ## Point and distance of a hit -/

theorem Vec.dot_self_pos {v : Vec ℝ 3} (hv : v ≠ 0) : 0 < Vec.dot v v := by
  rcases (Vec.dot_self_nonneg v).eq_or_lt with h | h
  · rw [Vec.dot_eq] at h
    exact absurd (Matrix.dotProduct_self_eq_zero.mp h.symm) hv
  · exact h

theorem Sphere.hitAt_point (s : Sphere ℝ) (ha : s.transform.Affine) (hi : s.transform.Inverse)
    (ray : Ray ℝ) (t : ℝ) :
    (s.hitAt Libm.real ray (s.transform.applyInverseRay ray) t).point
      = ray.point + t • ray.direction := by
  simp only [Sphere.hitAt]
  exact s.transform.applyPoint_local ha hi ray t

theorem Sphere.hitAt_distance (s : Sphere ℝ) (ha : s.transform.Affine)
    (hi : s.transform.Inverse) (ray : Ray ℝ) (t : ℝ) (ht : 0 ≤ t) :
    (s.hitAt Libm.real ray (s.transform.applyInverseRay ray) t).distance
      = t * Vec.norm Libm.real ray.direction * ((sign t : Int) : ℝ) := by
  have hp := s.hitAt_point ha hi ray t
  simp only [Sphere.hitAt] at hp ⊢
  rw [hp, add_sub_cancel_left, Vec.norm_smul _ _ ht]

/-- The unit sphere at the origin and the ray from `(0,0,-2)` along `(0,0,10^7)`: the roots
are `3e-7` and `1e-7`, and both hits are stored with distance 0, although the hit points are
at distance 3 and 1 from the ray origin. -/
theorem Sphere.default_intersect_long_direction :
    (Sphere.default : Sphere ℝ).intersect Libm.real ⟨![0, 0, -2], ![0, 0, 10000000]⟩
      = some [{ point := ![0, 0, 1], normal := ![0, 0, -1], material := Material.default,
                distance := 0 },
              { point := ![0, 0, -1], normal := ![0, 0, -1], material := Material.default,
                distance := 0 }] := by
  obtain ⟨hA, hB, hD⟩ := Sphere.default_coeffs_z (-2) 10000000
  have hs : Real.sqrt (4 * (10000000 * 10000000)) = 20000000 := by
    rw [show (4 : ℝ) * (10000000 * 10000000) = 20000000 * 20000000 by norm_num]
    exact Real.sqrt_mul_self (by norm_num)
  have s3 : sign (3 / 10000000 : ℝ) = 0 :=
    (sign_eq_zero_iff _).mpr (by rw [abs_of_pos (by norm_num)]; norm_num [epsilon])
  have s1 : sign (1 / 10000000 : ℝ) = 0 :=
    (sign_eq_zero_iff _).mpr (by rw [abs_of_pos (by norm_num)]; norm_num [epsilon])
  have r1 : (-(2 * (10000000 * -2)) + 20000000) / (2 * (10000000 * 10000000))
      = (3 / 10000000 : ℝ) := by norm_num
  have r2 : (-(2 * (10000000 * -2)) - 20000000) / (2 * (10000000 * 10000000))
      = (1 / 10000000 : ℝ) := by norm_num
  have ht : (Sphere.default : Sphere ℝ).transform = Transform.identity := rfl
  rw [Sphere.intersect_of_discriminant_pos _ _ (by rw [hD]; norm_num [epsilon]), ht,
    Transform.identity_applyInverseRay, hA, hB, hD, hs, r1, r2]
  norm_num [Sphere.default_hitAt_z, s3, s1]

/-- C9: the unit sphere at the origin and the ray from `(0,0,-2)` along `(0,0,10^7)`: the
first hit returned is at `(0,0,1)`, at world-space distance 3 from the ray origin, and its
stored distance is 0, which is neither strictly positive nor that distance: the factor
`sign(d)` is 0 for the root `d = 3e-7`. -/
theorem sphere_hit_distance_zero :
    ∃ hit rest,
      (Sphere.default : Sphere ℝ).intersect Libm.real ⟨![0, 0, -2], ![0, 0, 10000000]⟩
        = some (hit :: rest) ∧
      ¬ 0 < hit.distance ∧
      Vec.norm Libm.real (hit.point - ![0, 0, -2]) = 3 ∧
      hit.distance ≠ Vec.norm Libm.real (hit.point - ![0, 0, -2]) := by
  have h3 : Vec.norm Libm.real ((![0, 0, 1] : Vec ℝ 3) - ![0, 0, -2]) = 3 := by
    have hq : (![0, 0, 1] : Vec ℝ 3) - ![0, 0, -2] = ![0, 0, 3] := by
      ext i
      fin_cases i <;> norm_num
    rw [hq, Vec.norm, Vec.dot_z]
    exact Real.sqrt_mul_self (by norm_num)
  refine ⟨_, _, Sphere.default_intersect_long_direction, ?_, h3, ?_⟩
  · norm_num
  · rw [h3]
    norm_num

/-- C10 (witness): the unit sphere at the origin and the ray from `(0,0,-5)` along `(0,0,1)`;
the first hit returned, with normal `(0,0,-1)`. -/
theorem sphere_normal_opposes_ray_witness :
    Vec.dot (![0, 0, -1] : Vec ℝ 3) ![0, 0, 1] ≤ 0 := by
  obtain ⟨hits, h, hall⟩ :=
    sphere_normal_opposes_ray (Sphere.default : Sphere ℝ) ⟨![0, 0, -5], ![0, 0, 1]⟩
  rw [Sphere.default_intersect_axis] at h
  cases h
  exact hall
    { point := ![0, 0, 1], normal := ![0, 0, -1], material := Material.default, distance := 6 }
    (List.mem_cons_self _ _)

/-! ## Rays through the centre of the sphere -/

/-- The quantities of `Sphere::intersect` for a ray whose line passes through the centre
`apply(0,0,0)` of the sphere at parameter `k`. -/
theorem Sphere.centre_ray (s : Sphere ℝ) (ha : s.transform.Affine) (hi : s.transform.Inverse)
    (ray : Ray ℝ) (k : ℝ)
    (hcentre : s.transform.applyPoint ![0, 0, 0] = ray.point + k • ray.direction) :
    (s.transform.applyInverseRay ray).point = (-k) • (s.transform.applyInverseRay ray).direction ∧
      s.coeffB ray = -(2 * k * s.coeffA ray) ∧
      s.coeffC ray = k * k * s.coeffA ray - 1 ∧
      s.discriminant ray = 4 * s.coeffA ray := by
  have h0 := s.transform.applyInverse_applyPoint ha hi ![0, 0, 0]
  rw [hcentre, s.transform.applyInversePoint_add_smul ha] at h0
  have hz : (![0, 0, 0] : Vec ℝ 3) = 0 := by
    ext i
    fin_cases i <;> rfl
  rw [hz] at h0
  have ho : (s.transform.applyInverseRay ray).point
      = (-k) • (s.transform.applyInverseRay ray).direction := by
    simp only [Transform.applyInverseRay]
    rw [neg_smul]
    exact eq_neg_of_add_eq_zero_left h0
  have hB : s.coeffB ray = -(2 * k * s.coeffA ray) := by
    simp only [Sphere.coeffB, Sphere.coeffA, Vec.squaredNorm, ho, Vec.dot_smul_right]
    ring
  have hC : s.coeffC ray = k * k * s.coeffA ray - 1 := by
    simp only [Sphere.coeffC, Sphere.coeffA, Vec.squaredNorm, ho, Vec.dot_smul_right,
      Vec.dot_smul_left]
    ring
  refine ⟨ho, hB, hC, ?_⟩
  rw [s.discriminant_eq, hB, hC]
  ring

/-- The two roots computed by `Sphere::intersect` for a ray through the centre, when the
discriminant is at least `epsilon`: `k + 1/|d|` and `k - 1/|d|` for the local direction `d`. -/
theorem Sphere.centre_ray_roots (s : Sphere ℝ) (ha : s.transform.Affine)
    (hi : s.transform.Inverse) (ray : Ray ℝ) (k : ℝ)
    (hcentre : s.transform.applyPoint ![0, 0, 0] = ray.point + k • ray.direction)
    (hdisc : epsilon ≤ s.discriminant ray) :
    0 < Vec.norm Libm.real (s.transform.applyInverseRay ray).direction ∧
      Vec.norm Libm.real (s.transform.applyInverseRay ray).direction
        * Vec.norm Libm.real (s.transform.applyInverseRay ray).direction = s.coeffA ray ∧
      (-s.coeffB ray + Real.sqrt (s.discriminant ray)) / (2 * s.coeffA ray)
        = k + 1 / Vec.norm Libm.real (s.transform.applyInverseRay ray).direction ∧
      (-s.coeffB ray - Real.sqrt (s.discriminant ray)) / (2 * s.coeffA ray)
        = k - 1 / Vec.norm Libm.real (s.transform.applyInverseRay ray).direction := by
  obtain ⟨-, hB, -, hD⟩ := s.centre_ray ha hi ray k hcentre
  have hA : 0 < s.coeffA ray := by
    rw [hD] at hdisc
    linarith [epsilon_pos]
  have hn : Vec.norm Libm.real (s.transform.applyInverseRay ray).direction
      = Real.sqrt (s.coeffA ray) := rfl
  rw [hn]
  have hpos : 0 < Real.sqrt (s.coeffA ray) := Real.sqrt_pos.mpr hA
  have hsq : Real.sqrt (s.coeffA ray) * Real.sqrt (s.coeffA ray) = s.coeffA ray :=
    Real.mul_self_sqrt hA.le
  have hsd : Real.sqrt (s.discriminant ray) = 2 * Real.sqrt (s.coeffA ray) := by
    rw [hD, show (4 : ℝ) * s.coeffA ray
      = (2 * Real.sqrt (s.coeffA ray)) * (2 * Real.sqrt (s.coeffA ray)) by
        linear_combination (-4 : ℝ) * hsq]
    exact Real.sqrt_mul_self (by positivity)
  refine ⟨hpos, hsq, ?_, ?_⟩
  · rw [hB, hsd]
    field_simp
    nlinarith [hsq]
  · rw [hB, hsd]
    field_simp
    nlinarith [hsq]

/-- C7 (amended): for every sphere whose transform is built with non-zero scale factors and
every ray that starts outside the sphere, whose direction points at the sphere's centre and
whose local direction `d` satisfies `4 |d|^2 >= epsilon` (the discriminant the code tests),
`Sphere::intersect` returns exactly two hits, for the roots `k + 1/|d|` and `k - 1/|d| > 0`;
the roots differ by `2/|d|`, and when the smaller root is at least `epsilon` the two stored
distances differ by `2 |dir| / |d|`, with `dir` the world direction of the ray. -/
theorem sphere_centre_ray_two_hits (s : Sphere ℝ) (ops : List (Op ℝ))
    (hs : s.transform = Transform.build Libm.real ops) (h : ∀ op ∈ ops, op.NonZero)
    (ray : Ray ℝ) (k : ℝ) (hk : 0 < k)
    (hcentre : s.transform.applyPoint ![0, 0, 0] = ray.point + k • ray.direction)
    (hout : 1 < Vec.squaredNorm (s.transform.applyInverseRay ray).point)
    (hlen : epsilon ≤ 4 * Vec.squaredNorm (s.transform.applyInverseRay ray).direction) :
    s.intersect Libm.real ray
      = some
        [s.hitAt Libm.real ray (s.transform.applyInverseRay ray)
            (k + 1 / Vec.norm Libm.real (s.transform.applyInverseRay ray).direction),
          s.hitAt Libm.real ray (s.transform.applyInverseRay ray)
            (k - 1 / Vec.norm Libm.real (s.transform.applyInverseRay ray).direction)] ∧
      0 < k - 1 / Vec.norm Libm.real (s.transform.applyInverseRay ray).direction ∧
      (k + 1 / Vec.norm Libm.real (s.transform.applyInverseRay ray).direction)
          - (k - 1 / Vec.norm Libm.real (s.transform.applyInverseRay ray).direction)
        = 2 / Vec.norm Libm.real (s.transform.applyInverseRay ray).direction ∧
      (epsilon ≤ k - 1 / Vec.norm Libm.real (s.transform.applyInverseRay ray).direction →
        (s.hitAt Libm.real ray (s.transform.applyInverseRay ray)
            (k + 1 / Vec.norm Libm.real (s.transform.applyInverseRay ray).direction)).distance
          - (s.hitAt Libm.real ray (s.transform.applyInverseRay ray)
            (k - 1 / Vec.norm Libm.real (s.transform.applyInverseRay ray).direction)).distance
          = 2 * Vec.norm Libm.real ray.direction
            / Vec.norm Libm.real (s.transform.applyInverseRay ray).direction) := by
  have ha : s.transform.Affine := hs ▸ Transform.affine_build ops
  have hi : s.transform.Inverse := hs ▸ Transform.inverse_build ops h
  obtain ⟨ho, -, -, hD⟩ := s.centre_ray ha hi ray k hcentre
  have hdisc : epsilon ≤ s.discriminant ray := by
    rw [hD]
    exact hlen
  obtain ⟨hn, hnn, hr1, hr2⟩ := s.centre_ray_roots ha hi ray k hcentre hdisc
  generalize hN : Vec.norm Libm.real (s.transform.applyInverseRay ray).direction = n
    at hn hnn hr1 hr2 ⊢
  have hkn : 1 < k * n := by
    have h1 : 1 < (k * n) * (k * n) := by
      have h2 : Vec.squaredNorm (s.transform.applyInverseRay ray).point
          = (k * n) * (k * n) := by
        rw [ho, Vec.squaredNorm, Vec.dot_smul_left, Vec.dot_smul_right]
        have h3 : Vec.dot (s.transform.applyInverseRay ray).direction
            (s.transform.applyInverseRay ray).direction = n * n := hnn.symm
        rw [h3]
        ring
      rw [← h2]
      exact hout
    nlinarith [mul_pos hk hn]
  have hinv : 0 < 1 / n := by positivity
  have hsmall : 0 < k - 1 / n := by
    rw [sub_pos, div_lt_iff₀ hn]
    exact hkn
  have hbig : 0 < k + 1 / n := by linarith
  refine ⟨?_, hsmall, by ring, ?_⟩
  · rw [s.intersect_of_discriminant_pos ray hdisc, hr1, hr2, if_pos hbig, if_pos hsmall]
    rfl
  · intro he
    have s2 : sign (k - 1 / n) = 1 := (sign_eq_one_iff _).mpr he
    have s1 : sign (k + 1 / n) = 1 := (sign_eq_one_iff _).mpr (by linarith)
    rw [s.hitAt_distance ha hi ray _ hbig.le, s.hitAt_distance ha hi ray _ hsmall.le, s1, s2]
    simp only [Int.cast_one, mul_one]
    field_simp
    ring

/-- The unit sphere at the origin and the ray from `(0,0,-5)` along `(0,0,1/10000)`: the
discriminant `4e-8` is below `epsilon`, and the only hit returned is the one of the root
`-b/(2a) = 50000`, at the centre of the sphere. -/
theorem Sphere.default_intersect_short_direction :
    (Sphere.default : Sphere ℝ).intersect Libm.real ⟨![0, 0, -5], ![0, 0, 1 / 10000]⟩
      = some [{ point := ![0, 0, 0], normal := ![0, 0, 0], material := Material.default,
                distance := 5 }] := by
  obtain ⟨hA, hB, hD⟩ := Sphere.default_coeffs_z (-5) (1 / 10000)
  have s5 : sign (50000 : ℝ) = 1 := (sign_eq_one_iff _).mpr (by norm_num [epsilon])
  have r1 : -(2 * (1 / 10000 * -5)) / (2 * (1 / 10000 * (1 / 10000))) = (50000 : ℝ) := by
    norm_num
  have h5 : Real.sqrt 25 = 5 := by
    rw [show (25 : ℝ) = 5 * 5 by norm_num]
    exact Real.sqrt_mul_self (by norm_num)
  have ht : (Sphere.default : Sphere ℝ).transform = Transform.identity := rfl
  rw [Sphere.intersect_of_discriminant_zero _ _
      (by rw [hD, abs_of_pos (by norm_num)]; norm_num [epsilon]), ht,
    Transform.identity_applyInverseRay, hA, hB, r1]
  norm_num [Sphere.default_hitAt_z, s5, h5]

/-- C7 (counterexample): the unit sphere at the origin (identity transform) and the ray from
`(0,0,-5)` along `(0,0,1/10000)`: the ray starts outside the sphere and its direction points
at the centre (reached at `k = 50000`), yet `Sphere::intersect` returns one hit, not two. -/
theorem sphere_centre_ray_two_hits_counterexample :
    (Sphere.default : Sphere ℝ).transform = Transform.build Libm.real [] ∧
      (0 : ℝ) < 50000 ∧
      (Sphere.default : Sphere ℝ).transform.applyPoint ![0, 0, 0]
        = (![0, 0, -5] : Vec ℝ 3) + (50000 : ℝ) • ![0, 0, 1 / 10000] ∧
      1 < Vec.squaredNorm ((Sphere.default : Sphere ℝ).transform.applyInverseRay
        ⟨![0, 0, -5], ![0, 0, 1 / 10000]⟩).point ∧
      ∃ hit, (Sphere.default : Sphere ℝ).intersect Libm.real ⟨![0, 0, -5], ![0, 0, 1 / 10000]⟩
        = some [hit] := by
  have ht : (Sphere.default : Sphere ℝ).transform = Transform.identity := rfl
  refine ⟨rfl, by norm_num, ?_, ?_, _, Sphere.default_intersect_short_direction⟩
  · rw [ht, Transform.identity_applyPoint]
    ext i
    fin_cases i <;> norm_num
  · rw [ht, Transform.identity_applyInverseRay]
    norm_num [Vec.squaredNorm, Vec.dot_z]

/-- C7 (witness): the unit sphere at the origin and the ray from `(0,0,-5)` along `(0,0,1)`,
which reaches the centre at `k = 5`; the hits are those of the roots 6 and 4. -/
theorem sphere_centre_ray_two_hits_witness :
    (Sphere.default : Sphere ℝ).intersect Libm.real ⟨![0, 0, -5], ![0, 0, 1]⟩
      = some
        [(Sphere.default : Sphere ℝ).hitAt Libm.real ⟨![0, 0, -5], ![0, 0, 1]⟩
            ((Sphere.default : Sphere ℝ).transform.applyInverseRay ⟨![0, 0, -5], ![0, 0, 1]⟩)
            (5 + 1 / Vec.norm Libm.real ((Sphere.default : Sphere ℝ).transform.applyInverseRay
              ⟨![0, 0, -5], ![0, 0, 1]⟩).direction),
          (Sphere.default : Sphere ℝ).hitAt Libm.real ⟨![0, 0, -5], ![0, 0, 1]⟩
            ((Sphere.default : Sphere ℝ).transform.applyInverseRay ⟨![0, 0, -5], ![0, 0, 1]⟩)
            (5 - 1 / Vec.norm Libm.real ((Sphere.default : Sphere ℝ).transform.applyInverseRay
              ⟨![0, 0, -5], ![0, 0, 1]⟩).direction)] ∧
      ((Sphere.default : Sphere ℝ).hitAt Libm.real ⟨![0, 0, -5], ![0, 0, 1]⟩
            ((Sphere.default : Sphere ℝ).transform.applyInverseRay ⟨![0, 0, -5], ![0, 0, 1]⟩)
            (5 + 1 / Vec.norm Libm.real ((Sphere.default : Sphere ℝ).transform.applyInverseRay
              ⟨![0, 0, -5], ![0, 0, 1]⟩).direction)).distance
          - ((Sphere.default : Sphere ℝ).hitAt Libm.real ⟨![0, 0, -5], ![0, 0, 1]⟩
            ((Sphere.default : Sphere ℝ).transform.applyInverseRay ⟨![0, 0, -5], ![0, 0, 1]⟩)
            (5 - 1 / Vec.norm Libm.real ((Sphere.default : Sphere ℝ).transform.applyInverseRay
              ⟨![0, 0, -5], ![0, 0, 1]⟩).direction)).distance
        = 2 * Vec.norm Libm.real (![0, 0, 1] : Vec ℝ 3)
          / Vec.norm Libm.real ((Sphere.default : Sphere ℝ).transform.applyInverseRay
              ⟨![0, 0, -5], ![0, 0, 1]⟩).direction :=
  have key := sphere_centre_ray_two_hits Sphere.default [] rfl (by simp)
    ⟨![0, 0, -5], ![0, 0, 1]⟩ 5 (by norm_num)
    (by
      rw [show (Sphere.default : Sphere ℝ).transform = Transform.identity from rfl,
        Transform.identity_applyPoint]
      ext i
      fin_cases i <;> norm_num)
    (by
      rw [show (Sphere.default : Sphere ℝ).transform = Transform.identity from rfl,
        Transform.identity_applyInverseRay]
      norm_num [Vec.squaredNorm, Vec.dot_z])
    (by
      rw [show (Sphere.default : Sphere ℝ).transform = Transform.identity from rfl,
        Transform.identity_applyInverseRay]
      norm_num [Vec.squaredNorm, Vec.dot_z, epsilon])
  ⟨key.1, key.2.2.2 (by
    rw [show (Sphere.default : Sphere ℝ).transform = Transform.identity from rfl,
      Transform.identity_applyInverseRay]
    norm_num [Vec.norm, Vec.dot_z, Libm.real, epsilon])⟩

/-! ## Normals of the two hits of a ray through the centre -/

theorem Sphere.applyNormal_dot_direction (s : Sphere ℝ) (ha : s.transform.Affine)
    (hi : s.transform.Inverse) (ray : Ray ℝ) :
    Vec.dot (s.transform.applyNormal (s.transform.applyInverseRay ray).direction) ray.direction
      = s.coeffA ray := by
  have h1 := s.transform.applyNormal_dot_applyDirection ha hi
    (s.transform.applyInverseRay ray).direction (s.transform.applyInverseRay ray).direction
  have h2 : s.transform.applyDirection (s.transform.applyInverseRay ray).direction
      = ray.direction := s.transform.apply_applyInverseDirection ha hi ray.direction
  rw [h2] at h1
  exact h1

theorem Sphere.hitAt_normal_centre (s : Sphere ℝ) (ha : s.transform.Affine)
    (hi : s.transform.Inverse) (ray : Ray ℝ) (k : ℝ)
    (ho : (s.transform.applyInverseRay ray).point
      = (-k) • (s.transform.applyInverseRay ray).direction) (t : ℝ) :
    (s.hitAt Libm.real ray (s.transform.applyInverseRay ray) t).normal
      = if 0 < (t - k) * s.coeffA ray then
          -((t - k) • s.transform.applyNormal (s.transform.applyInverseRay ray).direction)
        else (t - k) • s.transform.applyNormal (s.transform.applyInverseRay ray).direction := by
  have hq : (s.transform.applyInverseRay ray).point + t • (s.transform.applyInverseRay ray).direction
      = (t - k) • (s.transform.applyInverseRay ray).direction := by
    rw [ho, sub_smul, neg_smul]
    abel
  have hdot := s.applyNormal_dot_direction ha hi ray
  simp only [Sphere.hitAt, hq, Transform.applyNormal_smul, Vec.dot_smul_left, hdot, gt_iff_lt]

/-- C8 (amended): for every sphere whose transform is built with non-zero scale factors and
every ray through its centre that yields two hits, the normals stored in the two returned
hits are equal, and both point against the ray direction (`normal . ray.direction < 0`). -/
theorem sphere_centre_ray_normals (s : Sphere ℝ) (ops : List (Op ℝ))
    (hs : s.transform = Transform.build Libm.real ops) (h : ∀ op ∈ ops, op.NonZero)
    (ray : Ray ℝ) (k : ℝ)
    (hcentre : s.transform.applyPoint ![0, 0, 0] = ray.point + k • ray.direction)
    (h1 h2 : RayIntersection ℝ) (hres : s.intersect Libm.real ray = some [h1, h2]) :
    h1.normal = h2.normal ∧ Vec.dot h1.normal ray.direction < 0 ∧
      Vec.dot h2.normal ray.direction < 0 := by
  have ha : s.transform.Affine := hs ▸ Transform.affine_build ops
  have hi : s.transform.Inverse := hs ▸ Transform.inverse_build ops h
  obtain ⟨ho, -, -, hD⟩ := s.centre_ray ha hi ray k hcentre
  have hdisc : epsilon ≤ s.discriminant ray := by
    rcases s.discriminant_cases ray with hd | hd | hd
    · rw [s.intersect_of_discriminant_neg ray hd] at hres
      simp at hres
    · rw [s.intersect_of_discriminant_zero ray hd] at hres
      split_ifs at hres <;> simp at hres
    · exact hd
  obtain ⟨hn, hnn, hr1, hr2⟩ := s.centre_ray_roots ha hi ray k hcentre hdisc
  rw [s.intersect_of_discriminant_pos ray hdisc, hr1, hr2] at hres
  have hA : 0 < s.coeffA ray := by
    rw [← hnn]
    positivity
  have hinv : 0 < 1 / Vec.norm Libm.real (s.transform.applyInverseRay ray).direction := by
    positivity
  have hdot := s.applyNormal_dot_direction ha hi ray
  have e1 : h1 = s.hitAt Libm.real ray (s.transform.applyInverseRay ray)
      (k + 1 / Vec.norm Libm.real (s.transform.applyInverseRay ray).direction) ∧
      h2 = s.hitAt Libm.real ray (s.transform.applyInverseRay ray)
      (k - 1 / Vec.norm Libm.real (s.transform.applyInverseRay ray).direction) := by
    by_cases c1 : 0 < k + 1 / Vec.norm Libm.real (s.transform.applyInverseRay ray).direction
    · by_cases c2 : 0 < k - 1 / Vec.norm Libm.real (s.transform.applyInverseRay ray).direction
      · rw [if_pos c1, if_pos c2] at hres
        simp only [List.singleton_append, Option.some.injEq, List.cons.injEq, and_true] at hres
        exact ⟨hres.1.symm, hres.2.symm⟩
      · rw [if_pos c1, if_neg c2] at hres
        simp at hres
    · by_cases c2 : 0 < k - 1 / Vec.norm Libm.real (s.transform.applyInverseRay ray).direction
      · rw [if_neg c1, if_pos c2] at hres
        simp at hres
      · rw [if_neg c1, if_neg c2] at hres
        simp at hres
  have n1 := s.hitAt_normal_centre ha hi ray k ho
    (k + 1 / Vec.norm Libm.real (s.transform.applyInverseRay ray).direction)
  have n2 := s.hitAt_normal_centre ha hi ray k ho
    (k - 1 / Vec.norm Libm.real (s.transform.applyInverseRay ray).direction)
  rw [if_pos (by rw [add_sub_cancel_left]; positivity)] at n1
  rw [if_neg (by
    rw [sub_sub_cancel_left]
    exact not_lt.mpr (mul_nonpos_of_nonpos_of_nonneg (by linarith) hA.le))] at n2
  rw [add_sub_cancel_left] at n1
  rw [sub_sub_cancel_left] at n2
  rw [e1.1, e1.2, n1, n2]
  refine ⟨(neg_smul _ _).symm, ?_, ?_⟩
  · rw [Vec.dot_neg_left, Vec.dot_smul_left, hdot]
    have := mul_pos hinv hA
    linarith
  · rw [Vec.dot_smul_left, hdot]
    have := mul_pos hinv hA
    linarith

/-- C8 (counterexample): the unit sphere at the origin and the ray from `(0,0,-5)` along
`(0,0,1)`, a ray through the centre that yields two hits: both stored normals are
`(0,0,-1)`, so neither is a negative multiple of the other. -/
theorem sphere_centre_ray_normals_counterexample :
    ∃ h1 h2,
      (Sphere.default : Sphere ℝ).intersect Libm.real ⟨![0, 0, -5], ![0, 0, 1]⟩
        = some [h1, h2] ∧
      (Sphere.default : Sphere ℝ).transform.applyPoint ![0, 0, 0]
        = (![0, 0, -5] : Vec ℝ 3) + (5 : ℝ) • ![0, 0, 1] ∧
      h1.normal = ![0, 0, -1] ∧ h2.normal = ![0, 0, -1] ∧
      ¬ ∃ c : ℝ, c < 0 ∧ (h1.normal = c • h2.normal ∨ h2.normal = c • h1.normal) := by
  refine ⟨_, _, Sphere.default_intersect_axis, ?_, rfl, rfl, ?_⟩
  · rw [show (Sphere.default : Sphere ℝ).transform = Transform.identity from rfl,
      Transform.identity_applyPoint]
    ext i
    fin_cases i <;> norm_num
  · rintro ⟨c, hc, h | h⟩ <;>
    · have h2 := congrFun h 2
      simp at h2
      linarith

/-- C8 (witness): the unit sphere at the origin and the ray from `(0,0,-5)` along `(0,0,1)`;
both hits carry the normal `(0,0,-1)`. -/
theorem sphere_centre_ray_normals_witness :
    (![0, 0, -1] : Vec ℝ 3) = ![0, 0, -1] ∧
      Vec.dot (![0, 0, -1] : Vec ℝ 3) ![0, 0, 1] < 0 ∧
      Vec.dot (![0, 0, -1] : Vec ℝ 3) ![0, 0, 1] < 0 :=
  sphere_centre_ray_normals Sphere.default [] rfl (by simp) ⟨![0, 0, -5], ![0, 0, 1]⟩ 5
    (by
      rw [show (Sphere.default : Sphere ℝ).transform = Transform.identity from rfl,
        Transform.identity_applyPoint]
      ext i
      fin_cases i <;> norm_num)
    { point := ![0, 0, 1], normal := ![0, 0, -1], material := Material.default, distance := 6 }
    { point := ![0, 0, -1], normal := ![0, 0, -1], material := Material.default, distance := 4 }
    Sphere.default_intersect_axis

/-! ## The merge loop of CSG::intersect -/

theorem CSG.mergeStep_spec (l r : List (RayIntersection ℝ)) (st : CSG.Locals ℝ)
    (hl : st.lIi ≤ l.length) (hr : st.rIi ≤ r.length)
    (hg : st.lIi < l.length ∨ st.rIi < r.length) :
    ∃ st', CSG.mergeStep l r st = some st' ∧ st'.result = st.result ∧
      st'.lIi ≤ l.length ∧ st'.rIi ≤ r.length ∧ st'.lIi + st'.rIi = st.lIi + st.rIi + 1 := by
  unfold CSG.mergeStep
  by_cases h1 : st.rIi = r.length
  · have h2 : st.lIi < l.length := by
      rcases hg with h | h
      · exact h
      · omega
    simp only [h1, if_true]
    exact ⟨_, rfl, rfl, h2, le_refl _, by simp; omega⟩
  · have h3 : st.rIi < r.length := lt_of_le_of_ne hr h1
    simp only [h1, if_false]
    by_cases h2 : st.lIi < l.length
    · simp only [h2, if_true, List.getElem?_eq_getElem h2, List.getElem?_eq_getElem h3]
      split_ifs
      · exact ⟨_, rfl, rfl, h2, hr, by simp; omega⟩
      · exact ⟨_, rfl, rfl, hl, h3, by simp; omega⟩
    · simp only [h2, if_false]
      exact ⟨_, rfl, rfl, hl, h3, by simp; omega⟩

theorem CSG.mergeLoop_spec (l r : List (RayIntersection ℝ)) :
    ∀ (fuel : Nat) (st : CSG.Locals ℝ), st.lIi ≤ l.length → st.rIi ≤ r.length →
      (l.length - st.lIi) + (r.length - st.rIi) ≤ fuel →
      ∃ st', CSG.mergeLoop l r fuel st = some st' ∧ st'.result = st.result := by
  intro fuel
  induction fuel with
  | zero =>
    intro st hl hr hf
    have hg : ¬ (st.lIi < l.length ∨ st.rIi < r.length) := by omega
    exact ⟨st, by simp [CSG.mergeLoop, hg], rfl⟩
  | succ fuel ih =>
    intro st hl hr hf
    by_cases hg : st.lIi < l.length ∨ st.rIi < r.length
    · obtain ⟨st1, h1, hres, hl1, hr1, hsum⟩ := CSG.mergeStep_spec l r st hl hr hg
      obtain ⟨st2, h2, hres2⟩ := ih st1 hl1 hr1 (by omega)
      refine ⟨st2, ?_, hres2.trans hres⟩
      rw [CSG.mergeLoop]
      simp only [hg, if_true, h1, Option.some_bind]
      exact h2
    · exact ⟨st, by rw [CSG.mergeLoop]; simp only [hg, if_false], rfl⟩

/-- The merge of `CSG::intersect` ends within its `numLeftIs + numRightIs` iterations, reads
no element outside the lists, and leaves `result` empty. -/
theorem CSG.merge_result (csgType : String) (l r : List (RayIntersection ℝ)) :
    ∃ st, CSG.merge csgType l r = some st ∧ st.result = [] := by
  unfold CSG.merge
  exact CSG.mergeLoop_spec _ _ _ _ (Nat.zero_le _) (Nat.zero_le _) (by simp)

/-- An object without null child pointers returns a list of hits for every ray. -/
theorem Object.intersect_returns :
    (obj : Object ℝ) → obj.WellFormed → ∀ ray, ∃ hits, obj.intersect Libm.real ray = some hits
  | .sphere s, _, ray => s.intersect_total ray
  | .cone _, _, _ => ⟨[], rfl⟩
  | .csg transform _ csgType (some left) (some right), h, ray => by
    simp only [Object.WellFormed] at h
    obtain ⟨a, ha⟩ := Object.intersect_returns left h.1 (transform.applyInverseRay ray)
    obtain ⟨b, hb⟩ := Object.intersect_returns right h.2 (transform.applyInverseRay ray)
    obtain ⟨st, hst, -⟩ := CSG.merge_result csgType a b
    exact ⟨st.result, by simp [Object.intersect, ha, hb, hst]⟩
  | .csg _ _ _ none _, h, _ => by simp [Object.WellFormed] at h
  | .csg _ _ _ (some _) none, h, _ => by simp [Object.WellFormed] at h

/-- A `CSG` node with two non-null well-formed children returns the empty list. -/
theorem Object.csg_intersect (transform : Transform ℝ) (material : Material ℝ)
    (csgType : String) (left right : Object ℝ) (hl : left.WellFormed) (hr : right.WellFormed)
    (ray : Ray ℝ) :
    (Object.csg transform material csgType (some left) (some right)).intersect Libm.real ray
      = some [] := by
  obtain ⟨a, ha⟩ := Object.intersect_returns left hl (transform.applyInverseRay ray)
  obtain ⟨b, hb⟩ := Object.intersect_returns right hr (transform.applyInverseRay ray)
  obtain ⟨st, hst, hres⟩ := CSG.merge_result csgType a b
  simp [Object.intersect, ha, hb, hst, hres]

/-! ## Scene::intersect -/

theorem Scene.firstLoop_eq (ray : Ray ℝ) :
    ∀ (objs : List (Object ℝ)) (init : RayIntersection ℝ),
      (∀ obj ∈ objs, ∃ hits, obj.intersect Libm.real ray = some hits) →
      objs.foldlM
          (fun (firstHit : RayIntersection ℝ) (obj : Object ℝ) =>
            (obj.intersect Libm.real ray).map fun hits => hits.foldl Scene.nearer firstHit)
          init
        = some ((objs.map fun obj => (obj.intersect Libm.real ray).getD []).flatten.foldl
            Scene.nearer init) := by
  intro objs
  induction objs with
  | nil => intro init _; rfl
  | cons obj objs ih =>
    intro init h
    obtain ⟨hits, hh⟩ := h obj (List.mem_cons_self _ _)
    have h2 : ∀ o ∈ objs, ∃ hits, o.intersect Libm.real ray = some hits :=
      fun o ho => h o (List.mem_cons_of_mem _ ho)
    simp only [List.foldlM_cons, hh, Option.map_some', Option.bind_eq_bind, Option.some_bind,
      List.map_cons, List.flatten_cons, List.foldl_append, Option.getD_some]
    exact ih _ h2

theorem Scene.secondLoop_eq (ray : Ray ℝ) :
    ∀ (objs : List (Object ℝ)),
      (∀ obj ∈ objs, ∃ hits, obj.intersect Libm.real ray = some hits) →
      objs.foldlM
          (fun (_ : Unit) (obj : Object ℝ) => (obj.intersect Libm.real ray).map fun _ => ()) ()
        = some () := by
  intro objs
  induction objs with
  | nil => intro _; rfl
  | cons obj objs ih =>
    intro h
    obtain ⟨hits, hh⟩ := h obj (List.mem_cons_self _ _)
    have h2 : ∀ o ∈ objs, ∃ hits, o.intersect Libm.real ray = some hits :=
      fun o ho => h o (List.mem_cons_of_mem _ ho)
    simp only [List.foldlM_cons, hh, Option.map_some', Option.bind_eq_bind, Option.some_bind]
    exact ih h2

/-- When every object returns a list of hits, `Scene::intersect` returns the fold of
`Scene.nearer` over all hits, starting from the hit at distance `infinity`. -/
theorem Scene.intersect_eq (sc : Scene ℝ) (ray : Ray ℝ)
    (h : ∀ obj ∈ sc.objects_, ∃ hits, obj.intersect Libm.real ray = some hits) :
    sc.intersect Libm.real ray
      = some ((sc.allHits Libm.real ray).foldl Scene.nearer Scene.noHit) := by
  unfold Scene.intersect
  simp only [Scene.firstLoop_eq ray sc.objects_ _ h, Scene.secondLoop_eq ray sc.objects_ h,
    Option.some_bind, Option.map_some']
  rfl

theorem Scene.intersect_eq_of_wellFormed (sc : Scene ℝ) (hwf : sc.WellFormed) (ray : Ray ℝ) :
    sc.intersect Libm.real ray
      = some ((sc.allHits Libm.real ray).foldl Scene.nearer Scene.noHit) :=
  sc.intersect_eq ray fun obj ho => obj.intersect_returns (hwf obj ho) ray

theorem Scene.isHit_iff (sc : Scene ℝ) (ray : Ray ℝ) (h : RayIntersection ℝ) :
    sc.IsHit Libm.real ray h ↔ h ∈ sc.allHits Libm.real ray := by
  simp only [Scene.IsHit, Scene.allHits, List.mem_flatten, List.mem_map]
  constructor
  · rintro ⟨obj, ho, hits, hh, hm⟩
    exact ⟨hits, ⟨obj, ho, by rw [hh]; rfl⟩, hm⟩
  · rintro ⟨hits, ⟨obj, ho, rfl⟩, hm⟩
    cases hh : obj.intersect Libm.real ray with
    | none => rw [hh] at hm; simp at hm
    | some hs =>
      rw [hh] at hm
      exact ⟨obj, ho, hs, hh, hm⟩

/-- The fold of `Scene.nearer`: the result is the start value or a hit of the list that
beats it, and no qualifying hit of the list is nearer than the result. -/
theorem Scene.foldl_nearer (hits : List (RayIntersection ℝ)) :
    ∀ init : RayIntersection ℝ,
      (hits.foldl Scene.nearer init = init ∨
        (hits.foldl Scene.nearer init ∈ hits ∧
          epsilon < (hits.foldl Scene.nearer init).distance ∧
          (hits.foldl Scene.nearer init).distance < init.distance)) ∧
      (hits.foldl Scene.nearer init).distance ≤ init.distance ∧
      ∀ h ∈ hits, epsilon < h.distance → (hits.foldl Scene.nearer init).distance ≤ h.distance := by
  induction hits with
  | nil => intro init; simp
  | cons x xs ih =>
    intro init
    obtain ⟨h1, h2, h3⟩ := ih (Scene.nearer init x)
    simp only [List.foldl_cons]
    by_cases hc : x.distance > epsilon ∧ x.distance < init.distance
    · have hn : Scene.nearer init x = x := by simp only [Scene.nearer, hc, and_self, if_true]
      rw [hn] at h1 h2 h3 ⊢
      refine ⟨Or.inr ?_, by linarith [hc.2], ?_⟩
      · rcases h1 with h1 | ⟨h1, h4, h5⟩
        · rw [h1]
          exact ⟨List.mem_cons_self _ _, hc.1, hc.2⟩
        · exact ⟨List.mem_cons_of_mem _ h1, h4, by linarith [hc.2]⟩
      · intro h hh he
        rcases List.mem_cons.mp hh with rfl | hh
        · exact h2
        · exact h3 h hh he
    · have hn : Scene.nearer init x = init := by simp only [Scene.nearer, hc, if_false]
      rw [hn] at h1 h2 h3 ⊢
      refine ⟨?_, h2, ?_⟩
      · rcases h1 with h1 | ⟨h1, h4, h5⟩
        · exact Or.inl h1
        · exact Or.inr ⟨List.mem_cons_of_mem _ h1, h4, h5⟩
      · intro h hh he
        rcases List.mem_cons.mp hh with rfl | hh
        · have : init.distance ≤ h.distance := by
            by_contra hlt
            exact hc ⟨he, not_le.mp hlt⟩
          linarith
        · exact h3 h hh he

/-- C11: for every scene (without null child pointers) and ray, `Scene::intersect` returns a
`RayIntersection`.  When some object produces a hit with `epsilon < distance < infinity`, the
result is one of the hits produced by the objects, with `epsilon < distance`, and no hit of
any object with distance above `epsilon` is nearer.  When no object produces such a hit, the
distance of the result is exactly `infinity`. -/
theorem scene_intersect_nearest (sc : Scene ℝ) (hwf : sc.WellFormed) (ray : Ray ℝ) :
    ∃ result, sc.intersect Libm.real ray = some result ∧
      ((∃ h, sc.IsHit Libm.real ray h ∧ epsilon < h.distance ∧ h.distance < infinity) →
        sc.IsHit Libm.real ray result ∧ epsilon < result.distance ∧
          ∀ h, sc.IsHit Libm.real ray h → epsilon < h.distance →
            result.distance ≤ h.distance) ∧
      ((¬ ∃ h, sc.IsHit Libm.real ray h ∧ epsilon < h.distance ∧ h.distance < infinity) →
        result.distance = infinity) := by
  refine ⟨_, sc.intersect_eq_of_wellFormed hwf ray, ?_, ?_⟩
  · rintro ⟨h, hh, he, hi⟩
    obtain ⟨h1, h2, h3⟩ := Scene.foldl_nearer (sc.allHits Libm.real ray) Scene.noHit
    have hmin := h3 h ((sc.isHit_iff ray h).mp hh) he
    rcases h1 with h1 | ⟨h1, h4, h5⟩
    · rw [h1] at hmin
      exact absurd hi (not_lt.mpr hmin)
    · exact ⟨(sc.isHit_iff ray _).mpr h1, h4,
        fun h' hh' he' => h3 h' ((sc.isHit_iff ray h').mp hh') he'⟩
  · intro hno
    obtain ⟨h1, h2, h3⟩ := Scene.foldl_nearer (sc.allHits Libm.real ray) Scene.noHit
    rcases h1 with h1 | ⟨h1, h4, h5⟩
    · rw [h1]
      rfl
    · exact absurd ⟨_, (sc.isHit_iff ray _).mpr h1, h4, h5⟩ hno

/-! ## Scene::computeColour -/

theorem Colour.clip_bounds (c : Colour ℝ) :
    0 ≤ c.clip.red ∧ c.clip.red ≤ 1 ∧ 0 ≤ c.clip.green ∧ c.clip.green ≤ 1 ∧
      0 ≤ c.clip.blue ∧ c.clip.blue ≤ 1 := by
  simp only [Colour.clip]
  refine ⟨?_, ?_, ?_, ?_, ?_, ?_⟩ <;> split_ifs <;> linarith

theorem Scene.addLight_total (sc : Scene ℝ) (hwf : sc.WellFormed) (viewRay : Ray ℝ)
    (hitPoint : RayIntersection ℝ) (hitColour : Colour ℝ) (light : PointLightSource ℝ) :
    ∃ c, sc.addLight Libm.real viewRay hitPoint hitColour light = some c := by
  simp only [Scene.addLight, sc.intersect_eq_of_wellFormed hwf, Option.map_some']
  exact ⟨_, rfl⟩

theorem Scene.lights_total (sc : Scene ℝ) (hwf : sc.WellFormed) (viewRay : Ray ℝ)
    (hitPoint : RayIntersection ℝ) :
    ∀ (lights : List (PointLightSource ℝ)) (hitColour : Colour ℝ),
      ∃ c, lights.foldlM (sc.addLight Libm.real viewRay hitPoint) hitColour = some c := by
  intro lights
  induction lights with
  | nil => intro hitColour; exact ⟨hitColour, rfl⟩
  | cons light lights ih =>
    intro hitColour
    obtain ⟨c, hc⟩ := sc.addLight_total hwf viewRay hitPoint hitColour light
    obtain ⟨c2, hc2⟩ := ih c
    exact ⟨c2, by simp only [List.foldlM_cons, hc, Option.bind_eq_bind, Option.some_bind, hc2]⟩

/-- C12: for every scene and every ray for which `Scene::intersect` reports a miss (a result
at distance `infinity`), `computeColour` returns exactly `backgroundColour`, unclipped,
whatever the lights of the scene are. -/
theorem compute_colour_miss (sc : Scene ℝ) (ray : Ray ℝ) (depth : Nat)
    (lights : List (PointLightSource ℝ)) (h : RayIntersection ℝ)
    (hres : sc.intersect Libm.real ray = some h) (hmiss : h.distance = infinity) :
    Scene.computeColour Libm.real { sc with lights_ := lights } ray depth
      = some sc.backgroundColour := by
  have hi : Scene.intersect Libm.real { sc with lights_ := lights } ray = some h := hres
  simp only [Scene.computeColour, hi, Option.some_bind, hmiss, if_true]

theorem Scene.lights_blocked (sc : Scene ℝ) (viewRay : Ray ℝ) (hitPoint : RayIntersection ℝ) :
    ∀ (lights : List (PointLightSource ℝ)) (hitColour : Colour ℝ),
      (∀ light ∈ lights, ∃ sh,
        sc.intersect Libm.real (Scene.shadowRay Libm.real hitPoint light) = some sh ∧
          sh.distance ≠ infinity) →
      lights.foldlM (sc.addLight Libm.real viewRay hitPoint) hitColour = some hitColour := by
  intro lights
  induction lights with
  | nil => intro hitColour _; rfl
  | cons light lights ih =>
    intro hitColour hb
    obtain ⟨sh, hsh, hd⟩ := hb light (List.mem_cons_self _ _)
    have h1 : sc.addLight Libm.real viewRay hitPoint hitColour light = some hitColour := by
      simp only [Scene.addLight, hsh, Option.map_some', hd, if_false]
    simp only [List.foldlM_cons, h1, Option.bind_eq_bind, Option.some_bind]
    exact ih hitColour fun l hl => hb l (List.mem_cons_of_mem _ hl)

/-- C13 (amended): for every scene and ray, `computeColour(ray, 0)` returns `backgroundColour`
when `Scene::intersect` reports a miss; when the ray hits an object it returns the clipped
local illumination of the hit: the ambient term plus what the loop over the lights adds. -/
theorem compute_colour_depth_zero (sc : Scene ℝ) (ray : Ray ℝ) (h : RayIntersection ℝ)
    (hres : sc.intersect Libm.real ray = some h) :
    (h.distance = infinity → sc.computeColour Libm.real ray 0 = some sc.backgroundColour) ∧
      (h.distance ≠ infinity →
        sc.computeColour Libm.real ray 0
          = (sc.lights_.foldlM (sc.addLight Libm.real ray h)
              (sc.ambientLight * h.material.ambientColour)).map Colour.clip) := by
  constructor
  · intro hm
    simp only [Scene.computeColour, hres, Option.some_bind, hm, if_true]
  · intro hm
    simp only [Scene.computeColour, hres, Option.some_bind, hm, if_false]

/-! ## Spheres on the z axis -/

theorem Transform.isShiftZ_translate (c : ℝ) :
    (Transform.build Libm.real [Op.translate 0 0 c]).IsShiftZ c := by
  refine ⟨?_, ?_, ?_, ?_⟩ <;> intro v <;> ext i <;> fin_cases i <;>
    simp [Transform.build, Op.run, Transform.translate, Transform.applyInversePoint,
      Transform.applyInverseDirection, Transform.applyPoint, Transform.applyNormal,
      Transform.identity, Mat.mul_eq, Mat.mulVec_eq, Mat.identity_eq, Mat.transpose_eq,
      Matrix.mulVec, Matrix.dotProduct, Fin.sum_univ_four, Mat.set, Matrix.one_apply,
      Matrix.mul_apply, Matrix.transpose_apply, sub_eq_add_neg]

theorem Transform.isShiftZ_identity : (Transform.identity : Transform ℝ).IsShiftZ 0 := by
  refine ⟨?_, ?_, ?_, ?_⟩ <;> intro v <;> ext i <;> fin_cases i <;>
    simp [Transform.applyInversePoint,
      Transform.applyInverseDirection, Transform.applyPoint, Transform.applyNormal,
      Transform.identity, Mat.mulVec_eq, Mat.identity_eq, Mat.transpose_eq,
      Matrix.mulVec, Matrix.dotProduct, Fin.sum_univ_four, Matrix.one_apply]

theorem abs_eq_one_of_mul_self {x : ℝ} (h : x * x = 1) : |x| = 1 := by
  have h2 : |x| * |x| = 1 := by rw [← abs_mul, h, abs_one]
  nlinarith [abs_nonneg x]

theorem Vec.dot_z3 (u v : Vec ℝ 3) : Vec.dot u v = u 0 * v 0 + u 1 * v 1 + u 2 * v 2 := by
  simp [Vec.dot_eq, Matrix.dotProduct, Fin.sum_univ_three]

theorem sqrt_mul_self_abs (x : ℝ) : Real.sqrt (x * x) = |x| := by
  rw [← sq, Real.sqrt_sq_eq_abs]

/-- The hit that `Sphere::intersect` builds for the root `t` of a ray along the z axis
(direction `(0,0,σ)`, `σ = 1` or `-1`) and a sphere moved by `c` along the z axis. -/
theorem Sphere.hitAt_zAxis (s : Sphere ℝ) (c : ℝ) (hs : s.transform.IsShiftZ c) (z σ t : ℝ) :
    s.hitAt Libm.real ⟨![0, 0, z], ![0, 0, σ]⟩
        (s.transform.applyInverseRay ⟨![0, 0, z], ![0, 0, σ]⟩) t
      = { point := ![0, 0, z + t * σ]
          normal := if 0 < (z - c + t * σ) * σ then ![0, 0, -(z - c + t * σ)]
            else ![0, 0, z - c + t * σ]
          material := s.material
          distance := |t * σ| * ((sign t : Int) : ℝ) } := by
  obtain ⟨h1, h2, h3, h4⟩ := hs
  have hp : (![0, 0, z - c] : Vec ℝ 3) + t • ![0, 0, σ] = ![0, 0, z - c + t * σ] := by
    ext i
    fin_cases i <;> simp
  have hq : (![0, 0, z + t * σ] : Vec ℝ 3) - ![0, 0, z] = ![0, 0, t * σ] := by
    ext i
    fin_cases i <;> simp
  have hn : -(![0, 0, z - c + t * σ] : Vec ℝ 3) = ![0, 0, -(z - c + t * σ)] := by
    ext i
    fin_cases i <;> simp
  have hw : z - c + t * σ + c = z + t * σ := by ring
  simp [Sphere.hitAt, Transform.applyInverseRay, h1, h2, h3, h4, hp, hq, hn, hw, Vec.norm,
    Vec.dot_z3, Libm.real, sqrt_mul_self_abs]

/-- The hits of a sphere moved by `c` along the z axis, for a ray from `(0,0,z)` along
`(0,0,σ)` with `σ = 1` or `-1`: the roots are `1 - σ (z - c)` and `-1 - σ (z - c)`. -/
theorem Sphere.intersect_zAxis (s : Sphere ℝ) (c : ℝ) (hs : s.transform.IsShiftZ c) (z σ : ℝ)
    (hσ : σ * σ = 1) :
    s.intersect Libm.real ⟨![0, 0, z], ![0, 0, σ]⟩
      = some ((if 0 < 1 - σ * (z - c) then
            [{ point := ![0, 0, c + σ], normal := ![0, 0, -σ], material := s.material,
               distance := |1 - σ * (z - c)| * ((sign (1 - σ * (z - c)) : Int) : ℝ) }]
          else []) ++
        (if 0 < -1 - σ * (z - c) then
            [{ point := ![0, 0, c - σ], normal := ![0, 0, -σ], material := s.material,
               distance := |-1 - σ * (z - c)| * ((sign (-1 - σ * (z - c)) : Int) : ℝ) }]
          else [])) := by
  have hA : s.coeffA ⟨![0, 0, z], ![0, 0, σ]⟩ = 1 := by
    simp [Sphere.coeffA, Transform.applyInverseRay, hs.2.1, Vec.squaredNorm, Vec.dot_z3, hσ]
  have hB : s.coeffB ⟨![0, 0, z], ![0, 0, σ]⟩ = 2 * (σ * (z - c)) := by
    simp [Sphere.coeffB, Transform.applyInverseRay, hs.2.1, hs.1, Vec.dot_z3]
  have hC : s.coeffC ⟨![0, 0, z], ![0, 0, σ]⟩ = (z - c) * (z - c) - 1 := by
    simp [Sphere.coeffC, Transform.applyInverseRay, hs.1, Vec.squaredNorm, Vec.dot_z3]
  have hD : s.discriminant ⟨![0, 0, z], ![0, 0, σ]⟩ = 4 := by
    rw [s.discriminant_eq, hA, hB, hC]
    linear_combination (4 * (z - c) * (z - c)) * hσ
  have hs4 : Real.sqrt 4 = 2 := by
    rw [show (4 : ℝ) = 2 * 2 by norm_num]
    exact Real.sqrt_mul_self (by norm_num)
  have r1 : (-(2 * (σ * (z - c))) + 2) / (2 * 1) = 1 - σ * (z - c) := by ring
  have r2 : (-(2 * (σ * (z - c))) - 2) / (2 * 1) = -1 - σ * (z - c) := by ring
  have e1 : z - c + (1 - σ * (z - c)) * σ = σ := by linear_combination (-(z - c)) * hσ
  have e2 : z - c + (-1 - σ * (z - c)) * σ = -σ := by linear_combination (-(z - c)) * hσ
  have w1 : z + (1 - σ * (z - c)) * σ = c + σ := by linear_combination (-(z - c)) * hσ
  have w2 : z + (-1 - σ * (z - c)) * σ = c - σ := by linear_combination (-(z - c)) * hσ
  have a1 : |(1 - σ * (z - c)) * σ| = |1 - σ * (z - c)| := by
    rw [abs_mul, abs_eq_one_of_mul_self hσ, mul_one]
  have a2 : |(-1 - σ * (z - c)) * σ| = |-1 - σ * (z - c)| := by
    rw [abs_mul, abs_eq_one_of_mul_self hσ, mul_one]
  rw [s.intersect_of_discriminant_pos _ (by rw [hD]; norm_num [epsilon]), hA, hB, hD, hs4, r1, r2,
    s.hitAt_zAxis c hs, s.hitAt_zAxis c hs, e1, e2, w1, w2, a1, a2]
  have h10 : ¬ ((1 : ℝ) < 0) := by norm_num
  simp [hσ, h10]

theorem abs_mul_sign_of_ge {t : ℝ} (h : epsilon ≤ t) : |t| * ((sign t : Int) : ℝ) = t := by
  rw [(sign_eq_one_iff t).mpr h, abs_of_pos (lt_of_lt_of_le epsilon_pos h)]
  simp

/-- A ray along the z axis that starts in front of the sphere: two hits. -/
theorem Sphere.intersect_zAxis_two (s : Sphere ℝ) (c : ℝ) (hs : s.transform.IsShiftZ c)
    (z σ : ℝ) (hσ : σ * σ = 1) (h : σ * (z - c) ≤ -1 - epsilon) :
    s.intersect Libm.real ⟨![0, 0, z], ![0, 0, σ]⟩
      = some [{ point := ![0, 0, c + σ], normal := ![0, 0, -σ], material := s.material,
                distance := 1 - σ * (z - c) },
              { point := ![0, 0, c - σ], normal := ![0, 0, -σ], material := s.material,
                distance := -1 - σ * (z - c) }] := by
  have he := epsilon_pos
  rw [s.intersect_zAxis c hs z σ hσ, if_pos (by linarith), if_pos (by linarith),
    abs_mul_sign_of_ge (by linarith), abs_mul_sign_of_ge (by linarith)]
  rfl

/-- A ray along the z axis that starts inside the sphere or on its near side: one hit. -/
theorem Sphere.intersect_zAxis_one (s : Sphere ℝ) (c : ℝ) (hs : s.transform.IsShiftZ c)
    (z σ : ℝ) (hσ : σ * σ = 1) (h1 : -1 ≤ σ * (z - c)) (h2 : σ * (z - c) ≤ 1 - epsilon) :
    s.intersect Libm.real ⟨![0, 0, z], ![0, 0, σ]⟩
      = some [{ point := ![0, 0, c + σ], normal := ![0, 0, -σ], material := s.material,
                distance := 1 - σ * (z - c) }] := by
  have he := epsilon_pos
  rw [s.intersect_zAxis c hs z σ hσ, if_pos (by linarith), if_neg (by linarith),
    abs_mul_sign_of_ge (by linarith)]
  rfl

/-- A ray along the z axis that starts on the far side of the sphere or beyond it: no hit. -/
theorem Sphere.intersect_zAxis_none (s : Sphere ℝ) (c : ℝ) (hs : s.transform.IsShiftZ c)
    (z σ : ℝ) (hσ : σ * σ = 1) (h : 1 ≤ σ * (z - c)) :
    s.intersect Libm.real ⟨![0, 0, z], ![0, 0, σ]⟩ = some [] := by
  rw [s.intersect_zAxis c hs z σ hσ, if_neg (by linarith), if_neg (by linarith)]
  rfl

theorem epsilon_lt_infinity : (epsilon : ℝ) < infinity := by
  norm_num [epsilon, infinity]

theorem lt_infinity_of_le {x : ℝ} (h : x ≤ 1000) : x < infinity := by
  have : (1000 : ℝ) < infinity := by norm_num [infinity]
  linarith

theorem ne_infinity_of_le {x : ℝ} (h : x ≤ 1000) : x ≠ infinity :=
  ne_of_lt (lt_infinity_of_le h)

/-- The shadow ray from a hit point on the z axis towards a light on the z axis. -/
theorem Scene.shadowRay_zAxis (h : RayIntersection ℝ) (light : PointLightSource ℝ) (p q : ℝ)
    (hp : h.point = ![0, 0, p]) (hq : light.location = ![0, 0, q]) :
    Scene.shadowRay Libm.real h light = ⟨![0, 0, p], ![0, 0, (q - p) / |q - p|]⟩ := by
  have hv : (![0, 0, q] : Vec ℝ 3) - ![0, 0, p] = ![0, 0, q - p] := by
    ext i
    fin_cases i <;> simp
  simp only [Scene.shadowRay, hp, hq, hv, Vec.norm, Vec.dot_z3, Libm.real]
  congr 1
  ext i
  fin_cases i <;> simp [Vec.div, sqrt_mul_self_abs]

/-! ## The unit sphere lit from behind -/

theorem Scene.sphereAndLight_wellFormed : (Scene.sphereAndLight : Scene ℝ).WellFormed := by
  intro obj ho
  simp only [Scene.sphereAndLight, List.mem_singleton] at ho
  subst ho
  trivial

/-- The view ray from `(0,0,-5)` along `(0,0,1)` hits the near pole `(0,0,-1)` at
distance 4. -/
theorem Scene.sphereAndLight_intersect_view :
    (Scene.sphereAndLight : Scene ℝ).intersect Libm.real ⟨![0, 0, -5], ![0, 0, 1]⟩
      = some { point := ![0, 0, -1], normal := ![0, 0, -1], material := Material.default,
               distance := 4 } := by
  rw [Scene.intersect_eq_of_wellFormed _ Scene.sphereAndLight_wellFormed]
  have h := Sphere.intersect_zAxis_two (Sphere.default : Sphere ℝ) 0 Transform.isShiftZ_identity
    (-5) 1 (by norm_num) (by norm_num [epsilon])
  simp only [Scene.allHits, Scene.sphereAndLight, List.map_cons, List.map_nil,
    Object.intersect, h, Option.getD_some, List.flatten_cons, List.flatten_nil,
    List.append_nil, List.foldl_cons, List.foldl_nil]
  norm_num [Scene.nearer, Scene.noHit, epsilon, infinity, Sphere.default]

/-- The shadow ray from the near pole towards the light at `(0,0,5)` runs through the
sphere and leaves it at the far pole, at distance 2. -/
theorem Scene.sphereAndLight_intersect_shadow :
    (Scene.sphereAndLight : Scene ℝ).intersect Libm.real
        (Scene.shadowRay Libm.real
          { point := ![0, 0, -1], normal := ![0, 0, -1], material := Material.default,
            distance := 4 }
          { colour := ⟨1, 1, 1⟩, location := ![0, 0, 5] })
      = some { point := ![0, 0, 1], normal := ![0, 0, -1], material := Material.default,
               distance := 2 } := by
  rw [Scene.shadowRay_zAxis _ _ (-1) 5 rfl rfl,
    Scene.intersect_eq_of_wellFormed _ Scene.sphereAndLight_wellFormed]
  have hd : ((5 : ℝ) - -1) / |(5 : ℝ) - -1| = 1 := by norm_num [abs_of_pos]
  have h := Sphere.intersect_zAxis_one (Sphere.default : Sphere ℝ) 0 Transform.isShiftZ_identity
    (-1) 1 (by norm_num) (by norm_num) (by norm_num [epsilon])
  simp only [hd, Scene.allHits, Scene.sphereAndLight, List.map_cons, List.map_nil,
    Object.intersect, h, Option.getD_some, List.flatten_cons, List.flatten_nil,
    List.append_nil, List.foldl_cons, List.foldl_nil]
  norm_num [Scene.nearer, Scene.noHit, epsilon, infinity, Sphere.default]

theorem Colour.mul_def (a b : Colour ℝ) :
    a * b = { red := a.red * b.red, green := a.green * b.green, blue := a.blue * b.blue } :=
  rfl

theorem Colour.add_def (a b : Colour ℝ) :
    a + b = { red := a.red + b.red, green := a.green + b.green, blue := a.blue + b.blue } :=
  rfl

theorem Colour.scale_def (a : Colour ℝ) (s : ℝ) :
    a * s = { red := a.red * s, green := a.green * s, blue := a.blue * s } :=
  rfl

/-- The colour computed for the view ray at the near pole: the ambient term
`(1/2,1/2,1/2)`. -/
theorem Scene.sphereAndLight_computeColour (depth : Nat) :
    (Scene.sphereAndLight : Scene ℝ).computeColour Libm.real ⟨![0, 0, -5], ![0, 0, 1]⟩ depth
      = some ⟨1 / 2, 1 / 2, 1 / 2⟩ := by
  have h1 : sphereAndLight.addLight Libm.real ⟨![0, 0, -5], ![0, 0, 1]⟩
      { point := ![0, 0, -1], normal := ![0, 0, -1], material := Material.default,
        distance := 4 }
      (sphereAndLight.ambientLight * (Material.default : Material ℝ).ambientColour)
      { colour := ⟨1, 1, 1⟩, location := ![0, 0, 5] }
      = some (sphereAndLight.ambientLight * (Material.default : Material ℝ).ambientColour) := by
    simp only [Scene.addLight, Scene.sphereAndLight_intersect_shadow, Option.map_some',
      ne_infinity_of_le (show (2 : ℝ) ≤ 1000 by norm_num), if_false]
  simp only [Scene.computeColour, Scene.sphereAndLight_intersect_view, Option.some_bind,
    ne_infinity_of_le (show (4 : ℝ) ≤ 1000 by norm_num), if_false]
  have hl : (Scene.sphereAndLight : Scene ℝ).lights_
      = [{ colour := ⟨1, 1, 1⟩, location := ![0, 0, 5] }] := rfl
  rw [hl]
  simp only [List.foldlM_cons, List.foldlM_nil, h1, Option.bind_eq_bind, Option.some_bind,
    Option.pure_def, Option.map_some']
  norm_num [Scene.sphereAndLight, Material.default, Colour.mul_def, Colour.clip]

/-- C13 (counterexample): the unit sphere at the origin with ambient light `(1/2,1/2,1/2)` and
a black background: the view ray from `(0,0,-5)` along `(0,0,1)` hits the sphere, and
`computeColour(ray, 0)` returns `(1/2,1/2,1/2)`, not the background colour. -/
theorem compute_colour_depth_zero_counterexample :
    (Scene.sphereAndLight : Scene ℝ).computeColour Libm.real ⟨![0, 0, -5], ![0, 0, 1]⟩ 0
        = some ⟨1 / 2, 1 / 2, 1 / 2⟩ ∧
      (Scene.sphereAndLight : Scene ℝ).backgroundColour = ⟨0, 0, 0⟩ ∧
      (Scene.sphereAndLight : Scene ℝ).computeColour Libm.real ⟨![0, 0, -5], ![0, 0, 1]⟩ 0
        ≠ some (Scene.sphereAndLight : Scene ℝ).backgroundColour := by
  refine ⟨Scene.sphereAndLight_computeColour 0, rfl, ?_⟩
  rw [Scene.sphereAndLight_computeColour 0]
  simp [Scene.sphereAndLight]

/-! ## The diffuse and the specular term -/

/-- C11 (witness): the unit sphere at the origin and the view ray from `(0,0,-5)` along
`(0,0,1)`; the sphere returns hits at distances 6 and 4, and the result is a hit of the
sphere that is no farther than the hit at distance 4. -/
theorem scene_intersect_nearest_witness :
    ∃ result,
      (Scene.sphereAndLight : Scene ℝ).intersect Libm.real ⟨![0, 0, -5], ![0, 0, 1]⟩
        = some result ∧
      Scene.IsHit Libm.real Scene.sphereAndLight ⟨![0, 0, -5], ![0, 0, 1]⟩ result ∧
      epsilon < result.distance ∧ result.distance ≤ 4 := by
  have hit : Scene.IsHit Libm.real (Scene.sphereAndLight : Scene ℝ) ⟨![0, 0, -5], ![0, 0, 1]⟩
      { point := ![0, 0, -1], normal := ![0, 0, -1], material := Material.default,
        distance := 4 } :=
    ⟨Object.sphere Sphere.default, List.mem_singleton.mpr rfl, _, Sphere.default_intersect_axis,
      by simp⟩
  obtain ⟨result, hres, ha, -⟩ := scene_intersect_nearest Scene.sphereAndLight
    Scene.sphereAndLight_wellFormed ⟨![0, 0, -5], ![0, 0, 1]⟩
  obtain ⟨h1, h2, h3⟩ := ha ⟨_, hit, by norm_num [epsilon], lt_infinity_of_le (by norm_num)⟩
  exact ⟨result, hres, h1, h2, h3 _ hit (by norm_num [epsilon])⟩

/-- C12 (witness): a scene without objects, with background colour `(2,-1,1/2)` and one
light: the background colour is returned as it is. -/
theorem compute_colour_miss_witness :
    Scene.computeColour Libm.real
        { ({ backgroundColour := ⟨2, -1, 1 / 2⟩ } : Scene ℝ) with
          lights_ := [{ colour := ⟨1, 1, 1⟩, location := ![0, 0, 5] }] }
        ⟨![0, 0, -5], ![0, 0, 1]⟩ 3
      = some ⟨2, -1, 1 / 2⟩ :=
  compute_colour_miss { backgroundColour := ⟨2, -1, 1 / 2⟩ } ⟨![0, 0, -5], ![0, 0, 1]⟩ 3
    [{ colour := ⟨1, 1, 1⟩, location := ![0, 0, 5] }] Scene.noHit rfl rfl

/-- C13 (witness): the unit sphere at the origin and the view ray from `(0,0,-5)` along
`(0,0,1)`, which hits the sphere at distance 4. -/
theorem compute_colour_depth_zero_witness :
    (Scene.sphereAndLight : Scene ℝ).computeColour Libm.real ⟨![0, 0, -5], ![0, 0, 1]⟩ 0
      = ((Scene.sphereAndLight : Scene ℝ).lights_.foldlM
          (Scene.addLight Libm.real Scene.sphereAndLight ⟨![0, 0, -5], ![0, 0, 1]⟩
            { point := ![0, 0, -1], normal := ![0, 0, -1], material := Material.default,
              distance := 4 })
          ((Scene.sphereAndLight : Scene ℝ).ambientLight
            * (Material.default : Material ℝ).ambientColour)).map Colour.clip :=
  (compute_colour_depth_zero Scene.sphereAndLight ⟨![0, 0, -5], ![0, 0, 1]⟩ _
    Scene.sphereAndLight_intersect_view).2 (ne_infinity_of_le (by norm_num))

/-! ## A view ray that starts inside the sphere -/

theorem Scene.insideSphere_wellFormed : (Scene.insideSphere : Scene ℝ).WellFormed := by
  intro obj ho
  simp only [Scene.insideSphere, List.mem_singleton] at ho
  subst ho
  trivial

/-- The view ray from the centre along `(0,0,1)` hits the sphere from inside at `(0,0,1)`;
the stored normal `(0,0,-1)` points back to the ray origin. -/
theorem Scene.insideSphere_intersect_view :
    (Scene.insideSphere : Scene ℝ).intersect Libm.real ⟨![0, 0, 0], ![0, 0, 1]⟩
      = some { point := ![0, 0, 1], normal := ![0, 0, -1], material := Material.shiny,
               distance := 1 } := by
  rw [Scene.intersect_eq_of_wellFormed _ Scene.insideSphere_wellFormed]
  have h := Sphere.intersect_zAxis_one
    ({ transform := Transform.identity, material := Material.shiny } : Sphere ℝ) 0
    Transform.isShiftZ_identity 0 1 (by norm_num) (by norm_num) (by norm_num [epsilon])
  simp only [Scene.allHits, Scene.insideSphere, List.map_cons, List.map_nil,
    Object.intersect, h, Option.getD_some, List.flatten_cons, List.flatten_nil,
    List.append_nil, List.foldl_cons, List.foldl_nil]
  norm_num [Scene.nearer, Scene.noHit, epsilon, infinity]

/-- The shadow ray from `(0,0,1)` towards the light at `(0,0,5)` leaves the sphere and hits
nothing. -/
theorem Scene.insideSphere_intersect_shadow :
    (Scene.insideSphere : Scene ℝ).intersect Libm.real
        (Scene.shadowRay Libm.real
          { point := ![0, 0, 1], normal := ![0, 0, -1], material := Material.shiny,
            distance := 1 }
          { colour := ⟨1, 1, 1⟩, location := ![0, 0, 5] })
      = some Scene.noHit := by
  rw [Scene.shadowRay_zAxis _ _ 1 5 rfl rfl,
    Scene.intersect_eq_of_wellFormed _ Scene.insideSphere_wellFormed]
  have hd : ((5 : ℝ) - 1) / |(5 : ℝ) - 1| = 1 := by norm_num [abs_of_pos]
  have h := Sphere.intersect_zAxis_none
    ({ transform := Transform.identity, material := Material.shiny } : Sphere ℝ) 0
    Transform.isShiftZ_identity 1 1 (by norm_num) (by norm_num)
  simp only [hd, Scene.allHits, Scene.insideSphere, List.map_cons, List.map_nil,
    Object.intersect, h, Option.getD_some, List.flatten_cons, List.flatten_nil,
    List.append_nil, List.foldl_nil]

theorem Vec.div_apply (v : Vec ℝ 3) (s : ℝ) (i : Fin 3) : Vec.div v s i = v i / s :=
  rfl

theorem sqrt_one_mul_one : Real.sqrt ((-1 : ℝ) * -1) = 1 := by
  rw [sqrt_mul_self_abs]
  norm_num

/-- The intensity of the light at `(0,0,5)` at the point `(0,0,1)` is `1/16`. -/
theorem PointLightSource.intensity_example :
    PointLightSource.getIntensityAt Libm.real
      ({ colour := ⟨1, 1, 1⟩, location := ![0, 0, 5] } : PointLightSource ℝ) ![0, 0, 1]
      = 1 / 16 := by
  have hv : (![0, 0, 5] : Vec ℝ 3) - ![0, 0, 1] = ![0, 0, 4] := by
    ext i
    fin_cases i <;> norm_num
  have h4 : Real.sqrt 16 = 4 := by
    rw [show (16 : ℝ) = 4 * 4 by norm_num]
    exact Real.sqrt_mul_self (by norm_num)
  simp only [PointLightSource.getIntensityAt, hv, Vec.norm, Vec.dot_z3, Libm.real]
  norm_num [h4, epsilon]

/-- The base of the specular power for the view ray along `(0,0,1)` and the normal
`(0,0,-1)` is `1`. -/
theorem Scene.specularBase_example :
    Scene.specularBase Libm.real ⟨![0, 0, 0], ![0, 0, 1]⟩
      ({ point := ![0, 0, 1], normal := ![0, 0, -1], material := Material.shiny,
         distance := 1 } : RayIntersection ℝ) = 1 := by
  simp only [Scene.specularBase, Vec.norm, Vec.dot_z3, Libm.real]
  norm_num [sqrt_one_mul_one, Vec.div_apply]

/-! ## Counterexamples for the lighting terms -/

theorem Colour.ext_iff3 (a b : Colour ℝ) :
    a = b ↔ a.red = b.red ∧ a.green = b.green ∧ a.blue = b.blue := by
  cases a
  cases b
  simp

/-- The value `dotProductSpec` for the view ray along `(0,0,1)`, the normal `(0,0,-1)` and
exponent 1 is `1`. -/
theorem Scene.dotProductSpec_example :
    Scene.dotProductSpec Libm.real ⟨![0, 0, 0], ![0, 0, 1]⟩
      ({ point := ![0, 0, 1], normal := ![0, 0, -1], material := Material.shiny,
         distance := 1 } : RayIntersection ℝ) = 1 := by
  rw [Scene.dotProductSpec, Scene.specularBase_example]
  exact Real.one_rpow _

/-- C17: the unit sphere at the origin with a white specular colour and exponent 1, the view
ray from its centre along `(0,0,1)` and the light at `(0,0,5)`.  The shadow ray hits
nothing; the specular term that the code adds is `(1/16,1/16,1/16)`, while the Phong term
with `max(0, r . l)` is `(0,0,0)` (here `r . l = -1`): the base that the code raises to the
exponent is computed from the view direction and the normal only. -/
theorem specular_term_wrong_base :
    (Scene.insideSphere : Scene ℝ).intersect Libm.real ⟨![0, 0, 0], ![0, 0, 1]⟩
        = some { point := ![0, 0, 1], normal := ![0, 0, -1], material := Material.shiny,
                 distance := 1 } ∧
      (Scene.insideSphere : Scene ℝ).intersect Libm.real
          (Scene.shadowRay Libm.real
            { point := ![0, 0, 1], normal := ![0, 0, -1], material := Material.shiny,
              distance := 1 }
            { colour := ⟨1, 1, 1⟩, location := ![0, 0, 5] })
        = some Scene.noHit ∧
      (Scene.noHit : RayIntersection ℝ).distance = infinity ∧
      (⟨1, 1, 1⟩ : Colour ℝ)
          * PointLightSource.getIntensityAt Libm.real
              ({ colour := ⟨1, 1, 1⟩, location := ![0, 0, 5] } : PointLightSource ℝ) ![0, 0, 1]
          * (Material.shiny : Material ℝ).specularColour
          * Scene.dotProductSpec Libm.real ⟨![0, 0, 0], ![0, 0, 1]⟩
              ({ point := ![0, 0, 1], normal := ![0, 0, -1], material := Material.shiny,
                 distance := 1 } : RayIntersection ℝ)
        = ⟨1 / 16, 1 / 16, 1 / 16⟩ ∧
      Scene.phongTerm Libm.real ⟨![0, 0, 0], ![0, 0, 1]⟩
          ({ point := ![0, 0, 1], normal := ![0, 0, -1], material := Material.shiny,
             distance := 1 } : RayIntersection ℝ)
          { colour := ⟨1, 1, 1⟩, location := ![0, 0, 5] }
        = ⟨0, 0, 0⟩ := by
  refine ⟨Scene.insideSphere_intersect_view, Scene.insideSphere_intersect_shadow, rfl, ?_, ?_⟩
  · rw [PointLightSource.intensity_example, Scene.dotProductSpec_example]
    norm_num [Colour.scale_def, Colour.mul_def, Material.shiny, Material.default]
  · have hv : (![0, 0, 5] : Vec ℝ 3) - ![0, 0, 1] = ![0, 0, 4] := by
      ext i
      fin_cases i <;> norm_num
    have h4 : Real.sqrt 16 = 4 := by
      rw [show (16 : ℝ) = 4 * 4 by norm_num]
      exact Real.sqrt_mul_self (by norm_num)
    have hb : max (0 : ℝ) (-1) = 0 := by norm_num
    simp only [Scene.phongTerm, PointLightSource.intensity_example, hv, Vec.norm, Vec.dot_z3,
      Libm.real]
    norm_num [sqrt_one_mul_one, Vec.div_apply, h4, hb, Colour.scale_def, Colour.mul_def,
      Material.shiny, Material.default]

/-! ## A light on the side of the view ray -/

/-- The value `dotProductDiff` for the near pole with normal `(0,0,-1)` and the light at
`(0,0,-3)` is `1`. -/
theorem Scene.dotProductDiff_front :
    Scene.dotProductDiff Libm.real
      ({ point := ![0, 0, -1], normal := ![0, 0, -1], material := Material.default,
         distance := 4 } : RayIntersection ℝ)
      { colour := ⟨1, 1, 1⟩, location := ![0, 0, -3] } = 1 := by
  have hv : (![0, 0, -3] : Vec ℝ 3) - ![0, 0, -1] = ![0, 0, -2] := by
    ext i
    fin_cases i <;> norm_num
  have h4 : Real.sqrt 4 = 2 := by
    rw [show (4 : ℝ) = 2 * 2 by norm_num]
    exact Real.sqrt_mul_self (by norm_num)
  simp only [Scene.dotProductDiff, hv, Vec.norm, Vec.dot_z3, Libm.real]
  norm_num [h4, sqrt_one_mul_one, Vec.div_apply]

/-- When the shadow ray of every light is reported as blocked, the colour is the clipped
ambient term. -/
theorem Scene.computeColour_blocked (sc : Scene ℝ) (ray : Ray ℝ) (depth : Nat)
    (h : RayIntersection ℝ) (hres : sc.intersect Libm.real ray = some h)
    (hhit : h.distance ≠ infinity)
    (hblocked : ∀ light ∈ sc.lights_, ∃ sh,
      sc.intersect Libm.real (Scene.shadowRay Libm.real h light) = some sh ∧
        sh.distance ≠ infinity) :
    sc.computeColour Libm.real ray depth
      = some (sc.ambientLight * h.material.ambientColour).clip := by
  simp only [Scene.computeColour, hres, Option.some_bind, hhit, if_false,
    sc.lights_blocked ray h sc.lights_ _ hblocked, Option.map_some']

theorem Transform.isShiftZ_atZ (c : ℝ) : (Sphere.atZ c : Sphere ℝ).transform.IsShiftZ c :=
  Transform.isShiftZ_translate c

theorem Scene.sphereBeyondLight_wellFormed :
    (Scene.sphereBeyondLight : Scene ℝ).WellFormed := by
  intro obj ho
  simp only [Scene.sphereBeyondLight, List.mem_cons, List.mem_singleton, List.mem_nil_iff,
    or_false] at ho
  rcases ho with rfl | rfl <;> trivial

/-- The view ray from `(0,0,-5)` along `(0,0,1)` hits the first sphere at its near pole; the
second sphere lies behind the ray origin. -/
theorem Scene.sphereBeyondLight_intersect_view :
    (Scene.sphereBeyondLight : Scene ℝ).intersect Libm.real ⟨![0, 0, -5], ![0, 0, 1]⟩
      = some { point := ![0, 0, -1], normal := ![0, 0, -1], material := Material.default,
               distance := 4 } := by
  rw [Scene.intersect_eq_of_wellFormed _ Scene.sphereBeyondLight_wellFormed]
  have h1 := Sphere.intersect_zAxis_two (Sphere.default : Sphere ℝ) 0 Transform.isShiftZ_identity
    (-5) 1 (by norm_num) (by norm_num [epsilon])
  have h2 := Sphere.intersect_zAxis_none (Sphere.atZ (-10) : Sphere ℝ) (-10)
    (Transform.isShiftZ_atZ (-10)) (-5) 1 (by norm_num) (by norm_num)
  simp only [Scene.allHits, Scene.sphereBeyondLight, List.map_cons, List.map_nil,
    Object.intersect, h1, h2, Option.getD_some, List.flatten_cons, List.flatten_nil,
    List.append_nil, List.foldl_cons, List.foldl_nil]
  norm_num [Scene.nearer, Scene.noHit, epsilon, infinity, Sphere.default]

/-- The hits on the shadow ray from the near pole towards the light at `(0,0,-3)`: the second
sphere is hit at distances 10 and 8. -/
theorem Scene.sphereBeyondLight_shadow_hits :
    (Scene.sphereBeyondLight : Scene ℝ).allHits Libm.real
        (Scene.shadowRay Libm.real
          { point := ![0, 0, -1], normal := ![0, 0, -1], material := Material.default,
            distance := 4 }
          { colour := ⟨1, 1, 1⟩, location := ![0, 0, -3] })
      = [{ point := ![0, 0, -11], normal := ![0, 0, 1], material := Material.default,
           distance := 10 },
         { point := ![0, 0, -9], normal := ![0, 0, 1], material := Material.default,
           distance := 8 }] := by
  rw [Scene.shadowRay_zAxis _ _ (-1) (-3) rfl rfl]
  have hd : ((-3 : ℝ) - -1) / |(-3 : ℝ) - -1| = -1 := by
    rw [show (-3 : ℝ) - -1 = -2 by norm_num, abs_of_neg (by norm_num)]
    norm_num
  have h1 := Sphere.intersect_zAxis_none (Sphere.default : Sphere ℝ) 0 Transform.isShiftZ_identity
    (-1) (-1) (by norm_num) (by norm_num)
  have h2 := Sphere.intersect_zAxis_two (Sphere.atZ (-10) : Sphere ℝ) (-10)
    (Transform.isShiftZ_atZ (-10)) (-1) (-1) (by norm_num) (by norm_num [epsilon])
  simp only [hd, Scene.allHits, Scene.sphereBeyondLight, List.map_cons, List.map_nil,
    Object.intersect, h1, h2, Option.getD_some, List.flatten_cons, List.flatten_nil,
    List.append_nil, List.nil_append]
  norm_num [Sphere.atZ]

/-- The shadow ray is reported as blocked, by the hit at distance 8. -/
theorem Scene.sphereBeyondLight_intersect_shadow :
    (Scene.sphereBeyondLight : Scene ℝ).intersect Libm.real
        (Scene.shadowRay Libm.real
          { point := ![0, 0, -1], normal := ![0, 0, -1], material := Material.default,
            distance := 4 }
          { colour := ⟨1, 1, 1⟩, location := ![0, 0, -3] })
      = some { point := ![0, 0, -9], normal := ![0, 0, 1], material := Material.default,
               distance := 8 } := by
  rw [Scene.intersect_eq_of_wellFormed _ Scene.sphereBeyondLight_wellFormed,
    Scene.sphereBeyondLight_shadow_hits]
  norm_num [Scene.nearer, Scene.noHit, epsilon, infinity]

/-- C18 (the code at the failing input): the unit sphere at the origin, a second unit sphere
centred at `(0,0,-10)`, a white light at `(0,0,-3)` and the view ray from `(0,0,-5)` along
`(0,0,1)`.  The ray hits the near pole `(0,0,-1)`; the light is at distance 2 from it, and
the only hits on the shadow ray are at distances 10 and 8, beyond the light; the diffuse term
of the light would be `(1/4,1/4,1/4)`; yet `computeColour` returns black: the light is
treated as blocked. -/
theorem shadow_beyond_light_blocks :
    (Scene.sphereBeyondLight : Scene ℝ).intersect Libm.real ⟨![0, 0, -5], ![0, 0, 1]⟩
        = some { point := ![0, 0, -1], normal := ![0, 0, -1], material := Material.default,
                 distance := 4 } ∧
      Vec.norm Libm.real ((![0, 0, -3] : Vec ℝ 3) - ![0, 0, -1]) = 2 ∧
      (∀ h, Scene.IsHit Libm.real (Scene.sphereBeyondLight : Scene ℝ)
          (Scene.shadowRay Libm.real
            { point := ![0, 0, -1], normal := ![0, 0, -1], material := Material.default,
              distance := 4 }
            { colour := ⟨1, 1, 1⟩, location := ![0, 0, -3] }) h →
        ¬ (epsilon < h.distance ∧ h.distance < 2)) ∧
      (⟨1, 1, 1⟩ : Colour ℝ)
          * PointLightSource.getIntensityAt Libm.real
              ({ colour := ⟨1, 1, 1⟩, location := ![0, 0, -3] } : PointLightSource ℝ)
              ![0, 0, -1]
          * (Material.default : Material ℝ).diffuseColour
          * Scene.dotProductDiff Libm.real
              ({ point := ![0, 0, -1], normal := ![0, 0, -1], material := Material.default,
                 distance := 4 } : RayIntersection ℝ)
              { colour := ⟨1, 1, 1⟩, location := ![0, 0, -3] }
        = ⟨1 / 4, 1 / 4, 1 / 4⟩ ∧
      (Scene.sphereBeyondLight : Scene ℝ).computeColour Libm.real
          ⟨![0, 0, -5], ![0, 0, 1]⟩ 3 = some ⟨0, 0, 0⟩ := by
  have hv : (![0, 0, -3] : Vec ℝ 3) - ![0, 0, -1] = ![0, 0, -2] := by
    ext i
    fin_cases i <;> norm_num
  have h4 : Real.sqrt 4 = 2 := by
    rw [show (4 : ℝ) = 2 * 2 by norm_num]
    exact Real.sqrt_mul_self (by norm_num)
  have hn : Vec.norm Libm.real ((![0, 0, -3] : Vec ℝ 3) - ![0, 0, -1]) = 2 := by
    simp only [hv, Vec.norm, Vec.dot_z3, Libm.real]
    norm_num [h4]
  refine ⟨Scene.sphereBeyondLight_intersect_view, hn, ?_, ?_, ?_⟩
  · intro h hh
    rw [Scene.isHit_iff, Scene.sphereBeyondLight_shadow_hits] at hh
    simp only [List.mem_cons, List.mem_singleton, List.mem_nil_iff, or_false] at hh
    rcases hh with rfl | rfl <;> norm_num
  · have hI : PointLightSource.getIntensityAt Libm.real
        ({ colour := ⟨1, 1, 1⟩, location := ![0, 0, -3] } : PointLightSource ℝ) ![0, 0, -1]
        = 1 / 4 := by
      simp only [PointLightSource.getIntensityAt, hn]
      norm_num [epsilon]
    rw [hI, Scene.dotProductDiff_front]
    norm_num [Colour.scale_def, Colour.mul_def, Material.default]
  · rw [Scene.computeColour_blocked _ _ 3 _ Scene.sphereBeyondLight_intersect_view
      (ne_infinity_of_le (by norm_num))]
    · norm_num [Scene.sphereBeyondLight, Material.default, Colour.mul_def, Colour.clip]
    · intro light hl
      simp only [Scene.sphereBeyondLight, List.mem_singleton] at hl
      subst hl
      exact ⟨_, Scene.sphereBeyondLight_intersect_shadow, ne_infinity_of_le (by norm_num)⟩

/-! ## A mirror sphere -/

theorem Scene.mirrorSphere_wellFormed : (Scene.mirrorSphere : Scene ℝ).WellFormed := by
  intro obj ho
  simp only [Scene.mirrorSphere, List.mem_singleton] at ho
  subst ho
  trivial

theorem Scene.mirrorSphere_intersect_view :
    (Scene.mirrorSphere : Scene ℝ).intersect Libm.real ⟨![0, 0, -5], ![0, 0, 1]⟩
      = some { point := ![0, 0, -1], normal := ![0, 0, -1], material := Material.mirror,
               distance := 4 } := by
  rw [Scene.intersect_eq_of_wellFormed _ Scene.mirrorSphere_wellFormed]
  have h1 := Sphere.intersect_zAxis_two
    ({ transform := Transform.identity, material := Material.mirror } : Sphere ℝ) 0
    Transform.isShiftZ_identity (-5) 1 (by norm_num) (by norm_num [epsilon])
  simp only [Scene.allHits, Scene.mirrorSphere, List.map_cons, List.map_nil,
    Object.intersect, h1, Option.getD_some, List.flatten_cons, List.flatten_nil,
    List.append_nil, List.foldl_cons, List.foldl_nil]
  norm_num [Scene.nearer, Scene.noHit, epsilon, infinity]

theorem Scene.mirrorSphere_intersect_reflected :
    (Scene.mirrorSphere : Scene ℝ).intersect Libm.real ⟨![0, 0, -1], ![0, 0, -1]⟩
      = some Scene.noHit := by
  rw [Scene.intersect_eq_of_wellFormed _ Scene.mirrorSphere_wellFormed]
  have h1 := Sphere.intersect_zAxis_none
    ({ transform := Transform.identity, material := Material.mirror } : Sphere ℝ) 0
    Transform.isShiftZ_identity (-1) (-1) (by norm_num) (by norm_num)
  simp only [Scene.allHits, Scene.mirrorSphere, List.map_cons, List.map_nil,
    Object.intersect, h1, Option.getD_some, List.flatten_cons, List.flatten_nil,
    List.append_nil, List.foldl_nil]

/-- C19 (the code at the failing input): a unit sphere at the origin with mirror colour
`(1,1,1)`, no lights, no ambient light and background `(1/2,1/2,1/2)`; the view ray from
`(0,0,-5)` along `(0,0,1)` at depth 2.  The ray hits the near pole with normal `(0,0,-1)`;
the reflected ray, from `(0,0,-1)` along `(0,0,1) - 2 ((0,0,1) . n) n = (0,0,-1)`, has the
colour `(1/2,1/2,1/2)` at depth 1; the local illumination is black; yet `computeColour`
returns black, not `(1/2,1/2,1/2)`: no mirror term is added. -/
theorem mirror_term_missing :
    (Scene.mirrorSphere : Scene ℝ).intersect Libm.real ⟨![0, 0, -5], ![0, 0, 1]⟩
        = some { point := ![0, 0, -1], normal := ![0, 0, -1], material := Material.mirror,
                 distance := 4 } ∧
      (Material.mirror : Material ℝ).mirrorColour = ⟨1, 1, 1⟩ ∧
      (![0, 0, 1] : Vec ℝ 3)
          - (2 * Vec.dot (![0, 0, 1] : Vec ℝ 3) ![0, 0, -1]) • (![0, 0, -1] : Vec ℝ 3)
        = ![0, 0, -1] ∧
      (Scene.mirrorSphere : Scene ℝ).computeColour Libm.real ⟨![0, 0, -1], ![0, 0, -1]⟩ 1
        = some ⟨1 / 2, 1 / 2, 1 / 2⟩ ∧
      (Scene.mirrorSphere : Scene ℝ).computeColour Libm.real ⟨![0, 0, -5], ![0, 0, 1]⟩ 2
        = some ⟨0, 0, 0⟩ := by
  refine ⟨Scene.mirrorSphere_intersect_view, rfl, ?_, ?_, ?_⟩
  · ext i
    fin_cases i <;> norm_num [Vec.dot_z3]
  · simp only [Scene.computeColour, Scene.mirrorSphere_intersect_reflected, Option.some_bind]
    simp [Scene.noHit, Scene.mirrorSphere]
  · rw [Scene.computeColour_blocked _ _ 2 _ Scene.mirrorSphere_intersect_view
      (ne_infinity_of_le (by norm_num))]
    · norm_num [Scene.mirrorSphere, Material.mirror, Material.default, Colour.mul_def,
        Colour.clip]
    · intro light hl
      simp [Scene.mirrorSphere] at hl

/-! ## The union of two disjoint spheres -/

/-- C20 (the code at the failing input): the `CSG` node of type `UNION` over the unit sphere
at the origin and the unit sphere centred at `(0,0,3)`, and the ray from `(0,0,-5)` along
`(0,0,1)`, which passes through both spheres: each child returns two hits (at distances 6
and 4, and 9 and 7), and `CSG::intersect` returns the empty list. -/
theorem csg_union_returns_no_hits :
    (Object.sphere (Sphere.default : Sphere ℝ)).intersect Libm.real ⟨![0, 0, -5], ![0, 0, 1]⟩
        = some [{ point := ![0, 0, 1], normal := ![0, 0, -1], material := Material.default,
                  distance := 6 },
                { point := ![0, 0, -1], normal := ![0, 0, -1], material := Material.default,
                  distance := 4 }] ∧
      (Object.sphere (Sphere.atZ 3 : Sphere ℝ)).intersect Libm.real ⟨![0, 0, -5], ![0, 0, 1]⟩
        = some [{ point := ![0, 0, 4], normal := ![0, 0, -1], material := Material.default,
                  distance := 9 },
                { point := ![0, 0, 2], normal := ![0, 0, -1], material := Material.default,
                  distance := 7 }] ∧
      (Object.unionOfSpheres : Object ℝ).intersect Libm.real ⟨![0, 0, -5], ![0, 0, 1]⟩
        = some [] := by
  refine ⟨Sphere.default_intersect_axis, ?_, ?_⟩
  · have h2 := Sphere.intersect_zAxis_two (Sphere.atZ 3 : Sphere ℝ) 3
      (Transform.isShiftZ_atZ 3) (-5) 1 (by norm_num) (by norm_num [epsilon])
    simp only [Object.intersect, h2]
    norm_num [Sphere.atZ]
  · exact Object.csg_intersect Transform.identity Material.default "UNION"
      (Object.sphere Sphere.default) (Object.sphere (Sphere.atZ 3)) trivial trivial _

/-! ## The table of CSG::intersect -/

/-- C21: for each of the three CSG types and all child states in `{OUTSIDE, INSIDE}`, the
table built by `CSG::intersect` holds `INSIDE` exactly when the boolean rule of the operation
holds (UNION: left or right, INTERSECTION: left and right, DIFFERENCE: left and not right),
and `OUTSIDE` otherwise. -/
theorem csg_table_boolean_rule (left right : Bool) :
    CSG.csgTable "UNION" (csg_state.ofSolid left) (csg_state.ofSolid right)
        = csg_state.ofSolid (left || right) ∧
      CSG.csgTable "INTERSECTION" (csg_state.ofSolid left) (csg_state.ofSolid right)
        = csg_state.ofSolid (left && right) ∧
      CSG.csgTable "DIFFERENCE" (csg_state.ofSolid left) (csg_state.ofSolid right)
        = csg_state.ofSolid (left && !right) := by
  cases left <;> cases right <;> decide

/-! ## Constructors and assignment -/

/-- C22: the default constructor `CSG::CSG()` sets both children, but the copy constructor
leaves them null: for the copy of a default `CSG`, `left` and `right` are null pointers and
`CSG::intersect` does not return (it dereferences the null `left`). -/
theorem csg_copy_null_children :
    (∃ l r, (CSG.default : CSG ℝ).left = some l ∧ (CSG.default : CSG ℝ).right = some r) ∧
      (CSG.copy (CSG.default : CSG ℝ)).left = none ∧
      (CSG.copy (CSG.default : CSG ℝ)).right = none ∧
      ∀ ray : Ray ℝ, (CSG.copy (CSG.default : CSG ℝ)).intersect Libm.real ray = none :=
  ⟨⟨_, _, rfl, rfl⟩, rfl, rfl, fun _ => rfl⟩

/-- C23: the default cone and the ray from `(0,0,5)` along `(0,0,-1)`: the local ray is the
ray itself and crosses the plane `z = 1` at the parameter `t = 4 > 0`, at the point `(0,0,1)`
on the axis; `Cone::intersect` returns the empty list, as it does for every cone and ray. -/
theorem cone_cap_hit_missing :
    (Cone.default : Cone ℝ).transform.applyInverseRay ⟨![0, 0, 5], ![0, 0, -1]⟩
        = ⟨![0, 0, 5], ![0, 0, -1]⟩ ∧
      (0 : ℝ) < 4 ∧
      (![0, 0, 5] + (4 : ℝ) • ![0, 0, -1] : Vec ℝ 3) = ![0, 0, 1] ∧
      (0 : ℝ) ^ 2 + 0 ^ 2 ≤ 1 ∧
      (Cone.default : Cone ℝ).intersect ⟨![0, 0, 5], ![0, 0, -1]⟩ = some [] ∧
      ∀ (c : Cone ℝ) (ray : Ray ℝ), c.intersect ray = some [] := by
  refine ⟨?_, by norm_num, ?_, by norm_num, rfl, fun _ _ => rfl⟩
  · have h := Transform.isShiftZ_identity
    simp only [Cone.default, Transform.applyInverseRay, h.1, h.2.1]
    congr 1
    ext i; fin_cases i <;> simp
  · ext i; fin_cases i <;> norm_num

/-- C29: the sphere `Sphere.red` (red ambient and diffuse colour): its copy and the default
sphere after an assignment from it have its transform, but their material is the default
material (white), not the material of the sphere. -/
theorem object_copy_drops_material :
    (Sphere.copy (Sphere.red : Sphere ℝ)).transform = (Sphere.red : Sphere ℝ).transform ∧
      (Sphere.copy (Sphere.red : Sphere ℝ)).material = Material.default ∧
      (Sphere.copy (Sphere.red : Sphere ℝ)).material ≠ (Sphere.red : Sphere ℝ).material ∧
      (Sphere.assign Sphere.default (Sphere.red : Sphere ℝ)).transform
        = (Sphere.red : Sphere ℝ).transform ∧
      (Sphere.assign Sphere.default (Sphere.red : Sphere ℝ)).material = Material.default ∧
      (Sphere.assign Sphere.default (Sphere.red : Sphere ℝ)).material
        ≠ (Sphere.red : Sphere ℝ).material := by
  have hne : (Material.default : Material ℝ) ≠ (Sphere.red : Sphere ℝ).material := by
    intro h
    have h2 := congrArg (fun mat => mat.ambientColour.green) h
    simp [Material.default, Sphere.red] at h2
  exact ⟨rfl, rfl, hne, rfl, rfl, hne⟩

/-! ## The image-plane coordinates of Scene::render -/

theorem Scene.halfPixel_eq (sc : Scene ℝ) (hw : sc.renderWidth < 2 ^ 31) :
    sc.halfPixel = 1 / (sc.renderWidth : ℝ) := by
  have h : 2 * sc.renderWidth % 2 ^ 32 = 2 * sc.renderWidth :=
    Nat.mod_eq_of_lt (by omega)
  rw [Scene.halfPixel, h]
  push_cast
  rcases Nat.eq_zero_or_pos sc.renderWidth with h0 | h0
  · simp [h0]
  · have : (sc.renderWidth : ℝ) ≠ 0 := by positivity
    field_simp

theorem Scene.cx_eq (sc : Scene ℝ) (hw : sc.renderWidth < 2 ^ 31) (x : Nat)
    (h0 : 0 < sc.renderWidth) :
    sc.cx x = (2 * (x : ℝ) - sc.renderWidth + 1) / sc.renderWidth := by
  have : (sc.renderWidth : ℝ) ≠ 0 := by positivity
  rw [Scene.cx, sc.halfPixel_eq hw]
  field_simp
  ring

theorem Scene.cy_eq (sc : Scene ℝ) (hw : sc.renderWidth < 2 ^ 31) (y : Nat)
    (h0 : 0 < sc.renderWidth) :
    sc.cy y = (2 * (y : ℝ) - sc.renderHeight + 1) / sc.renderWidth := by
  have : (sc.renderWidth : ℝ) ≠ 0 := by positivity
  rw [Scene.cy, sc.halfPixel_eq hw]
  field_simp
  ring

/-- C24 (amended): for every `renderWidth` below `2^31` and every pixel `(x,y)` of the image,
`halfPixel = 1/width`, `cx = (x - width/2)*2/width + 1/width` and
`cy = (y - height/2)*2/width + 1/width`; hence `-1 < cx < 1`,
`-height/width < cy < height/width`, and the pixel centres are symmetric:
`cx(x) = -cx(width-1-x)`, `cy(y) = -cy(height-1-y)`. -/
theorem render_image_plane_coordinates (sc : Scene ℝ) (hw : sc.renderWidth < 2 ^ 31)
    (x y : Nat) (hx : x < sc.renderWidth) (hy : y < sc.renderHeight) :
    sc.halfPixel = 1 / (sc.renderWidth : ℝ) ∧
      sc.cx x = ((x : ℝ) - sc.renderWidth / 2) * 2 / sc.renderWidth + 1 / sc.renderWidth ∧
      sc.cy y = ((y : ℝ) - sc.renderHeight / 2) * 2 / sc.renderWidth + 1 / sc.renderWidth ∧
      -1 < sc.cx x ∧ sc.cx x < 1 ∧
      -((sc.renderHeight : ℝ) / sc.renderWidth) < sc.cy y ∧
      sc.cy y < (sc.renderHeight : ℝ) / sc.renderWidth ∧
      sc.cx x = -sc.cx (sc.renderWidth - 1 - x) ∧
      sc.cy y = -sc.cy (sc.renderHeight - 1 - y) := by
  have h0 : 0 < sc.renderWidth := by omega
  have hW : (0 : ℝ) < sc.renderWidth := by exact_mod_cast h0
  have hx0 : (0 : ℝ) ≤ x := Nat.cast_nonneg x
  have hy0 : (0 : ℝ) ≤ y := Nat.cast_nonneg y
  have hx1 : (x : ℝ) + 1 ≤ sc.renderWidth := by exact_mod_cast hx
  have hy1 : (y : ℝ) + 1 ≤ sc.renderHeight := by exact_mod_cast hy
  have hxs : ((sc.renderWidth - 1 - x : Nat) : ℝ) = sc.renderWidth - 1 - x := by
    rw [Nat.cast_sub (by omega), Nat.cast_sub (by omega)]
    simp
  have hys : ((sc.renderHeight - 1 - y : Nat) : ℝ) = sc.renderHeight - 1 - y := by
    rw [Nat.cast_sub (by omega), Nat.cast_sub (by omega)]
    simp
  refine ⟨sc.halfPixel_eq hw, ?_, ?_, ?_, ?_, ?_, ?_, ?_, ?_⟩
  · rw [Scene.cx, sc.halfPixel_eq hw]
    ring
  · rw [Scene.cy, sc.halfPixel_eq hw]
    ring
  · rw [sc.cx_eq hw x h0, lt_div_iff₀ hW]
    linarith
  · rw [sc.cx_eq hw x h0, div_lt_iff₀ hW]
    linarith
  · rw [sc.cy_eq hw y h0, ← neg_div, div_lt_div_iff_of_pos_right hW]
    linarith
  · rw [sc.cy_eq hw y h0, div_lt_div_iff_of_pos_right hW]
    linarith
  · rw [sc.cx_eq hw x h0, sc.cx_eq hw _ h0, hxs]
    ring
  · rw [sc.cy_eq hw y h0, sc.cy_eq hw _ h0, hys]
    ring

/-- C24 (witness): the default scene, 800 by 600 pixels, and its pixel `(0, 599)`. -/
theorem render_image_plane_coordinates_witness :
    (({} : Scene ℝ).halfPixel = 1 / ((800 : Nat) : ℝ)) ∧
      -1 < ({} : Scene ℝ).cx 0 ∧ ({} : Scene ℝ).cy 599 < ((600 : Nat) : ℝ) / ((800 : Nat) : ℝ) :=
  have h := render_image_plane_coordinates ({} : Scene ℝ) (by decide) 0 599
    (by decide) (by decide)
  ⟨h.1, h.2.2.2.1, h.2.2.2.2.2.2.1⟩

/-- C24 (counterexample): for the width `2^31 + 1` the product `2*renderWidth` wraps to 2, so
`halfPixel` is 1 and not `1/width`, and in the last pixel column `cx` is greater than 1. -/
theorem render_image_plane_coordinates_counterexample :
    0 < (Scene.veryWide : Scene ℝ).renderWidth ∧
      0 < (Scene.veryWide : Scene ℝ).renderHeight ∧
      2147483648 < (Scene.veryWide : Scene ℝ).renderWidth ∧
      (Scene.veryWide : Scene ℝ).halfPixel = 1 ∧
      (Scene.veryWide : Scene ℝ).halfPixel
        ≠ 1 / ((Scene.veryWide : Scene ℝ).renderWidth : ℝ) ∧
      ¬ (Scene.veryWide : Scene ℝ).cx 2147483648 < 1 := by
  have hp : (Scene.veryWide : Scene ℝ).halfPixel = 1 := by
    norm_num [Scene.halfPixel, Scene.veryWide]
  refine ⟨by decide, by decide, by decide, hp, ?_, ?_⟩
  · rw [hp]
    norm_num [Scene.veryWide]
  · rw [Scene.cx, hp]
    norm_num [Scene.veryWide]

/-! ## PointLightSource::getIntensityAt -/

theorem Vec.norm_nonneg {n : Nat} (v : Vec ℝ n) : 0 ≤ Vec.norm Libm.real v :=
  Real.sqrt_nonneg _

theorem PointLightSource.getIntensityAt_eq (light : PointLightSource ℝ) (p : Point ℝ) :
    light.getIntensityAt Libm.real p
      = 1 / (max (Vec.norm Libm.real (light.location - p)) epsilon) ^ 2 := by
  simp only [PointLightSource.getIntensityAt]
  split_ifs with h
  · rw [max_eq_right h.le, sq]
  · rw [max_eq_left (not_lt.mp h), sq]

/-- C25: for every point light with location `c` and every point `p`,
`getIntensityAt(p) = 1 / max(|c - p|, epsilon)^2`; the result is positive, at most
`1/epsilon^2`, equal to 1 at distance 1, and it does not increase when the distance grows. -/
theorem point_light_intensity (light : PointLightSource ℝ) (p : Point ℝ) :
    light.getIntensityAt Libm.real p
        = 1 / (max (Vec.norm Libm.real (light.location - p)) epsilon) ^ 2 ∧
      0 < light.getIntensityAt Libm.real p ∧
      light.getIntensityAt Libm.real p ≤ 1 / epsilon ^ 2 ∧
      (Vec.norm Libm.real (light.location - p) = 1 → light.getIntensityAt Libm.real p = 1) ∧
      ∀ q : Point ℝ,
        Vec.norm Libm.real (light.location - p) ≤ Vec.norm Libm.real (light.location - q) →
          light.getIntensityAt Libm.real q ≤ light.getIntensityAt Libm.real p := by
  have he : (0 : ℝ) < epsilon := epsilon_pos
  have hm : ∀ d : ℝ, 0 < max d epsilon := fun d => lt_max_of_lt_right he
  refine ⟨light.getIntensityAt_eq p, ?_, ?_, ?_, ?_⟩
  · rw [light.getIntensityAt_eq p]
    exact one_div_pos.mpr (pow_pos (hm _) 2)
  · rw [light.getIntensityAt_eq p]
    exact one_div_le_one_div_of_le (pow_pos he 2)
      (pow_le_pow_left₀ he.le (le_max_right _ _) 2)
  · intro h1
    rw [light.getIntensityAt_eq p, h1, max_eq_left (by norm_num [epsilon])]
    norm_num
  · intro q hq
    rw [light.getIntensityAt_eq p, light.getIntensityAt_eq q]
    exact one_div_le_one_div_of_le (pow_pos (hm _) 2)
      (pow_le_pow_left₀ (hm _).le (max_le_max hq le_rfl) 2)

/-- C25 (witness): the light at `(0,0,5)` and the point `(0,0,4)` at distance 1 from it: the
intensity is 1, and the intensity at `(0,0,1)`, which is farther away, is not greater. -/
theorem point_light_intensity_witness :
    PointLightSource.getIntensityAt Libm.real
        ({ colour := ⟨1, 1, 1⟩, location := ![0, 0, 5] } : PointLightSource ℝ) ![0, 0, 4] = 1 ∧
      PointLightSource.getIntensityAt Libm.real
        ({ colour := ⟨1, 1, 1⟩, location := ![0, 0, 5] } : PointLightSource ℝ) ![0, 0, 1]
        ≤ PointLightSource.getIntensityAt Libm.real
          ({ colour := ⟨1, 1, 1⟩, location := ![0, 0, 5] } : PointLightSource ℝ) ![0, 0, 4] := by
  have hv : (![0, 0, 5] : Vec ℝ 3) - ![0, 0, 4] = ![0, 0, 1] := by
    ext i
    fin_cases i <;> norm_num
  have hw : (![0, 0, 5] : Vec ℝ 3) - ![0, 0, 1] = ![0, 0, 4] := by
    ext i
    fin_cases i <;> norm_num
  have h4 : Real.sqrt 16 = 4 := by
    rw [show (16 : ℝ) = 4 * 4 by norm_num]
    exact Real.sqrt_mul_self (by norm_num)
  have h1 : Vec.norm Libm.real ((![0, 0, 5] : Vec ℝ 3) - ![0, 0, 4]) = 1 := by
    simp only [hv, Vec.norm, Vec.dot_z3, Libm.real]
    norm_num
  have h2 : Vec.norm Libm.real ((![0, 0, 5] : Vec ℝ 3) - ![0, 0, 1]) = 4 := by
    simp only [hw, Vec.norm, Vec.dot_z3, Libm.real]
    norm_num [h4]
  have h := point_light_intensity
    ({ colour := ⟨1, 1, 1⟩, location := ![0, 0, 5] } : PointLightSource ℝ) ![0, 0, 4]
  exact ⟨h.2.2.2.1 h1, h.2.2.2.2 ![0, 0, 1] (by rw [h1, h2]; norm_num)⟩

/-! ## The threshold of sign -/

/-- C26 (amended): for every real `val`, `sign(val)` is `+1` exactly when `val >= epsilon`,
`-1` exactly when `val <= -epsilon`, and `0` exactly when `|val| < epsilon`: zero, and also
every non-zero value of magnitude below `1e-6`. -/
theorem sign_threshold (val : ℝ) :
    (sign val = 1 ↔ epsilon ≤ val) ∧ (sign val = -1 ↔ val ≤ -epsilon) ∧
      (sign val = 0 ↔ |val| < epsilon) :=
  ⟨sign_eq_one_iff val, sign_eq_neg_one_iff val, sign_eq_zero_iff val⟩

/-- C26 (counterexample): the positive value `1e-7` has sign 0, not `+1`, although it is not
zero; likewise the negative value `-1e-7`. -/
theorem sign_threshold_counterexample :
    (0 : ℝ) < 1 / 10000000 ∧ sign (1 / 10000000 : ℝ) = 0 ∧ sign (1 / 10000000 : ℝ) ≠ 1 ∧
      (-(1 / 10000000) : ℝ) < 0 ∧ sign (-(1 / 10000000) : ℝ) = 0 ∧
      sign (-(1 / 10000000) : ℝ) ≠ -1 := by
  have h1 : sign (1 / 10000000 : ℝ) = 0 :=
    (sign_eq_zero_iff _).mpr (by rw [abs_of_pos (by norm_num)]; norm_num [epsilon])
  have h2 : sign (-(1 / 10000000) : ℝ) = 0 :=
    (sign_eq_zero_iff _).mpr (by rw [abs_neg, abs_of_pos (by norm_num)]; norm_num [epsilon])
  refine ⟨by norm_num, h1, ?_, by norm_num, h2, ?_⟩
  · rw [h1]; decide
  · rw [h2]; decide

/-! ## The rotations -/

theorem Transform.rotateX_applyDirection (a : ℝ) :
    (Transform.identity.rotateX Libm.real a).applyDirection ![0, 1, 0]
      = ![0, Real.cos (a * Real.pi / 180), Real.sin (a * Real.pi / 180)] := by
  ext i
  fin_cases i <;>
    simp [Transform.rotateX, Transform.applyDirection, Transform.identity, Mat.mul_eq,
      Mat.mulVec_eq, Mat.identity_eq, Matrix.mulVec, Matrix.dotProduct, Fin.sum_univ_four,
      Mat.set, Matrix.one_apply, deg2rad, Libm.real]

theorem Transform.rotateY_applyDirection (a : ℝ) :
    (Transform.identity.rotateY Libm.real a).applyDirection ![0, 0, 1]
      = ![Real.sin (a * Real.pi / 180), 0, Real.cos (a * Real.pi / 180)] := by
  ext i
  fin_cases i <;>
    simp [Transform.rotateY, Transform.applyDirection, Transform.identity, Mat.mul_eq,
      Mat.mulVec_eq, Mat.identity_eq, Matrix.mulVec, Matrix.dotProduct, Fin.sum_univ_four,
      Mat.set, Matrix.one_apply, deg2rad, Libm.real]

theorem Transform.rotateZ_applyDirection (a : ℝ) :
    (Transform.identity.rotateZ Libm.real a).applyDirection ![1, 0, 0]
      = ![Real.cos (a * Real.pi / 180), Real.sin (a * Real.pi / 180), 0] := by
  ext i
  fin_cases i <;>
    simp [Transform.rotateZ, Transform.applyDirection, Transform.identity, Mat.mul_eq,
      Mat.mulVec_eq, Mat.identity_eq, Matrix.mulVec, Matrix.dotProduct, Fin.sum_univ_four,
      Mat.set, Matrix.one_apply, deg2rad, Libm.real]

theorem ninety_degrees : (90 : ℝ) * Real.pi / 180 = Real.pi / 2 := by ring

/-- C27: on an identity transform, `rotateX(90)` maps the direction `(0,1,0)` to `(0,0,1)`,
`rotateY(90)` maps `(0,0,1)` to `(1,0,0)` and `rotateZ(90)` maps `(1,0,0)` to `(0,1,0)`; for
every angle `a` in degrees, `rotateX(a)` maps `(0,1,0)` to `(0, cos a, sin a)`, `rotateY(a)`
maps `(0,0,1)` to `(sin a, 0, cos a)` and `rotateZ(a)` maps `(1,0,0)` to
`(cos a, sin a, 0)`. -/
theorem rotations_right_handed :
    (Transform.identity.rotateX Libm.real 90).applyDirection ![0, 1, 0] = ![0, 0, 1] ∧
      (Transform.identity.rotateY Libm.real 90).applyDirection ![0, 0, 1] = ![1, 0, 0] ∧
      (Transform.identity.rotateZ Libm.real 90).applyDirection ![1, 0, 0] = ![0, 1, 0] ∧
      ∀ a : ℝ,
        (Transform.identity.rotateX Libm.real a).applyDirection ![0, 1, 0]
          = ![0, Real.cos (a * Real.pi / 180), Real.sin (a * Real.pi / 180)] ∧
        (Transform.identity.rotateY Libm.real a).applyDirection ![0, 0, 1]
          = ![Real.sin (a * Real.pi / 180), 0, Real.cos (a * Real.pi / 180)] ∧
        (Transform.identity.rotateZ Libm.real a).applyDirection ![1, 0, 0]
          = ![Real.cos (a * Real.pi / 180), Real.sin (a * Real.pi / 180), 0] := by
  refine ⟨?_, ?_, ?_, fun a => ⟨Transform.rotateX_applyDirection a,
    Transform.rotateY_applyDirection a, Transform.rotateZ_applyDirection a⟩⟩
  · rw [Transform.rotateX_applyDirection, ninety_degrees, Real.cos_pi_div_two,
      Real.sin_pi_div_two]
  · rw [Transform.rotateY_applyDirection, ninety_degrees, Real.cos_pi_div_two,
      Real.sin_pi_div_two]
  · rw [Transform.rotateZ_applyDirection, ninety_degrees, Real.cos_pi_div_two,
      Real.sin_pi_div_two]

/-! ## Scaling by zero -/

theorem scaling_det (sx sy sz : ℝ) : (scaling sx sy sz).det = sx * sy * sz := by
  have h : scaling sx sy sz = Matrix.diagonal ![sx, sy, sz, 1] := by
    ext i j
    fin_cases i <;> fin_cases j <;> simp [scaling, Matrix.vecHead, Matrix.vecTail]
  rw [h, Matrix.det_diagonal, Fin.prod_univ_four]
  simp

theorem Transform.scale3_det (t : Transform ℝ) (sx sy sz : ℝ) :
    (t.scale3 sx sy sz).T_.det = sx * sy * sz * t.T_.det := by
  have h := Op.run_T (Op.scale3 sx sy sz) t
  simp only [Op.run, Op.elementary] at h
  rw [h, Matrix.det_mul, scaling_det]

theorem Transform.scale_det (t : Transform ℝ) (s : ℝ) :
    (t.scale s).T_.det = s * s * s * t.T_.det := by
  have h := Op.run_T (Op.scale s) t
  simp only [Op.run, Op.elementary] at h
  rw [h, Matrix.det_mul, scaling_det]

theorem Mat.no_inverse_of_det_zero (A : Mat ℝ 4 4) (h : A.det = 0) :
    (∀ M : Mat ℝ 4 4, A * M ≠ 1) ∧ (∀ M : Mat ℝ 4 4, M * A ≠ 1) := by
  constructor <;> intro M hM <;> have hd := congrArg Matrix.det hM <;>
    rw [Matrix.det_mul, h, Matrix.det_one] at hd <;> simp at hd

/-- C28: for every transform `t`, after `t.scale(0)`, or after `t.scale(sx,sy,sz)` with a
factor equal to 0, the forward matrix `T_` has no right and no left inverse; in particular
`T_ * Tinv_ = I` does not hold for the resulting transform. -/
theorem scale_zero_singular (t : Transform ℝ) :
    ((∀ M : Mat ℝ 4 4, (t.scale 0).T_ * M ≠ 1) ∧ (∀ M : Mat ℝ 4 4, M * (t.scale 0).T_ ≠ 1) ∧
        (t.scale 0).T_ * (t.scale 0).Tinv_ ≠ 1) ∧
      ∀ sx sy sz : ℝ, sx = 0 ∨ sy = 0 ∨ sz = 0 →
        (∀ M : Mat ℝ 4 4, (t.scale3 sx sy sz).T_ * M ≠ 1) ∧
          (∀ M : Mat ℝ 4 4, M * (t.scale3 sx sy sz).T_ ≠ 1) ∧
          (t.scale3 sx sy sz).T_ * (t.scale3 sx sy sz).Tinv_ ≠ 1 := by
  constructor
  · have h := Mat.no_inverse_of_det_zero (t.scale 0).T_ (by rw [t.scale_det]; simp)
    exact ⟨h.1, h.2, h.1 _⟩
  · intro sx sy sz h0
    have hd : (t.scale3 sx sy sz).T_.det = 0 := by
      rw [t.scale3_det]
      rcases h0 with h0 | h0 | h0 <;> simp [h0]
    have h := Mat.no_inverse_of_det_zero (t.scale3 sx sy sz).T_ hd
    exact ⟨h.1, h.2, h.1 _⟩

/-- C28 (witness): the identity transform after `scale(2, 0, 3)`. -/
theorem scale_zero_singular_witness :
    (Transform.identity.scale3 2 0 3 : Transform ℝ).T_
      * (Transform.identity.scale3 2 0 3 : Transform ℝ).Tinv_ ≠ 1 :=
  ((scale_zero_singular Transform.identity).2 2 0 3 (Or.inr (Or.inl rfl))).2.2

/-! ## SceneReader: the tokens of an inner Object block -/

theorem SceneReader.takeObject_plain (xs : List String) (h1 : "OBJECT" ∉ xs)
    (h2 : "END" ∉ xs) (d : Int) (rest : List String) :
    SceneReader.takeObject d (xs ++ rest)
      = (xs ++ (SceneReader.takeObject d rest).1, (SceneReader.takeObject d rest).2) := by
  induction xs with
  | nil => simp
  | cons x xs ih =>
    have hx1 : x ≠ "OBJECT" := fun h => h1 (h ▸ List.mem_cons_self _ _)
    have hx2 : x ≠ "END" := fun h => h2 (h ▸ List.mem_cons_self _ _)
    have ih := ih (fun h => h1 (List.mem_cons_of_mem _ h)) (fun h => h2 (List.mem_cons_of_mem _ h))
    simp [SceneReader.takeObject, hx1, hx2, ih]

theorem SceneReader.takeObject_end (d : Int) (hd : d ≠ 1) (rest : List String) :
    SceneReader.takeObject d ("END" :: rest)
      = ("END" :: (SceneReader.takeObject (d - 1) rest).1,
          (SceneReader.takeObject (d - 1) rest).2) := by
  have h : ¬ d - 1 = 0 := fun h => hd (by omega)
  simp [SceneReader.takeObject, h]

theorem SceneReader.takeObject_object (d : Int) (rest : List String) :
    SceneReader.takeObject d ("OBJECT" :: rest)
      = ("OBJECT" :: (SceneReader.takeObject (d + 1) rest).1,
          (SceneReader.takeObject (d + 1) rest).2) := by
  simp [SceneReader.takeObject]

theorem SceneReader.takeObject_cons (x : String) (h1 : x ≠ "OBJECT") (h2 : x ≠ "END") (d : Int)
    (rest : List String) :
    SceneReader.takeObject d (x :: rest)
      = (x :: (SceneReader.takeObject d rest).1, (SceneReader.takeObject d rest).2) := by
  simp [SceneReader.takeObject, h1, h2]

theorem ObjectBlock.csgType_ne {csgType : String}
    (h : csgType = "UNION" ∨ csgType = "INTERSECTION" ∨ csgType = "DIFFERENCE") :
    csgType ≠ "OBJECT" ∧ csgType ≠ "END" := by
  rcases h with rfl | rfl | rfl <;> decide

/-- The loop that moves an inner Object block to `obj` passes over the tokens of a well-formed
block without closing the block it is in. -/
theorem SceneReader.takeObject_block (m : Libm ℝ) (c : Libc ℝ)
    (materials_ : String → Option (Material ℝ)) (b : ObjectBlock)
    (hwf : b.WellFormed m c materials_) :
    ∀ (d : Int), 1 ≤ d → ∀ rest : List String,
      SceneReader.takeObject d (b.tokens ++ rest)
        = (b.tokens ++ (SceneReader.takeObject d rest).1,
            (SceneReader.takeObject d rest).2) := by
  induction b with
  | sphere elements =>
    intro d _ rest
    obtain ⟨h1, h2, -⟩ := hwf
    simp only [ObjectBlock.tokens, List.cons_append]
    rw [SceneReader.takeObject_cons _ (by decide) (by decide),
      SceneReader.takeObject_plain _ h1 h2]
  | cone elements =>
    intro d _ rest
    obtain ⟨h1, h2, -⟩ := hwf
    simp only [ObjectBlock.tokens, List.cons_append]
    rw [SceneReader.takeObject_cons _ (by decide) (by decide),
      SceneReader.takeObject_plain _ h1 h2]
  | csg csgType left right elements ihl ihr =>
    intro d hd rest
    obtain ⟨hty, hl, hr, h1, h2, -⟩ := hwf
    obtain ⟨ht1, ht2⟩ := ObjectBlock.csgType_ne hty
    simp only [ObjectBlock.tokens, List.cons_append, List.append_assoc]
    rw [SceneReader.takeObject_cons _ (by decide) (by decide),
      SceneReader.takeObject_cons _ ht1 ht2, SceneReader.takeObject_object,
      ihl hl (d + 1) (by omega), SceneReader.takeObject_end (d + 1) (by omega),
      add_sub_cancel_right, SceneReader.takeObject_object,
      ihr hr (d + 1) (by omega), SceneReader.takeObject_end (d + 1) (by omega),
      add_sub_cancel_right, SceneReader.takeObject_plain _ h1 h2]

/-- The tokens of a well-formed inner block, followed by its `END`, are moved to `obj` as
they are, and the `END` stays at the front of the queue. -/
theorem SceneReader.takeObject_inner (m : Libm ℝ) (c : Libc ℝ)
    (materials_ : String → Option (Material ℝ)) (b : ObjectBlock)
    (hwf : b.WellFormed m c materials_) (rest : List String) :
    SceneReader.takeObject 1 (b.tokens ++ "END" :: rest) = (b.tokens, "END" :: rest) := by
  rw [SceneReader.takeObject_block m c materials_ b hwf 1 le_rfl]
  simp [SceneReader.takeObject]

/-! ## SceneReader: Object blocks -/

theorem Scene.newObject_setLast (scene : Scene ℝ) (object object' : Object ℝ) :
    ({ scene.newObject object with
        objects_ := (scene.newObject object).objects_.dropLast ++ [object'] } : Scene ℝ)
      = { scene with objects_ := scene.objects_ ++ [object'] } := by
  simp [Scene.newObject]

theorem SceneReader.takeBack_append (scene : Scene ℝ) (object : Object ℝ) :
    SceneReader.takeBack ({ scene with objects_ := scene.objects_ ++ [object] } : Scene ℝ)
      = .ok (object, scene) := by
  simp [SceneReader.takeBack]

/-- Reading a child of a CSG block: when the recursive call appends the object `child` for the
tokens of the inner block, `child` is taken back from the scene and the queue is left behind
the `END` of the inner block. -/
theorem SceneReader.parseChild_block (m : Libm ℝ) (c : Libc ℝ)
    (materials_ : String → Option (Material ℝ)) (b : ObjectBlock)
    (hwf : b.WellFormed m c materials_)
    (parse : Scene ℝ → List String → Except SceneReader.Failure (Scene ℝ))
    (scene : Scene ℝ) (child : Object ℝ) (rest : List String)
    (hparse : parse scene b.tokens
      = .ok { scene with objects_ := scene.objects_ ++ [child] }) :
    SceneReader.parseChild parse scene ("OBJECT" :: (b.tokens ++ "END" :: rest))
      = .ok (child, scene, rest) := by
  simp [SceneReader.parseChild, SceneReader.front, SceneReader.pop,
    SceneReader.takeObject_inner m c materials_ b hwf, hparse, SceneReader.takeBack_append,
    bind, Except.bind, pure, Except.pure]

/-- A well-formed Object block is parsed with enough fuel: `parseObjectBlock` returns, and it
appends to the objects of the scene the one object that the block describes. -/
theorem SceneReader.parseObjectBlock_block (m : Libm ℝ) (c : Libc ℝ)
    (materials_ : String → Option (Material ℝ)) (b : ObjectBlock)
    (hwf : b.WellFormed m c materials_) :
    ∀ fuel : Nat, b.depth < fuel → ∀ scene : Scene ℝ,
      ∃ object, b.object m c materials_ = .ok object ∧
        SceneReader.parseObjectBlock m c materials_ fuel scene b.tokens
          = .ok { scene with objects_ := scene.objects_ ++ [object] } := by
  induction b with
  | sphere elements =>
    intro fuel hf scene
    obtain ⟨fuel, rfl⟩ : ∃ f, fuel = f + 1 := ⟨fuel - 1, by omega⟩
    obtain ⟨object, ho⟩ := hwf.2.2 (Object.sphere Sphere.default)
    refine ⟨object, ho, ?_⟩
    simp [SceneReader.parseObjectBlock, ObjectBlock.tokens, SceneReader.front,
      SceneReader.pop, ho, Scene.newObject_setLast, bind, Except.bind, pure, Except.pure]
  | cone elements =>
    intro fuel hf scene
    obtain ⟨fuel, rfl⟩ : ∃ f, fuel = f + 1 := ⟨fuel - 1, by omega⟩
    obtain ⟨object, ho⟩ := hwf.2.2 (Object.cone Cone.default)
    refine ⟨object, ho, ?_⟩
    simp [SceneReader.parseObjectBlock, ObjectBlock.tokens, SceneReader.front,
      SceneReader.pop, ho, Scene.newObject_setLast, bind, Except.bind, pure, Except.pure]
  | csg csgType left right elements ihl ihr =>
    intro fuel hf scene
    obtain ⟨fuel, rfl⟩ : ∃ f, fuel = f + 1 := ⟨fuel - 1, by omega⟩
    obtain ⟨hty, hl, hr, hel⟩ := hwf
    simp only [ObjectBlock.depth] at hf
    obtain ⟨lo, hlo, hlp⟩ := ihl hl fuel (by omega) scene
    obtain ⟨ro, hro, hrp⟩ := ihr hr fuel (by omega) scene
    obtain ⟨object, ho⟩ := hel.2.2
      (Object.csg Transform.identity Material.default csgType (some lo) (some ro))
    refine ⟨object, ?_, ?_⟩
    · simp [ObjectBlock.object, hlo, hro, ho, bind, Except.bind]
    · have h1 := SceneReader.parseChild_block m c materials_ left hl
        (SceneReader.parseObjectBlock m c materials_ fuel) scene lo
        ("OBJECT" :: (right.tokens ++ "END" :: elements)) hlp
      have h2 := SceneReader.parseChild_block m c materials_ right hr
        (SceneReader.parseObjectBlock m c materials_ fuel) scene ro elements hrp
      have hne : ¬ (csgType ≠ "UNION" ∧ csgType ≠ "INTERSECTION" ∧ csgType ≠ "DIFFERENCE") := by
        rcases hty with rfl | rfl | rfl <;> decide
      have hobj : (({ ({ (CSG.default : CSG ℝ) with left := some lo } : CSG ℝ) with
          right := some ro } : CSG ℝ).setupCSG csgType).toObject
          = Object.csg Transform.identity Material.default csgType (some lo) (some ro) := rfl
      simp [SceneReader.parseObjectBlock, ObjectBlock.tokens, SceneReader.front,
        SceneReader.pop, hne, h1, h2, hobj, ho, Scene.newObject_setLast, bind, Except.bind,
        pure, Except.pure]

/-! ## SceneReader: the elements of a block keep the children of a CSG node -/

theorem SceneReader.keepsChildren_bind {α : Type} {csgType : String}
    {left right : Option (Object ℝ)} (x : Except SceneReader.Failure α)
    (f : α → Except SceneReader.Failure (Object ℝ × List String))
    (h : ∀ a, SceneReader.KeepsChildren csgType left right (f a)) :
    SceneReader.KeepsChildren csgType left right (x >>= f) := by
  intro object rest hres
  cases x with
  | error e => simp [bind, Except.bind] at hres
  | ok a => exact h a object rest hres

theorem SceneReader.keepsChildren_ite {csgType : String} {left right : Option (Object ℝ)}
    (p : Prop) [Decidable p] (a b : Except SceneReader.Failure (Object ℝ × List String))
    (ha : SceneReader.KeepsChildren csgType left right a)
    (hb : SceneReader.KeepsChildren csgType left right b) :
    SceneReader.KeepsChildren csgType left right (if p then a else b) := by
  split_ifs
  · exact ha
  · exact hb

theorem SceneReader.keepsChildren_throw {csgType : String} {left right : Option (Object ℝ)}
    (e : SceneReader.Failure) :
    SceneReader.KeepsChildren csgType left right (throw e) := by
  intro object rest hres
  simp [throw, throwThe, MonadExceptOf.throw] at hres

theorem SceneReader.keepsChildren_mapTransform {csgType : String}
    {left right : Option (Object ℝ)} (f : Transform ℝ → Transform ℝ) (transform : Transform ℝ)
    (material : Material ℝ) (rest : List String) :
    SceneReader.KeepsChildren csgType left right
      (pure ((Object.csg transform material csgType left right).mapTransform f, rest)) := by
  intro object rest' hres
  simp only [pure, Except.pure, Except.ok.injEq, Prod.mk.injEq, Object.mapTransform] at hres
  exact ⟨_, _, hres.1.symm⟩

theorem SceneReader.keepsChildren_mapMaterial {csgType : String}
    {left right : Option (Object ℝ)} (f : Material ℝ → Material ℝ) (transform : Transform ℝ)
    (material : Material ℝ) (rest : List String) :
    SceneReader.KeepsChildren csgType left right
      (pure ((Object.csg transform material csgType left right).mapMaterial f, rest)) := by
  intro object rest' hres
  simp only [pure, Except.pure, Except.ok.injEq, Prod.mk.injEq, Object.mapMaterial] at hres
  exact ⟨_, _, hres.1.symm⟩

/-- One element of an Object block changes the transform or the material of a CSG node and
leaves its operation and its children as they are. -/
theorem SceneReader.parseObjectElement_csg (m : Libm ℝ) (c : Libc ℝ)
    (materials_ : String → Option (Material ℝ)) (transform : Transform ℝ)
    (material : Material ℝ) (csgType : String) (left right : Option (Object ℝ))
    (token : String) (tokenBlock : List String) :
    SceneReader.KeepsChildren csgType left right
      (SceneReader.parseObjectElement m c materials_
        (Object.csg transform material csgType left right) token tokenBlock) := by
  unfold SceneReader.parseObjectElement
  repeat' first
    | apply SceneReader.keepsChildren_ite
    | apply SceneReader.keepsChildren_throw
    | apply SceneReader.keepsChildren_mapTransform
    | apply SceneReader.keepsChildren_mapMaterial
    | (apply SceneReader.keepsChildren_bind; intro _)
  split
  · exact SceneReader.keepsChildren_throw _
  · exact SceneReader.keepsChildren_mapMaterial _ _ _ _

/-- The loop over the elements of an Object block changes the transform and the material of a
CSG node and leaves its operation and its children as they are. -/
theorem SceneReader.parseObjectElements_csg (m : Libm ℝ) (c : Libc ℝ)
    (materials_ : String → Option (Material ℝ)) (csgType : String)
    (left right : Option (Object ℝ)) :
    ∀ (fuel : Nat) (tokenBlock : List String) (transform : Transform ℝ) (material : Material ℝ)
      (object : Object ℝ),
      SceneReader.parseObjectElements m c materials_ fuel
          (Object.csg transform material csgType left right) tokenBlock = .ok object →
        ∃ transform' material', object = Object.csg transform' material' csgType left right := by
  intro fuel
  induction fuel with
  | zero =>
    intro tokenBlock transform material object h
    cases tokenBlock with
    | nil =>
      simp only [SceneReader.parseObjectElements, pure, Except.pure, Except.ok.injEq] at h
      exact ⟨_, _, h.symm⟩
    | cons token tokenBlock =>
      simp [SceneReader.parseObjectElements, throw, throwThe, MonadExceptOf.throw] at h
  | succ fuel ih =>
    intro tokenBlock transform material object h
    cases tokenBlock with
    | nil =>
      simp only [SceneReader.parseObjectElements, pure, Except.pure, Except.ok.injEq] at h
      exact ⟨_, _, h.symm⟩
    | cons token tokenBlock =>
      simp only [SceneReader.parseObjectElements] at h
      cases h1 : SceneReader.parseObjectElement m c materials_
          (Object.csg transform material csgType left right) token tokenBlock with
      | error e => simp [h1, bind, Except.bind] at h
      | ok p =>
        obtain ⟨object1, rest⟩ := p
        obtain ⟨transform1, material1, rfl⟩ :=
          SceneReader.parseObjectElement_csg m c materials_ transform material csgType left
            right token tokenBlock object1 rest h1
        simp only [h1, bind, Except.bind] at h
        exact ih rest transform1 material1 object h

/-! ## SceneReader::read on the tokens of an Object block -/

theorem SceneReader.readNumbered_object (m : Libm ℝ) (c : Libc ℝ) (st : SceneReader.Locals ℝ)
    (n : Int) :
    SceneReader.readNumbered m c st (n, "OBJECT")
      = .ok { st with objectDepth := st.objectDepth + 1,
                      tokenBlock := st.tokenBlock ++ ["OBJECT"] } := by
  simp [SceneReader.readNumbered, SceneReader.readToken, pure, Except.pure]

theorem SceneReader.readNumbered_end (m : Libm ℝ) (c : Libc ℝ) (st : SceneReader.Locals ℝ)
    (n : Int) (hd : 2 ≤ st.objectDepth) :
    SceneReader.readNumbered m c st (n, "END")
      = .ok { st with objectDepth := st.objectDepth - 1,
                      tokenBlock := st.tokenBlock ++ ["END"] } := by
  have h1 : ¬ st.objectDepth - 1 < 0 := by omega
  have h2 : ¬ st.objectDepth - 1 = 0 := by omega
  simp [SceneReader.readNumbered, SceneReader.readToken, pure, Except.pure, h1, h2]

theorem SceneReader.readNumbered_plain (m : Libm ℝ) (c : Libc ℝ) (st : SceneReader.Locals ℝ)
    (n : Int) (token : String) (h1 : token ≠ "OBJECT") (h2 : token ≠ "END")
    (hq : st.tokenBlock ≠ []) :
    SceneReader.readNumbered m c st (n, token)
      = .ok { st with tokenBlock := st.tokenBlock ++ [token] } := by
  simp [SceneReader.readNumbered, SceneReader.readToken, pure, Except.pure, h1, h2, hq]

theorem SceneReader.foldlM_readNumbered_plain (m : Libm ℝ) (c : Libc ℝ) :
    ∀ (ts : List (Int × String)) (xs : List String), ts.map Prod.snd = xs →
      "OBJECT" ∉ xs → "END" ∉ xs →
      ∀ st : SceneReader.Locals ℝ, st.tokenBlock ≠ [] →
        ts.foldlM (SceneReader.readNumbered m c) st
          = .ok { st with tokenBlock := st.tokenBlock ++ xs } := by
  intro ts
  induction ts with
  | nil =>
    intro xs hxs _ _ st _
    subst hxs
    simp [pure, Except.pure]
  | cons p ts ih =>
    intro xs hxs h1 h2 st hq
    obtain ⟨n, token⟩ := p
    subst hxs
    simp only [List.map_cons, List.mem_cons, not_or] at h1 h2
    rw [List.foldlM_cons, SceneReader.readNumbered_plain m c st n token (Ne.symm h1.1)
      (Ne.symm h2.1) hq]
    simp only [bind, Except.bind]
    rw [ih _ rfl h1.2 h2.2 _ (by simp)]
    simp

/-- Between the `OBJECT` and the `END` of an open Object block, the tokens of a well-formed
inner block are appended to the queue, and the depth is afterwards what it was. -/
theorem SceneReader.foldlM_readNumbered_block (m : Libm ℝ) (c : Libc ℝ)
    (materials_ : String → Option (Material ℝ)) (b : ObjectBlock)
    (hwf : b.WellFormed m c materials_) :
    ∀ (ts : List (Int × String)), ts.map Prod.snd = b.tokens →
      ∀ st : SceneReader.Locals ℝ, 1 ≤ st.objectDepth → st.tokenBlock ≠ [] →
        ts.foldlM (SceneReader.readNumbered m c) st
          = .ok { st with tokenBlock := st.tokenBlock ++ b.tokens } := by
  induction b with
  | sphere elements =>
    intro ts hts st _ hq
    exact SceneReader.foldlM_readNumbered_plain m c ts _ hts
      (by simp only [ObjectBlock.tokens, List.mem_cons, not_or]; exact ⟨by decide, hwf.1⟩)
      (by simp only [ObjectBlock.tokens, List.mem_cons, not_or]; exact ⟨by decide, hwf.2.1⟩)
      st hq
  | cone elements =>
    intro ts hts st _ hq
    exact SceneReader.foldlM_readNumbered_plain m c ts _ hts
      (by simp only [ObjectBlock.tokens, List.mem_cons, not_or]; exact ⟨by decide, hwf.1⟩)
      (by simp only [ObjectBlock.tokens, List.mem_cons, not_or]; exact ⟨by decide, hwf.2.1⟩)
      st hq
  | csg csgType left right elements ihl ihr =>
    intro ts hts st hd hq
    obtain ⟨hty, hl, hr, h1, h2, -⟩ := hwf
    obtain ⟨ht1, ht2⟩ := ObjectBlock.csgType_ne hty
    simp only [ObjectBlock.tokens] at hts ⊢
    obtain ⟨⟨n1, _⟩, ts1, rfl, rfl, hts1⟩ := List.map_eq_cons_iff.mp hts
    obtain ⟨⟨n2, _⟩, ts2, rfl, rfl, hts2⟩ := List.map_eq_cons_iff.mp hts1
    obtain ⟨⟨n3, _⟩, ts3, rfl, rfl, hts3⟩ := List.map_eq_cons_iff.mp hts2
    obtain ⟨tl, ts4, rfl, htl, hts4⟩ := List.map_eq_append_iff.mp hts3
    obtain ⟨⟨n4, _⟩, ts5, rfl, rfl, hts5⟩ := List.map_eq_cons_iff.mp hts4
    obtain ⟨⟨n5, _⟩, ts6, rfl, rfl, hts6⟩ := List.map_eq_cons_iff.mp hts5
    obtain ⟨tr, ts7, rfl, htr, hts7⟩ := List.map_eq_append_iff.mp hts6
    obtain ⟨⟨n6, _⟩, tes, rfl, rfl, hts8⟩ := List.map_eq_cons_iff.mp hts7
    clear hts hts1 hts2 hts3 hts4 hts5 hts6 hts7
    simp only [List.foldlM_cons, List.foldlM_append]
    rw [SceneReader.readNumbered_plain m c st n1 _ (by decide) (by decide) hq]
    simp only [bind, Except.bind]
    rw [SceneReader.readNumbered_plain m c _ n2 _ ht1 ht2 (by simp)]
    simp only [SceneReader.readNumbered_object]
    rw [ihl hl tl htl _ (by simp; omega) (by simp)]
    simp only []
    rw [SceneReader.readNumbered_end m c _ n4 (by simp; omega)]
    simp only [SceneReader.readNumbered_object]
    rw [ihr hr tr htr _ (by simp; omega) (by simp)]
    simp only []
    rw [SceneReader.readNumbered_end m c _ n6 (by simp; omega)]
    simp only []
    rw [SceneReader.foldlM_readNumbered_plain m c tes _ hts8 h1 h2 _ (by simp)]
    simp

/-! ## SceneReader::read on the lines of an Object block -/

theorem SceneReader.readLine_eq (m : Libm ℝ) (c : Libc ℝ) (n : Int) :
    ∀ (line : List String) (st : SceneReader.Locals ℝ),
      (∀ token ∈ line, token.get 0 ≠ '#') →
      SceneReader.readLine m c n st line
        = (line.map fun token => (n, token)).foldlM (SceneReader.readNumbered m c) st := by
  intro line
  induction line with
  | nil => intro st _; rfl
  | cons token line ih =>
    intro st h
    have h1 : token.get 0 ≠ '#' := h token (List.mem_cons_self _ _)
    simp only [SceneReader.readLine, h1, if_false, List.map_cons, List.foldlM_cons,
      SceneReader.readNumbered]
    congr 1
    funext st'
    exact ih st' fun t ht => h t (List.mem_cons_of_mem _ ht)

theorem SceneReader.readLines_eq (m : Libm ℝ) (c : Libc ℝ) :
    ∀ (lines : List (List String)) (n : Int) (st : SceneReader.Locals ℝ),
      (∀ line ∈ lines, ∀ token ∈ line, token.get 0 ≠ '#') →
      SceneReader.readLines m c n st lines
        = (SceneReader.numbered n lines).foldlM (SceneReader.readNumbered m c) st := by
  intro lines
  induction lines with
  | nil => intro n st _; rfl
  | cons line lines ih =>
    intro n st h
    simp only [SceneReader.readLines, SceneReader.numbered, List.foldlM_append]
    rw [SceneReader.readLine_eq m c (n + 1) line st (h line (List.mem_cons_self _ _))]
    congr 1
    funext st'
    exact ih (n + 1) st' fun l hl => h l (List.mem_cons_of_mem _ hl)

theorem SceneReader.numbered_map_snd :
    ∀ (lines : List (List String)) (n : Int),
      (SceneReader.numbered n lines).map Prod.snd = lines.flatten := by
  intro lines
  induction lines with
  | nil => intro n; rfl
  | cons line lines ih =>
    intro n
    simp [SceneReader.numbered, ih]

theorem ObjectBlock.depth_lt (b : ObjectBlock) : b.depth < b.tokens.length + 1 := by
  induction b with
  | sphere elements => simp [ObjectBlock.depth]
  | cone elements => simp [ObjectBlock.depth]
  | csg csgType left right elements ihl ihr =>
    simp only [ObjectBlock.depth, ObjectBlock.tokens, List.length_cons, List.length_append]
    omega

/-- The loop of `read` over the tokens `OBJECT ... END` of a well-formed top-level block,
begun outside every block with an empty queue, ends outside every block with an empty queue
and has appended the object of the block. -/
theorem SceneReader.foldlM_readNumbered_top (m : Libm ℝ) (c : Libc ℝ) (r : SceneReader ℝ)
    (b : ObjectBlock) (hwf : b.WellFormed m c r.materials_) (ts : List (Int × String))
    (hts : ts.map Prod.snd = "OBJECT" :: (b.tokens ++ ["END"])) :
    ∃ object, b.object m c r.materials_ = .ok object ∧
      ts.foldlM (SceneReader.readNumbered m c)
          { reader := r, objectDepth := 0, tokenBlock := [] }
        = .ok { reader := { r with scene_ :=
                  { r.scene_ with objects_ := r.scene_.objects_ ++ [object] } }
                objectDepth := 0
                tokenBlock := [] } := by
  obtain ⟨object, ho, hp⟩ := SceneReader.parseObjectBlock_block m c r.materials_ b hwf
    (b.tokens.length + 1) b.depth_lt r.scene_
  refine ⟨object, ho, ?_⟩
  obtain ⟨⟨n1, _⟩, ts1, rfl, rfl, hts1⟩ := List.map_eq_cons_iff.mp hts
  obtain ⟨tb, ts2, rfl, htb, hts2⟩ := List.map_eq_append_iff.mp hts1
  obtain ⟨⟨n2, _⟩, ts3, rfl, rfl, hts3⟩ := List.map_eq_cons_iff.mp hts2
  obtain rfl : ts3 = [] := List.map_eq_nil_iff.mp hts3
  clear hts hts1 hts2 hts3
  simp only [List.foldlM_cons, List.foldlM_append, SceneReader.readNumbered_object]
  simp only [bind, Except.bind]
  rw [SceneReader.foldlM_readNumbered_block m c r.materials_ b hwf tb htb _ (by simp) (by simp)]
  simp [SceneReader.readNumbered, SceneReader.readToken, SceneReader.parseTokenBlock,
    SceneReader.front, SceneReader.pop, hp, bind, Except.bind, pure, Except.pure]

/-- C30: for every well-formed top-level Object block, however deeply CSG blocks are nested in
it, `SceneReader` appends exactly one object to the object list of the scene, the object that
the block describes: the loop of `read`, outside every block and with an empty queue before
the lines of the block, is so after them, and `read` on these lines alone returns.  For a CSG
block the object is a CSG node of the given operation whose left and right children are the
objects that the first and the second inner block describe; the children are not in the object
list. -/
theorem scene_reader_object_block (m : Libm ℝ) (c : Libc ℝ) (r : SceneReader ℝ)
    (b : ObjectBlock) (hwf : b.WellFormed m c r.materials_) (lines : List (List String))
    (hlines : lines.flatten = "OBJECT" :: (b.tokens ++ ["END"]))
    (hcomment : ∀ line ∈ lines, ∀ token ∈ line, token.get 0 ≠ '#') :
    ∃ object, b.object m c r.materials_ = .ok object ∧
      (∀ lineNumber : Int,
        SceneReader.readLines m c lineNumber
            { reader := r, objectDepth := 0, tokenBlock := [] } lines
          = .ok { reader := { r with scene_ :=
                    { r.scene_ with objects_ := r.scene_.objects_ ++ [object] } }
                  objectDepth := 0
                  tokenBlock := [] }) ∧
      SceneReader.read m c r lines
        = .ok { r with
                startLine_ := 0
                scene_ := { r.scene_ with objects_ := r.scene_.objects_ ++ [object] } } ∧
      ∀ csgType left right elements, b = ObjectBlock.csg csgType left right elements →
        ∃ leftObject rightObject transform material,
          left.object m c r.materials_ = .ok leftObject ∧
          right.object m c r.materials_ = .ok rightObject ∧
          object = Object.csg transform material csgType (some leftObject) (some rightObject) := by
  obtain ⟨object, ho, -⟩ := SceneReader.parseObjectBlock_block m c r.materials_ b hwf
    (b.tokens.length + 1) b.depth_lt r.scene_
  have key : ∀ (n : Int) (r' : SceneReader ℝ), r'.materials_ = r.materials_ →
      SceneReader.readLines m c n { reader := r', objectDepth := 0, tokenBlock := [] } lines
        = .ok { reader := { r' with scene_ :=
                  { r'.scene_ with objects_ := r'.scene_.objects_ ++ [object] } }
                objectDepth := 0
                tokenBlock := [] } := by
    intro n r' hr'
    obtain ⟨object', ho', h⟩ := SceneReader.foldlM_readNumbered_top m c r' b (hr' ▸ hwf)
      (SceneReader.numbered n lines) (by rw [SceneReader.numbered_map_snd, hlines])
    rw [hr', ho] at ho'
    obtain rfl : object = object' := Except.ok.inj ho'
    rw [SceneReader.readLines_eq m c lines n _ hcomment, h]
  refine ⟨object, ho, fun n => key n r rfl, ?_, ?_⟩
  · simp [SceneReader.read, key 0 { r with startLine_ := 0 } rfl, bind, Except.bind, pure,
      Except.pure]
  · rintro csgType left right elements rfl
    obtain ⟨-, hl, hr, -⟩ := hwf
    simp only [ObjectBlock.object] at ho
    cases hlo : left.object m c r.materials_ with
    | error e => simp [hlo, bind, Except.bind] at ho
    | ok leftObject =>
      cases hro : right.object m c r.materials_ with
      | error e => simp [hlo, hro, bind, Except.bind] at ho
      | ok rightObject =>
        simp only [hlo, hro, bind, Except.bind] at ho
        obtain ⟨transform, material, rfl⟩ :=
          SceneReader.parseObjectElements_csg m c r.materials_ csgType (some leftObject)
            (some rightObject) _ _ _ _ _ ho
        exact ⟨leftObject, rightObject, transform, material, rfl, rfl, rfl⟩

theorem ObjectBlock.unionExample_wellFormed :
    ObjectBlock.unionExample.WellFormed Libm.real (Libc.small : Libc ℝ)
      (SceneReader.new : SceneReader ℝ).materials_ := by
  refine ⟨Or.inl rfl, ⟨by decide, by decide, fun object => ?_⟩,
    ⟨by decide, by decide, fun object => ⟨object, rfl⟩⟩,
    ⟨by decide, by decide, fun object => ?_⟩⟩
  · exact ⟨object.mapTransform fun t => t.translate 1 0 0, by
      simp [SceneReader.parseObjectElements, SceneReader.parseObjectElement,
        SceneReader.parseNumber, SceneReader.front, SceneReader.pop, Libc.small, bind,
        Except.bind, pure, Except.pure]⟩
  · exact ⟨object.mapTransform fun t => t.scale 2, by
      simp [SceneReader.parseObjectElements, SceneReader.parseObjectElement,
        SceneReader.parseNumber, SceneReader.front, SceneReader.pop, Libc.small, bind,
        Except.bind, pure, Except.pure]⟩

theorem ObjectBlock.unionExample_object :
    ObjectBlock.unionExample.object Libm.real (Libc.small : Libc ℝ)
        (SceneReader.new : SceneReader ℝ).materials_
      = .ok (Object.csg (Transform.identity.scale 2) Material.default "UNION"
          (some (Object.sphere
            { transform := Transform.identity.translate 1 0 0, material := Material.default }))
          (some (Object.cone Cone.default))) := by
  simp [ObjectBlock.unionExample, ObjectBlock.object, SceneReader.parseObjectElements,
    SceneReader.parseObjectElement, SceneReader.parseNumber, SceneReader.front,
    SceneReader.pop, Libc.small, Object.mapTransform, Sphere.default, bind, Except.bind, pure,
    Except.pure]

/-- C30 (witness): the block `Object CSG union / Object Sphere Translate 1 0 0 End /
Object Cone End / Scale 2 / End`, written on five lines, read into a default scene: the scene
then has one object, the CSG node scaled by 2 whose children are the sphere moved by
`(1,0,0)` and the default cone. -/
theorem scene_reader_object_block_witness :
    SceneReader.read Libm.real (Libc.small : Libc ℝ) SceneReader.new
        [["OBJECT", "CSG", "UNION"], ["OBJECT", "SPHERE", "TRANSLATE", "1", "0", "0", "END"],
          ["OBJECT", "CONE", "END"], ["SCALE", "2"], ["END"]]
      = .ok { (SceneReader.new : SceneReader ℝ) with
              scene_ := { (SceneReader.new : SceneReader ℝ).scene_ with
                objects_ := [Object.csg (Transform.identity.scale 2) Material.default "UNION"
                  (some (Object.sphere
                    { transform := Transform.identity.translate 1 0 0,
                      material := Material.default }))
                  (some (Object.cone Cone.default))] } } := by
  obtain ⟨object, ho, -, h, -⟩ := scene_reader_object_block Libm.real (Libc.small : Libc ℝ)
    SceneReader.new ObjectBlock.unionExample ObjectBlock.unionExample_wellFormed
    [["OBJECT", "CSG", "UNION"], ["OBJECT", "SPHERE", "TRANSLATE", "1", "0", "0", "END"],
      ["OBJECT", "CONE", "END"], ["SCALE", "2"], ["END"]] rfl (by decide)
  rw [ObjectBlock.unionExample_object] at ho
  obtain rfl := Except.ok.inj ho
  exact h

/-! ## Reads from an empty token queue -/

/-- C31 (the code at the failing inputs): the file `Scene ambientLight 0.2 0.2 End`, a block
with a missing argument, and every file that consists of a stray `End`: `read` does not take
the error path; it calls `front()` on the empty token queue, in `parseNumber` for the third
number and in `parseTokenBlock` for the block type. -/
theorem scene_reader_reads_empty_queue :
    SceneReader.read Libm.real (Libc.decimal : Libc ℝ) SceneReader.new
        [["SCENE", "AMBIENTLIGHT", "0.2", "0.2", "END"]]
      = .error SceneReader.Failure.emptyQueue ∧
    SceneReader.parseColour (Libc.decimal : Libc ℝ) ["0.2", "0.2"]
      = .error SceneReader.Failure.emptyQueue ∧
    ∀ (m : Libm ℝ) (c : Libc ℝ) (r : SceneReader ℝ),
      SceneReader.read m c r [["END"]] = .error SceneReader.Failure.emptyQueue := by
  have h1 : ¬ "SCENE".get 0 = '#' := by decide
  have h2 : ¬ "AMBIENTLIGHT".get 0 = '#' := by decide
  have h3 : ¬ "0.2".get 0 = '#' := by decide
  have h4 : ¬ "END".get 0 = '#' := by decide
  refine ⟨?_, ?_, fun m c r => ?_⟩
  · simp [h1, h2, h3, h4, SceneReader.read, SceneReader.readLines, SceneReader.readLine,
      SceneReader.readToken, SceneReader.parseTokenBlock, SceneReader.parseSceneBlock,
      SceneReader.parseSceneElement, SceneReader.parseColour, SceneReader.parseNumber,
      SceneReader.front, SceneReader.pop, Libc.decimal, bind, Except.bind, pure, Except.pure]
  · simp [SceneReader.parseColour, SceneReader.parseNumber,
      SceneReader.front, SceneReader.pop, Libc.decimal, bind, Except.bind, pure, Except.pure]
  · simp [h4, SceneReader.read, SceneReader.readLines, SceneReader.readLine,
      SceneReader.readToken, SceneReader.parseTokenBlock,
      SceneReader.front, bind, Except.bind, pure, Except.pure]

/-! ## CSG::intersect returns the empty list -/

/-- C32: for every CSG node, whatever its type string, whose two children are non-null (and
have no null child pointer below them), and every ray, `CSG::intersect` returns the empty
list; for every pair of child hit lists the merge ends with both indices at the ends of the
lists and with `result` empty. -/
theorem csg_intersect_empty (transform : Transform ℝ) (material : Material ℝ)
    (csgType : String) (left right : Object ℝ) (hl : left.WellFormed) (hr : right.WellFormed)
    (ray : Ray ℝ) :
    (Object.csg transform material csgType (some left) (some right)).intersect Libm.real ray
        = some [] ∧
      CSG.intersect Libm.real
        { transform := transform, material := material, csgType := csgType,
          left := some left, right := some right } ray = some [] ∧
      ∀ l r : List (RayIntersection ℝ), ∃ st, CSG.merge csgType l r = some st ∧ st.result = [] :=
  ⟨Object.csg_intersect transform material csgType left right hl hr ray,
    Object.csg_intersect transform material csgType left right hl hr ray,
    fun l r => CSG.merge_result csgType l r⟩

/-- C32 (witness): the node of type `UNION` over the default sphere and the default cone, and
the ray from `(0,0,-5)` along `(0,0,1)`. -/
theorem csg_intersect_empty_witness :
    (Object.csg Transform.identity Material.default "UNION"
        (some (Object.sphere Sphere.default))
        (some (Object.cone Cone.default)) : Object ℝ).intersect Libm.real
        ⟨![0, 0, -5], ![0, 0, 1]⟩ = some [] :=
  (csg_intersect_empty Transform.identity Material.default "UNION"
    (Object.sphere Sphere.default) (Object.cone Cone.default) trivial trivial
    ⟨![0, 0, -5], ![0, 0, 1]⟩).1

/-! ## The iterations of the merge loop -/

theorem CSG.mergeTrace_spec (l r : List (RayIntersection ℝ)) :
    ∀ (fuel : Nat) (st : CSG.Locals ℝ), st.lIi ≤ l.length → st.rIi ≤ r.length →
      (l.length - st.lIi) + (r.length - st.rIi) ≤ fuel →
      ∃ trace, CSG.mergeTrace l r fuel st = some trace ∧
        trace.length = (l.length - st.lIi) + (r.length - st.rIi) ∧
        ∀ (i : Nat) (hi : i < trace.length),
          (trace.get ⟨i, hi⟩).lIi + (trace.get ⟨i, hi⟩).rIi = st.lIi + st.rIi + i ∧
          (trace.get ⟨i, hi⟩).lIi ≤ l.length ∧ (trace.get ⟨i, hi⟩).rIi ≤ r.length := by
  intro fuel
  induction fuel with
  | zero =>
    intro st hl hr hf
    have hg : ¬ (st.lIi < l.length ∨ st.rIi < r.length) := by omega
    refine ⟨[], by simp [CSG.mergeTrace, hg], by simp; omega, ?_⟩
    intro i hi
    simp at hi
  | succ fuel ih =>
    intro st hl hr hf
    by_cases hg : st.lIi < l.length ∨ st.rIi < r.length
    · obtain ⟨st1, h1, -, hl1, hr1, hsum⟩ := CSG.mergeStep_spec l r st hl hr hg
      obtain ⟨trace, h2, hlen, hall⟩ := ih st1 hl1 hr1 (by omega)
      refine ⟨st :: trace, ?_, ?_, ?_⟩
      · rw [CSG.mergeTrace]
        simp only [hg, if_true, h1, Option.some_bind, h2, Option.map_some']
      · simp only [List.length_cons, hlen]
        omega
      · intro i hi
        cases i with
        | zero => exact ⟨by simp, by simpa using hl, by simpa using hr⟩
        | succ i =>
          have hi' : i < trace.length := by simpa using hi
          obtain ⟨a, b, c⟩ := hall i hi'
          refine ⟨?_, by simpa using b, by simpa using c⟩
          simp only [List.get_eq_getElem, List.getElem_cons_succ] at a ⊢
          omega
    · refine ⟨[], by rw [CSG.mergeTrace]; simp only [hg, if_false], by simp; omega, ?_⟩
      intro i hi
      simp at hi

theorem CSG.mergeLoop_final (l r : List (RayIntersection ℝ)) :
    ∀ (fuel : Nat) (st : CSG.Locals ℝ), st.lIi ≤ l.length → st.rIi ≤ r.length →
      (l.length - st.lIi) + (r.length - st.rIi) ≤ fuel →
      ∃ st', CSG.mergeLoop l r fuel st = some st' ∧ st'.lIi = l.length ∧
        st'.rIi = r.length := by
  intro fuel
  induction fuel with
  | zero =>
    intro st hl hr hf
    have hg : ¬ (st.lIi < l.length ∨ st.rIi < r.length) := by omega
    exact ⟨st, by simp [CSG.mergeLoop, hg], by omega, by omega⟩
  | succ fuel ih =>
    intro st hl hr hf
    by_cases hg : st.lIi < l.length ∨ st.rIi < r.length
    · obtain ⟨st1, h1, -, hl1, hr1, hsum⟩ := CSG.mergeStep_spec l r st hl hr hg
      obtain ⟨st2, h2, hfin⟩ := ih st1 hl1 hr1 (by omega)
      refine ⟨st2, ?_, hfin⟩
      rw [CSG.mergeLoop]
      simp only [hg, if_true, h1, Option.some_bind]
      exact h2
    · exact ⟨st, by rw [CSG.mergeLoop]; simp only [hg, if_false], by omega, by omega⟩

theorem CSG.mergeLoop_short (l r : List (RayIntersection ℝ)) :
    ∀ (fuel : Nat) (st : CSG.Locals ℝ), st.lIi ≤ l.length → st.rIi ≤ r.length →
      fuel < (l.length - st.lIi) + (r.length - st.rIi) →
      CSG.mergeLoop l r fuel st = none := by
  intro fuel
  induction fuel with
  | zero =>
    intro st hl hr hf
    have hg : st.lIi < l.length ∨ st.rIi < r.length := by omega
    simp [CSG.mergeLoop, hg]
  | succ fuel ih =>
    intro st hl hr hf
    have hg : st.lIi < l.length ∨ st.rIi < r.length := by omega
    obtain ⟨st1, h1, -, hl1, hr1, hsum⟩ := CSG.mergeStep_spec l r st hl hr hg
    rw [CSG.mergeLoop]
    simp only [hg, if_true, h1, Option.some_bind]
    exact ih st1 hl1 hr1 (by omega)

/-- C38: for every pair of child hit lists of sizes `m` and `n`, the merge loop of
`CSG::intersect`, begun with `lIi = rIi = 0`, ends after exactly `m + n` iterations (fewer do
not end it) with `lIi = m` and `rIi = n`; the iteration number `i` begins with
`lIi + rIi = i`; and in every iteration `lIi <= m`, `rIi <= n`, and where the elements
`leftIntersections[lIi]` and `rightIntersections[rIi]` are read (`rIi != n` and `lIi < m`),
`lIi < m` and `rIi < n`. -/
theorem csg_merge_loop_iterations (l r : List (RayIntersection ℝ)) (st : CSG.Locals ℝ) :
    ∃ trace final,
      CSG.mergeTrace l r (l.length + r.length) { st with lIi := 0, rIi := 0 } = some trace ∧
      trace.length = l.length + r.length ∧
      CSG.mergeLoop l r (l.length + r.length) { st with lIi := 0, rIi := 0 } = some final ∧
      final.lIi = l.length ∧ final.rIi = r.length ∧
      (∀ fuel, fuel < l.length + r.length →
        CSG.mergeLoop l r fuel { st with lIi := 0, rIi := 0 } = none) ∧
      ∀ (i : Nat) (hi : i < trace.length),
        (trace.get ⟨i, hi⟩).lIi + (trace.get ⟨i, hi⟩).rIi = i ∧
        (trace.get ⟨i, hi⟩).lIi ≤ l.length ∧ (trace.get ⟨i, hi⟩).rIi ≤ r.length ∧
        ((trace.get ⟨i, hi⟩).rIi ≠ r.length → (trace.get ⟨i, hi⟩).lIi < l.length →
          (trace.get ⟨i, hi⟩).lIi < l.length ∧ (trace.get ⟨i, hi⟩).rIi < r.length) := by
  obtain ⟨trace, ht, hlen, hall⟩ := CSG.mergeTrace_spec l r (l.length + r.length)
    { st with lIi := 0, rIi := 0 } (Nat.zero_le _) (Nat.zero_le _) (by simp)
  obtain ⟨final, hf, hfl, hfr⟩ := CSG.mergeLoop_final l r (l.length + r.length)
    { st with lIi := 0, rIi := 0 } (Nat.zero_le _) (Nat.zero_le _) (by simp)
  refine ⟨trace, final, ht, by simpa using hlen, hf, hfl, hfr, ?_, ?_⟩
  · intro fuel hfuel
    exact CSG.mergeLoop_short l r fuel _ (Nat.zero_le _) (Nat.zero_le _) (by simpa using hfuel)
  · intro i hi
    obtain ⟨a, b, c⟩ := hall i hi
    refine ⟨by simpa using a, b, c, fun h1 h2 => ⟨h2, lt_of_le_of_ne c h1⟩⟩

/-- C38 (witness): one left hit and no right hit: one iteration, which begins with
`lIi = rIi = 0`, and the loop does not end without it. -/
theorem csg_merge_loop_iterations_witness :
    ∃ trace : List (CSG.Locals ℝ),
      CSG.mergeTrace [Scene.noHit] [] 1
          { csg_table := CSG.csgTable "UNION", leftState := csg_state.INSIDE,
            rightState := csg_state.OUTSIDE, previousLeftState := csg_state.INSIDE,
            previousRightState := csg_state.OUTSIDE, lIi := 0, rIi := 0, result := [] }
        = some trace ∧ trace.length = 1 ∧
      CSG.mergeLoop [(Scene.noHit : RayIntersection ℝ)] [] 0
          { csg_table := CSG.csgTable "UNION", leftState := csg_state.INSIDE,
            rightState := csg_state.OUTSIDE, previousLeftState := csg_state.INSIDE,
            previousRightState := csg_state.OUTSIDE, lIi := 0, rIi := 0, result := [] }
        = none := by
  obtain ⟨trace, final, h1, h2, -, -, -, h3, -⟩ := csg_merge_loop_iterations
    [(Scene.noHit : RayIntersection ℝ)] []
    { csg_table := CSG.csgTable "UNION", leftState := csg_state.INSIDE,
      rightState := csg_state.OUTSIDE, previousLeftState := csg_state.INSIDE,
      previousRightState := csg_state.OUTSIDE, lIi := 0, rIi := 0, result := [] }
  exact ⟨trace, h1, h2, h3 0 (by decide)⟩

/-! ## The bottom rows of the matrices -/

/-- C37: for every transform reached from the identity by rotations, translations and scalings
with non-zero factors, the bottom row of `T_` and of `Tinv_` is `(0,0,0,1)`; hence for every
point the homogeneous coordinate `v(3)` by which `apply(Point)` and `applyInverse(Point)`
divide is exactly 1, and not zero; and the two matrices are inverse to each other. -/
theorem transform_bottom_row (ops : List (Op ℝ)) (h : ∀ op ∈ ops, op.NonZero) (p : Point ℝ) :
    ((Transform.build Libm.real ops).T_ 3 0 = 0 ∧ (Transform.build Libm.real ops).T_ 3 1 = 0 ∧
        (Transform.build Libm.real ops).T_ 3 2 = 0 ∧
        (Transform.build Libm.real ops).T_ 3 3 = 1) ∧
      ((Transform.build Libm.real ops).Tinv_ 3 0 = 0 ∧
        (Transform.build Libm.real ops).Tinv_ 3 1 = 0 ∧
        (Transform.build Libm.real ops).Tinv_ 3 2 = 0 ∧
        (Transform.build Libm.real ops).Tinv_ 3 3 = 1) ∧
      Mat.mulVec (Transform.build Libm.real ops).T_ ![p 0, p 1, p 2, 1] 3 = 1 ∧
      Mat.mulVec (Transform.build Libm.real ops).Tinv_ ![p 0, p 1, p 2, 1] 3 = 1 ∧
      (Transform.build Libm.real ops).Inverse := by
  have ha := Transform.affine_build ops
  refine ⟨ha.1, ha.2, ?_, ?_, Transform.inverse_build ops h⟩
  · rw [Mat.mulVec_eq]
    exact ha.1.mulVec_hom_last p 1
  · rw [Mat.mulVec_eq]
    exact ha.2.mulVec_hom_last p 1

/-- C37 (witness): a rotation, a non-uniform scaling, a translation and a mirroring scaling,
and the point `(1,2,3)`. -/
theorem transform_bottom_row_witness :
    Mat.mulVec
        (Transform.build Libm.real
          [Op.rotateX (30 : ℝ), Op.scale3 2 3 4, Op.translate 1 2 3, Op.scale (-2)]).T_
        ![(![1, 2, 3] : Point ℝ) 0, (![1, 2, 3] : Point ℝ) 1, (![1, 2, 3] : Point ℝ) 2, 1] 3
        = 1 ∧
      Mat.mulVec
        (Transform.build Libm.real
          [Op.rotateX (30 : ℝ), Op.scale3 2 3 4, Op.translate 1 2 3, Op.scale (-2)]).Tinv_
        ![(![1, 2, 3] : Point ℝ) 0, (![1, 2, 3] : Point ℝ) 1, (![1, 2, 3] : Point ℝ) 2, 1] 3
        = 1 :=
  have h := transform_bottom_row
    [Op.rotateX (30 : ℝ), Op.scale3 2 3 4, Op.translate 1 2 3, Op.scale (-2)]
    (by simp [Op.NonZero]) ![1, 2, 3]
  ⟨h.2.2.1, h.2.2.2.1⟩

/-! ## Hits lie on the ray and on the sphere -/

theorem Transform.inverse_of_mul (t : Transform ℝ) (h : Mat.mul t.T_ t.Tinv_ = Mat.identity) :
    t.Inverse := by
  rw [Mat.mul_eq, Mat.identity_eq] at h
  exact ⟨h, Matrix.mul_eq_one_comm.mp h⟩

theorem Transform.inverse_of_mul_rev (t : Transform ℝ)
    (h : Mat.mul t.Tinv_ t.T_ = Mat.identity) : t.Inverse := by
  rw [Mat.mul_eq, Mat.identity_eq] at h
  exact ⟨Matrix.mul_eq_one_comm.mp h, h⟩

/-- C35: for every sphere whose transform (reached from the identity by the mutators) satisfies
`T_ * Tinv_ = I` and every ray, `Sphere::intersect` returns a list of hits, and each hit in it
is the hit of a root `t > 0` and lies on the world-space ray:
`hit.point = ray.point + t * ray.direction`; when `t >= epsilon` the stored distance is
`t * |ray.direction|`. -/
theorem sphere_hit_on_ray (s : Sphere ℝ) (ops : List (Op ℝ))
    (hs : s.transform = Transform.build Libm.real ops)
    (hinv : Mat.mul s.transform.T_ s.transform.Tinv_ = Mat.identity) (ray : Ray ℝ) :
    ∃ hits, s.intersect Libm.real ray = some hits ∧
      ∀ hit ∈ hits, ∃ t : ℝ, 0 < t ∧
        hit = s.hitAt Libm.real ray (s.transform.applyInverseRay ray) t ∧
        hit.point = ray.point + t • ray.direction ∧
        (epsilon ≤ t → hit.distance = t * Vec.norm Libm.real ray.direction) := by
  have ha : s.transform.Affine := hs ▸ Transform.affine_build ops
  have hi : s.transform.Inverse := s.transform.inverse_of_mul hinv
  obtain ⟨hits, hres⟩ := s.intersect_total ray
  refine ⟨hits, hres, fun hit hmem => ?_⟩
  obtain ⟨t, ht, -, rfl⟩ := s.mem_intersect ray hits hres hit hmem
  refine ⟨t, ht, rfl, s.hitAt_point ha hi ray t, fun hte => ?_⟩
  rw [s.hitAt_distance ha hi ray t ht.le, (sign_eq_one_iff t).mpr hte]
  simp

/-- C35 (witness): the unit sphere at the origin and the ray from `(0,0,-5)` along
`(0,0,1)`: the hit at `(0,0,1)` is the point `(0,0,-5) + 6 * (0,0,1)`. -/
theorem sphere_hit_on_ray_witness :
    ∃ hits, (Sphere.default : Sphere ℝ).intersect Libm.real ⟨![0, 0, -5], ![0, 0, 1]⟩
        = some hits ∧
      ∀ hit ∈ hits, ∃ t : ℝ, 0 < t ∧
        hit.point = (![0, 0, -5] : Vec ℝ 3) + t • ![0, 0, 1] := by
  obtain ⟨hits, h1, h2⟩ := sphere_hit_on_ray (Sphere.default : Sphere ℝ) [] rfl
    (by simp [Sphere.default, Transform.identity, Mat.mul_eq, Mat.identity_eq])
    ⟨![0, 0, -5], ![0, 0, 1]⟩
  refine ⟨hits, h1, fun hit hmem => ?_⟩
  obtain ⟨t, ht, -, hp, -⟩ := h2 hit hmem
  exact ⟨t, ht, hp⟩

theorem Vec.squaredNorm_add_smul (o d : Vec ℝ 3) (t : ℝ) :
    Vec.squaredNorm (o + t • d)
      = Vec.squaredNorm d * t ^ 2 + 2 * Vec.dot d o * t + Vec.squaredNorm o := by
  simp only [Vec.squaredNorm, Vec.dot_z3, Pi.add_apply, Pi.smul_apply, smul_eq_mul]
  ring

/-- A root of the quadratic of `Sphere::intersect` gives a local point on the unit sphere. -/
theorem Sphere.local_point_on_sphere (s : Sphere ℝ) (ray : Ray ℝ) (hA : s.coeffA ray ≠ 0)
    (hD : 0 ≤ s.discriminant ray) (σ : ℝ) (hσ : σ * σ = 1) :
    Vec.squaredNorm ((s.transform.applyInverseRay ray).point
      + ((-s.coeffB ray + σ * Real.sqrt (s.discriminant ray)) / (2 * s.coeffA ray))
        • (s.transform.applyInverseRay ray).direction) = 1 := by
  have hsq : Real.sqrt (s.discriminant ray) * Real.sqrt (s.discriminant ray)
      = s.coeffB ray * s.coeffB ray - 4 * s.coeffA ray * s.coeffC ray := by
    rw [Real.mul_self_sqrt hD, s.discriminant_eq]
  rw [Vec.squaredNorm_add_smul]
  have hC : Vec.squaredNorm (s.transform.applyInverseRay ray).point = s.coeffC ray + 1 := by
    simp [Sphere.coeffC]
  rw [hC]
  change s.coeffA ray * _ ^ 2 + s.coeffB ray * _ + (s.coeffC ray + 1) = 1
  field_simp
  have hσ2 : σ ^ 2 = 1 := by rw [sq]; exact hσ
  linear_combination (2 * s.coeffA ray ^ 2) * hsq
    + (2 * s.coeffA ray ^ 2 * Real.sqrt (s.discriminant ray) ^ 2) * hσ2

/-- C36: for every sphere whose transform (reached from the identity by the mutators) satisfies
`Tinv_ * T_ = I` and every ray with non-zero local direction whose local discriminant
`b^2 - 4ac` is at least `epsilon`, `Sphere::intersect` returns a list of hits, and each hit
point `p` in it lies on the surface of the sphere: `|applyInverse(p)|^2 = 1`. -/
theorem sphere_hit_on_surface (s : Sphere ℝ) (ops : List (Op ℝ))
    (hs : s.transform = Transform.build Libm.real ops)
    (hinv : Mat.mul s.transform.Tinv_ s.transform.T_ = Mat.identity) (ray : Ray ℝ)
    (hdir : (s.transform.applyInverseRay ray).direction ≠ 0)
    (hD : epsilon ≤ s.discriminant ray) :
    ∃ hits, s.intersect Libm.real ray = some hits ∧
      ∀ hit ∈ hits, Vec.squaredNorm (s.transform.applyInversePoint hit.point) = 1 := by
  have ha : s.transform.Affine := hs ▸ Transform.affine_build ops
  have hi : s.transform.Inverse := s.transform.inverse_of_mul_rev hinv
  have hA : s.coeffA ray ≠ 0 := (Vec.dot_self_pos hdir).ne.symm
  have hD0 : 0 ≤ s.discriminant ray := le_trans epsilon_pos.le hD
  have hp := s.local_point_on_sphere ray hA hD0 1 (by norm_num)
  have hm := s.local_point_on_sphere ray hA hD0 (-1) (by norm_num)
  rw [one_mul] at hp
  rw [neg_one_mul, ← sub_eq_add_neg] at hm
  refine ⟨_, s.intersect_of_discriminant_pos ray hD, fun hit hmem => ?_⟩
  rw [List.mem_append] at hmem
  rcases hmem with hmem | hmem
  · split_ifs at hmem with h1
    · rw [List.mem_singleton] at hmem
      rw [hmem]
      simp only [Sphere.hitAt]
      rw [s.transform.applyInverse_applyPoint ha hi]
      exact hp
    · simp at hmem
  · split_ifs at hmem with h1
    · rw [List.mem_singleton] at hmem
      rw [hmem]
      simp only [Sphere.hitAt]
      rw [s.transform.applyInverse_applyPoint ha hi]
      exact hm
    · simp at hmem

/-- C36 (witness): the unit sphere at the origin and the ray from `(0,0,-5)` along `(0,0,1)`,
whose discriminant is 4. -/
theorem sphere_hit_on_surface_witness :
    ∃ hits, (Sphere.default : Sphere ℝ).intersect Libm.real ⟨![0, 0, -5], ![0, 0, 1]⟩
        = some hits ∧
      ∀ hit ∈ hits,
        Vec.squaredNorm ((Sphere.default : Sphere ℝ).transform.applyInversePoint hit.point)
          = 1 :=
  sphere_hit_on_surface (Sphere.default : Sphere ℝ) [] rfl
    (by simp [Sphere.default, Transform.identity, Mat.mul_eq, Mat.identity_eq])
    ⟨![0, 0, -5], ![0, 0, 1]⟩
    (by
      have h : (Sphere.default : Sphere ℝ).transform = Transform.identity := rfl
      rw [h, Transform.identity_applyInverseRay]
      exact ne_zero_of_third (by norm_num))
    (by rw [(Sphere.default_coeffs_z (-5) 1).2.2]; norm_num [epsilon])

/-! ## The base of the specular power -/

/-- The fold of `Scene.nearer` returns the start value or the first of the hits that attain
the least distance: no qualifying hit before it in the list is as near. -/
theorem Scene.foldl_nearer_first (hits : List (RayIntersection ℝ)) :
    ∀ init : RayIntersection ℝ,
      hits.foldl Scene.nearer init = init ∨
        ∃ pre post, hits = pre ++ hits.foldl Scene.nearer init :: post ∧
          ∀ h ∈ pre, ¬ (epsilon < h.distance ∧
            h.distance ≤ (hits.foldl Scene.nearer init).distance) := by
  induction hits with
  | nil => intro init; exact Or.inl rfl
  | cons x xs ih =>
    intro init
    obtain ⟨h1, h2, -⟩ := Scene.foldl_nearer xs (Scene.nearer init x)
    simp only [List.foldl_cons]
    by_cases hc : x.distance > epsilon ∧ x.distance < init.distance
    · have hn : Scene.nearer init x = x := by simp only [Scene.nearer, hc, and_self, if_true]
      rw [hn] at h1 h2 ⊢
      right
      rcases h1 with h1 | ⟨-, -, h5⟩
      · exact ⟨[], xs, by rw [h1]; rfl, by simp⟩
      · rcases ih x with h6 | ⟨pre, post, h6, h7⟩
        · rw [h6] at h5
          exact absurd h5 (lt_irrefl _)
        · refine ⟨x :: pre, post, by rw [List.cons_append, ← h6], ?_⟩
          intro h hh
          rcases List.mem_cons.mp hh with rfl | hh
          · intro hq
            linarith [hq.2]
          · exact h7 h hh
    · have hn : Scene.nearer init x = init := by simp only [Scene.nearer, hc, if_false]
      rw [hn] at h1 h2 ⊢
      rcases h1 with h1 | ⟨-, -, h5⟩
      · exact Or.inl h1
      · rcases ih init with h6 | ⟨pre, post, h6, h7⟩
        · exact Or.inl h6
        · right
          refine ⟨x :: pre, post, by rw [List.cons_append, ← h6], ?_⟩
          intro h hh
          rcases List.mem_cons.mp hh with rfl | hh
          · intro hq
            exact hc ⟨hq.1, by linarith [hq.2]⟩
          · exact h7 h hh

theorem Scene.mem_allHits_perm (sc sc' : Scene ℝ) (hperm : sc'.objects_.Perm sc.objects_)
    (ray : Ray ℝ) (h : RayIntersection ℝ) :
    h ∈ sc'.allHits Libm.real ray ↔ h ∈ sc.allHits Libm.real ray := by
  simp only [Scene.allHits, List.mem_flatten, List.mem_map]
  constructor
  · rintro ⟨hits, ⟨obj, ho, rfl⟩, hm⟩
    exact ⟨_, ⟨obj, hperm.mem_iff.mp ho, rfl⟩, hm⟩
  · rintro ⟨hits, ⟨obj, ho, rfl⟩, hm⟩
    exact ⟨_, ⟨obj, hperm.mem_iff.mpr ho, rfl⟩, hm⟩

/-- The least distance found by the fold depends only on which hits are in the list. -/
theorem Scene.foldl_nearer_distance_congr (hits hits' : List (RayIntersection ℝ))
    (hmem : ∀ h, h ∈ hits' ↔ h ∈ hits) (init : RayIntersection ℝ) :
    (hits'.foldl Scene.nearer init).distance = (hits.foldl Scene.nearer init).distance := by
  obtain ⟨a, b, c⟩ := Scene.foldl_nearer hits init
  obtain ⟨a', b', c'⟩ := Scene.foldl_nearer hits' init
  apply le_antisymm
  · rcases a with a | ⟨a1, a2, -⟩
    · rw [a]
      exact b'
    · exact c' _ ((hmem _).mpr a1) a2
  · rcases a' with a' | ⟨a1, a2, -⟩
    · rw [a']
      exact b
    · exact c _ ((hmem _).mp a1) a2

/-- C33: for every scene (without null child pointers) and ray, the distance of the
`RayIntersection` that `Scene::intersect` returns is the same for every permutation of the
object list; and when the result is a hit, it is the first, in the order in which the objects
and their hit lists are visited, among the qualifying hits of least distance: no hit before
it with distance above `epsilon` is as near. -/
theorem scene_intersect_order (sc : Scene ℝ) (hwf : sc.WellFormed) (ray : Ray ℝ) :
    ∃ result, sc.intersect Libm.real ray = some result ∧
      (∀ objects : List (Object ℝ), objects.Perm sc.objects_ →
        ∃ result', Scene.intersect Libm.real { sc with objects_ := objects } ray = some result' ∧
          result'.distance = result.distance) ∧
      (result.distance ≠ infinity →
        ∃ pre post, sc.allHits Libm.real ray = pre ++ result :: post ∧
          ∀ h ∈ pre, ¬ (epsilon < h.distance ∧ h.distance ≤ result.distance)) := by
  refine ⟨_, sc.intersect_eq_of_wellFormed hwf ray, ?_, ?_⟩
  · intro objects hperm
    have hwf' : Scene.WellFormed ({ sc with objects_ := objects } : Scene ℝ) :=
      fun obj ho => hwf obj (hperm.mem_iff.mp ho)
    refine ⟨_, Scene.intersect_eq_of_wellFormed _ hwf' ray, ?_⟩
    exact Scene.foldl_nearer_distance_congr _ _
      (fun h => Scene.mem_allHits_perm sc { sc with objects_ := objects } hperm ray h) _
  · intro hne
    rcases Scene.foldl_nearer_first (sc.allHits Libm.real ray) Scene.noHit with h | h
    · rw [h] at hne
      exact absurd rfl hne
    · exact h

/-- C33 (witness): the unit sphere at the origin and the unit sphere centred at `(0,0,-10)`,
and the view ray from `(0,0,-5)` along `(0,0,1)`: with the two objects in the other order the
distance of the result is 4 as well. -/
theorem scene_intersect_order_witness :
    ∃ result',
      Scene.intersect Libm.real
          { (Scene.sphereBeyondLight : Scene ℝ) with
            objects_ := [Object.sphere (Sphere.atZ (-10)), Object.sphere Sphere.default] }
          ⟨![0, 0, -5], ![0, 0, 1]⟩ = some result' ∧
      result'.distance = 4 := by
  obtain ⟨result, hres, hperm, -⟩ := scene_intersect_order Scene.sphereBeyondLight
    Scene.sphereBeyondLight_wellFormed ⟨![0, 0, -5], ![0, 0, 1]⟩
  obtain ⟨result', h1, h2⟩ := hperm
    [Object.sphere (Sphere.atZ (-10)), Object.sphere Sphere.default] (List.Perm.swap _ _ _)
  rw [Scene.sphereBeyondLight_intersect_view, Option.some.injEq] at hres
  refine ⟨result', h1, ?_⟩
  rw [h2, ← hres]

/-! ## computeColour does not read the mirror colour -/

theorem Sphere.sphereHits_eraseMirror (s : Sphere ℝ) (ray : Ray ℝ) :
    Sphere.intersect Libm.real { s with material := s.material.eraseMirror } ray
      = (s.intersect Libm.real ray).map (List.map RayIntersection.eraseMirror) := by
  simp only [Sphere.intersect, Sphere.hitAt]
  split_ifs <;> simp [RayIntersection.eraseMirror]

theorem CSG.merge_isSome (csgType : String) (l r : List (RayIntersection ℝ)) :
    (CSG.merge csgType l r).map (fun st => st.result) = some [] := by
  obtain ⟨st, hst, hres⟩ := CSG.merge_result csgType l r
  rw [hst, Option.map_some', hres]

theorem Object.objectHits_eraseMirror :
    (obj : Object ℝ) → ∀ ray : Ray ℝ,
      obj.eraseMirror.intersect Libm.real ray
        = (obj.intersect Libm.real ray).map (List.map RayIntersection.eraseMirror)
  | .sphere s, ray => by
    simp only [Object.eraseMirror, Object.intersect]
    exact s.sphereHits_eraseMirror ray
  | .cone c, ray => by
    simp [Object.eraseMirror, Object.intersect, Cone.intersect]
  | .csg transform material csgType (some left) (some right), ray => by
    have hl := Object.objectHits_eraseMirror left (transform.applyInverseRay ray)
    have hr := Object.objectHits_eraseMirror right (transform.applyInverseRay ray)
    simp only [Object.eraseMirror, Object.intersect, hl, hr, CSG.merge_isSome]
    cases left.intersect Libm.real (transform.applyInverseRay ray) with
    | none => rfl
    | some a =>
      cases right.intersect Libm.real (transform.applyInverseRay ray) with
      | none => rfl
      | some b => rfl
  | .csg _ _ _ none right, _ => by cases right <;> simp [Object.eraseMirror, Object.intersect]
  | .csg _ _ _ (some _) none, _ => by simp [Object.eraseMirror, Object.intersect]

theorem Scene.nearer_eraseMirror (a b : RayIntersection ℝ) :
    Scene.nearer a.eraseMirror b.eraseMirror = (Scene.nearer a b).eraseMirror := by
  simp only [Scene.nearer, RayIntersection.eraseMirror]
  split_ifs <;> rfl

theorem Scene.foldl_nearer_eraseMirror (hits : List (RayIntersection ℝ)) :
    ∀ init : RayIntersection ℝ,
      (hits.map RayIntersection.eraseMirror).foldl Scene.nearer init.eraseMirror
        = (hits.foldl Scene.nearer init).eraseMirror := by
  induction hits with
  | nil => intro init; rfl
  | cons x xs ih =>
    intro init
    simp only [List.map_cons, List.foldl_cons, Scene.nearer_eraseMirror, ih]

theorem Scene.firstLoop_eraseMirror (ray : Ray ℝ) (objects : List (Object ℝ)) :
    ∀ firstHit : RayIntersection ℝ,
      (objects.map Object.eraseMirror).foldlM
          (fun (firstHit : RayIntersection ℝ) (obj : Object ℝ) =>
            (obj.intersect Libm.real ray).map fun hits => hits.foldl Scene.nearer firstHit)
          firstHit.eraseMirror
        = (objects.foldlM
          (fun (firstHit : RayIntersection ℝ) (obj : Object ℝ) =>
            (obj.intersect Libm.real ray).map fun hits => hits.foldl Scene.nearer firstHit)
          firstHit).map RayIntersection.eraseMirror := by
  induction objects with
  | nil => intro firstHit; rfl
  | cons obj objects ih =>
    intro firstHit
    simp only [List.map_cons, List.foldlM_cons, Object.objectHits_eraseMirror]
    cases obj.intersect Libm.real ray with
    | none => rfl
    | some hits =>
      simp only [Option.map_some', Option.bind_eq_bind, Option.some_bind,
        Scene.foldl_nearer_eraseMirror, ih]

theorem Scene.secondLoop_eraseMirror (ray : Ray ℝ) (objects : List (Object ℝ)) :
    (objects.map Object.eraseMirror).foldlM
        (fun (_ : Unit) (obj : Object ℝ) => (obj.intersect Libm.real ray).map fun _ => ()) ()
      = objects.foldlM
        (fun (_ : Unit) (obj : Object ℝ) => (obj.intersect Libm.real ray).map fun _ => ())
        () := by
  induction objects with
  | nil => rfl
  | cons obj objects ih =>
    simp only [List.map_cons, List.foldlM_cons, Object.objectHits_eraseMirror]
    cases obj.intersect Libm.real ray with
    | none => rfl
    | some hits => simp only [Option.map_some', Option.bind_eq_bind, Option.some_bind, ih]

/-- In a scene whose mirror colours are set to black, `Scene::intersect` returns the same hit
with a black mirror colour. -/
theorem Scene.intersect_eraseMirror (sc : Scene ℝ) (ray : Ray ℝ) :
    sc.eraseMirror.intersect Libm.real ray
      = (sc.intersect Libm.real ray).map RayIntersection.eraseMirror := by
  have key : (sc.objects_.map Object.eraseMirror).foldlM
        (fun (firstHit : RayIntersection ℝ) (obj : Object ℝ) =>
          (obj.intersect Libm.real ray).map fun hits => hits.foldl Scene.nearer firstHit)
        ({ point := 0, normal := 0, material := Material.default, distance := infinity } :
          RayIntersection ℝ)
      = (sc.objects_.foldlM
        (fun (firstHit : RayIntersection ℝ) (obj : Object ℝ) =>
          (obj.intersect Libm.real ray).map fun hits => hits.foldl Scene.nearer firstHit)
        ({ point := 0, normal := 0, material := Material.default, distance := infinity } :
          RayIntersection ℝ)).map RayIntersection.eraseMirror :=
    Scene.firstLoop_eraseMirror ray sc.objects_
      { point := 0, normal := 0, material := Material.default, distance := infinity }
  simp only [Scene.intersect, Scene.eraseMirror, Scene.secondLoop_eraseMirror, key]
  cases List.foldlM
      (fun (firstHit : RayIntersection ℝ) (obj : Object ℝ) =>
        (obj.intersect Libm.real ray).map fun hits => hits.foldl Scene.nearer firstHit)
      ({ point := 0, normal := 0, material := Material.default, distance := infinity } :
        RayIntersection ℝ) sc.objects_ with
  | none => rfl
  | some firstHit =>
    simp only [Option.map_some', Option.some_bind]
    cases List.foldlM
      (fun (_ : Unit) (obj : Object ℝ) => (obj.intersect Libm.real ray).map fun _ => ()) ()
      sc.objects_ with
    | none => rfl
    | some u => rfl

theorem Scene.addLight_eraseMirror (sc : Scene ℝ) (viewRay : Ray ℝ) (h : RayIntersection ℝ)
    (hitColour : Colour ℝ) (light : PointLightSource ℝ) :
    sc.eraseMirror.addLight Libm.real viewRay h.eraseMirror hitColour light
      = sc.addLight Libm.real viewRay h hitColour light := by
  have hs : Scene.shadowRay Libm.real h.eraseMirror light = Scene.shadowRay Libm.real h light :=
    rfl
  simp only [Scene.addLight, hs, Scene.intersect_eraseMirror]
  cases sc.intersect Libm.real (Scene.shadowRay Libm.real h light) with
  | none => rfl
  | some sh => rfl

/-- In a scene whose mirror colours are set to black, `computeColour` returns the same
colour. -/
theorem Scene.computeColour_eraseMirror (sc : Scene ℝ) (viewRay : Ray ℝ) (d1 d2 : Nat) :
    sc.eraseMirror.computeColour Libm.real viewRay d1 = sc.computeColour Libm.real viewRay d2 := by
  simp only [Scene.computeColour, Scene.intersect_eraseMirror]
  cases sc.intersect Libm.real viewRay with
  | none => rfl
  | some h =>
    simp only [Option.map_some', Option.some_bind]
    have hd : h.eraseMirror.distance = h.distance := rfl
    have hm : h.eraseMirror.material.ambientColour = h.material.ambientColour := rfl
    have hb : sc.eraseMirror.backgroundColour = sc.backgroundColour := rfl
    have ha : sc.eraseMirror.ambientLight = sc.ambientLight := rfl
    have hl : sc.eraseMirror.lights_ = sc.lights_ := rfl
    have hf : Scene.addLight Libm.real sc.eraseMirror viewRay h.eraseMirror
        = Scene.addLight Libm.real sc viewRay h := by
      funext hitColour light
      exact sc.addLight_eraseMirror viewRay h hitColour light
    rw [hd, hm, hb, ha, hl, hf]

theorem Object.eraseMirror_mapMaterial (obj : Object ℝ) (colour : Colour ℝ) :
    (obj.mapMaterial fun mat => { mat with mirrorColour := colour }).eraseMirror
      = obj.eraseMirror := by
  cases obj with
  | sphere s => simp [Object.mapMaterial, Object.eraseMirror, Material.eraseMirror]
  | cone c => simp [Object.mapMaterial, Object.eraseMirror, Material.eraseMirror]
  | csg transform material csgType left right =>
    cases left <;> cases right <;>
      simp [Object.mapMaterial, Object.eraseMirror, Material.eraseMirror]

/-- C39: `computeColour` ignores the recursion depth and the mirror colours: for every scene,
ray and depths `d1`, `d2`, `computeColour(ray, d1) = computeColour(ray, d2)`; the colour is
unchanged when the mirror colour of the material of an object of the scene is replaced by
another colour; and more generally two scenes that differ only in the mirror colours of the
materials of their objects (they are the same scene once all mirror colours are set to
black) give the same colour. -/
theorem compute_colour_ignores_depth_and_mirror (sc : Scene ℝ) (ray : Ray ℝ) (d1 d2 : Nat) :
    sc.computeColour Libm.real ray d1 = sc.computeColour Libm.real ray d2 ∧
      (∀ (before after : List (Object ℝ)) (obj : Object ℝ) (colour : Colour ℝ),
        sc.objects_ = before ++ obj :: after →
        Scene.computeColour Libm.real
            { sc with objects_ :=
                before ++ (obj.mapMaterial fun mat => { mat with mirrorColour := colour })
                  :: after }
            ray d1
          = sc.computeColour Libm.real ray d2) ∧
      ∀ sc' : Scene ℝ, sc'.eraseMirror = sc.eraseMirror →
        sc'.computeColour Libm.real ray d1 = sc.computeColour Libm.real ray d2 := by
  have key : ∀ sc' : Scene ℝ, sc'.eraseMirror = sc.eraseMirror →
      sc'.computeColour Libm.real ray d1 = sc.computeColour Libm.real ray d2 := by
    intro sc' h
    rw [← sc'.computeColour_eraseMirror ray d1 d1, h, sc.computeColour_eraseMirror ray d1 d2]
  refine ⟨rfl, fun before after obj colour h => key _ ?_, key⟩
  simp only [Scene.eraseMirror, h, List.map_append, List.map_cons,
    Object.eraseMirror_mapMaterial]

/-- C39 (witness): the unit sphere with the default material (black mirror colour) and the
unit sphere with a white mirror colour, in a scene without lights: the colour at depth 2 with
the mirror is the colour at depth 0 without it. -/
theorem compute_colour_ignores_depth_and_mirror_witness :
    (Scene.mirrorSphere : Scene ℝ).computeColour Libm.real ⟨![0, 0, -5], ![0, 0, 1]⟩ 2
      = Scene.computeColour Libm.real
          { (Scene.mirrorSphere : Scene ℝ) with objects_ := [Object.sphere Sphere.default] }
          ⟨![0, 0, -5], ![0, 0, 1]⟩ 0 :=
  (compute_colour_ignores_depth_and_mirror
    { (Scene.mirrorSphere : Scene ℝ) with objects_ := [Object.sphere Sphere.default] }
    ⟨![0, 0, -5], ![0, 0, 1]⟩ 2 0).2.2 Scene.mirrorSphere rfl

/-! ## The length of the direction vector -/

theorem Transform.applyInverseDirection_smul (t : Transform ℝ) (k : ℝ) (d : Direction ℝ) :
    t.applyInverseDirection (k • d) = k • t.applyInverseDirection d := by
  have h : hom (k • d) 0 = k • hom d 0 := by
    ext i
    fin_cases i <;> simp [hom]
  have hp : ∀ x : Vec ℝ 4, proj3 (k • x) = k • proj3 x := by
    intro x
    ext i
    fin_cases i <;> simp [proj3]
  rw [t.applyInverseDirection_eq, t.applyInverseDirection_eq, h, Matrix.mulVec_smul, hp]

theorem Transform.applyInverseRay_smul (t : Transform ℝ) (ray : Ray ℝ) (k : ℝ) :
    t.applyInverseRay { point := ray.point, direction := k • ray.direction }
      = { point := (t.applyInverseRay ray).point,
          direction := k • (t.applyInverseRay ray).direction } := by
  simp only [Transform.applyInverseRay, Transform.applyInverseDirection_smul]

theorem Sphere.coeffs_smul (s : Sphere ℝ) (ray : Ray ℝ) (k : ℝ) :
    s.coeffA { point := ray.point, direction := k • ray.direction } = k ^ 2 * s.coeffA ray ∧
      s.coeffB { point := ray.point, direction := k • ray.direction } = k * s.coeffB ray ∧
      s.discriminant { point := ray.point, direction := k • ray.direction }
        = k ^ 2 * s.discriminant ray := by
  refine ⟨?_, ?_, ?_⟩ <;>
    simp only [Sphere.coeffA, Sphere.coeffB, Sphere.coeffC, Sphere.discriminant,
      Transform.applyInverseRay_smul] <;>
    simp only [Vec.squaredNorm, Vec.dot_smul_left, Vec.dot_smul_right] <;>
    ring

/-- The hit of the root `t / k` of the ray with the direction multiplied by `k` has the
point, the normal and the material of the hit of the root `t` of the ray. -/
theorem Sphere.hitAt_smul (s : Sphere ℝ) (ray : Ray ℝ) (k : ℝ) (hk : 0 < k) (t : ℝ) :
    s.hitAt Libm.real { point := ray.point, direction := k • ray.direction }
        (s.transform.applyInverseRay { point := ray.point, direction := k • ray.direction })
        (t / k)
      = { s.hitAt Libm.real ray (s.transform.applyInverseRay ray) t with
          distance :=
            Vec.norm Libm.real
              ((s.hitAt Libm.real ray (s.transform.applyInverseRay ray) t).point - ray.point)
              * ((sign (t / k) : Int) : ℝ) } := by
  have hp : (s.transform.applyInverseRay ray).point
        + (t / k) • k • (s.transform.applyInverseRay ray).direction
      = (s.transform.applyInverseRay ray).point
        + t • (s.transform.applyInverseRay ray).direction := by
    rw [smul_smul, div_mul_cancel₀ _ hk.ne.symm]
  have hflip : ∀ n : Vec ℝ 3,
      (Vec.dot n (k • ray.direction) > 0) ↔ Vec.dot n ray.direction > 0 := by
    intro n
    rw [Vec.dot_smul_right]
    exact ⟨fun h => by
      by_contra hn
      exact absurd h (not_lt.mpr (mul_nonpos_of_nonneg_of_nonpos hk.le (not_lt.mp hn))),
      fun h => mul_pos hk h⟩
  rw [Transform.applyInverseRay_smul]
  simp only [Sphere.hitAt, hp, hflip]

theorem Sphere.root_smul (k n a : ℝ) (hk : k ≠ 0) :
    (k * n) / (2 * (k ^ 2 * a)) = (n / (2 * a)) / k := by
  rw [div_div, show 2 * (k ^ 2 * a) = k * (2 * a * k) by ring, mul_div_mul_left _ _ hk]

/-- The roots of the ray with the direction multiplied by `k > 0` are the roots of the ray
divided by `k`. -/
theorem Sphere.roots_smul (s : Sphere ℝ) (ray : Ray ℝ) (k : ℝ) (hk : 0 < k) :
    -s.coeffB { point := ray.point, direction := k • ray.direction }
        / (2 * s.coeffA { point := ray.point, direction := k • ray.direction })
      = (-s.coeffB ray / (2 * s.coeffA ray)) / k ∧
    (-s.coeffB { point := ray.point, direction := k • ray.direction }
        + Real.sqrt (s.discriminant { point := ray.point, direction := k • ray.direction }))
        / (2 * s.coeffA { point := ray.point, direction := k • ray.direction })
      = ((-s.coeffB ray + Real.sqrt (s.discriminant ray)) / (2 * s.coeffA ray)) / k ∧
    (-s.coeffB { point := ray.point, direction := k • ray.direction }
        - Real.sqrt (s.discriminant { point := ray.point, direction := k • ray.direction }))
        / (2 * s.coeffA { point := ray.point, direction := k • ray.direction })
      = ((-s.coeffB ray - Real.sqrt (s.discriminant ray)) / (2 * s.coeffA ray)) / k := by
  obtain ⟨hA, hB, hD⟩ := s.coeffs_smul ray k
  have hs : Real.sqrt (k ^ 2 * s.discriminant ray) = k * Real.sqrt (s.discriminant ray) := by
    rw [Real.sqrt_mul (sq_nonneg k), Real.sqrt_sq hk.le]
  rw [hA, hB, hD, hs]
  refine ⟨?_, ?_, ?_⟩
  · rw [← Sphere.root_smul k _ _ hk.ne.symm]
    congr 1
    ring
  · rw [← Sphere.root_smul k _ _ hk.ne.symm]
    congr 1
    ring
  · rw [← Sphere.root_smul k _ _ hk.ne.symm]
    congr 1
    ring

theorem sign_of_pos (x : ℝ) (hx : 0 < x) : sign x = 0 ∨ sign x = 1 := by
  unfold sign
  split_ifs with h1 h2
  · exact Or.inl rfl
  · exact absurd hx (not_lt.mpr h2.le)
  · exact Or.inr rfl

theorem Sphere.default_discriminant_sign (dz : ℝ) (h : 1 ≤ dz) :
    sign ((Sphere.default : Sphere ℝ).discriminant ⟨![0, 0, -5], ![0, 0, dz]⟩) = 1 := by
  rw [(Sphere.default_coeffs_z (-5) dz).2.2, sign_eq_one_iff]
  have : (1 : ℝ) ≤ dz * dz := by nlinarith
  norm_num [epsilon]
  linarith

theorem Vec.smul_z (k dz : ℝ) : k • (![0, 0, dz] : Vec ℝ 3) = ![0, 0, k * dz] := by
  ext i
  fin_cases i <;> simp

/-- The unit sphere at the origin and the ray from `(0,0,-2)` along `(0,0,10^-4)`: the
discriminant `4e-8` is below `epsilon`, so the single root `-b / (2a) = 20000` is used, and
the one hit returned is the centre of the sphere. -/
theorem Sphere.default_intersect_tiny_direction :
    (Sphere.default : Sphere ℝ).intersect Libm.real ⟨![0, 0, -2], ![0, 0, 1 / 10000]⟩
      = some [{ point := ![0, 0, 0], normal := ![0, 0, 0], material := Material.default,
                distance := 2 }] := by
  obtain ⟨hA, hB, hD⟩ := Sphere.default_coeffs_z (-2) (1 / 10000)
  have hs : Real.sqrt 4 = 2 := by
    rw [show (4 : ℝ) = 2 * 2 by norm_num]
    exact Real.sqrt_mul_self (by norm_num)
  have s1 : sign (20000 : ℝ) = 1 := (sign_eq_one_iff _).mpr (by norm_num [epsilon])
  have r0 : -(2 * (1 / 10000 * -2)) / (2 * (1 / 10000 * (1 / 10000))) = (20000 : ℝ) := by
    norm_num
  have ht : (Sphere.default : Sphere ℝ).transform = Transform.identity := rfl
  have hsmall : |(Sphere.default : Sphere ℝ).discriminant ⟨![0, 0, -2], ![0, 0, 1 / 10000]⟩|
      < epsilon := by
    rw [hD, abs_of_pos (by norm_num)]
    norm_num [epsilon]
  rw [Sphere.intersect_of_discriminant_zero _ _ hsmall, ht,
    Transform.identity_applyInverseRay, hA, hB, r0, if_pos (by norm_num),
    Sphere.default_hitAt_z]
  norm_num [hs, s1]

/-! ## A light on the surface of the sphere -/

theorem Scene.lightOnSphere_wellFormed : (Scene.lightOnSphere : Scene ℝ).WellFormed := by
  intro obj ho
  simp only [Scene.lightOnSphere, List.mem_singleton] at ho
  subst ho
  trivial

/-- The view ray from `(0,0,-5)` along `(0,0,1)` hits the near pole `(0,0,-1)`, where the
light is, at distance 4. -/
theorem Scene.lightOnSphere_intersect_view :
    (Scene.lightOnSphere : Scene ℝ).intersect Libm.real ⟨![0, 0, -5], ![0, 0, 1]⟩
      = some { point := ![0, 0, -1], normal := ![0, 0, -1], material := Material.default,
               distance := 4 } := by
  rw [Scene.intersect_eq_of_wellFormed _ Scene.lightOnSphere_wellFormed]
  have h := Sphere.intersect_zAxis_two (Sphere.default : Sphere ℝ) 0 Transform.isShiftZ_identity
    (-5) 1 (by norm_num) (by norm_num [epsilon])
  simp only [Scene.allHits, Scene.lightOnSphere, List.map_cons, List.map_nil,
    Object.intersect, h, Option.getD_some, List.flatten_cons, List.flatten_nil,
    List.append_nil, List.foldl_cons, List.foldl_nil]
  norm_num [Scene.nearer, Scene.noHit, epsilon, infinity, Sphere.default]

/-- C14: the unit sphere at the origin with a point light on its surface at `(0,0,-1)`, and
the view ray from `(0,0,-5)` along `(0,0,1)`.  The nearest hit exists and lies at the
location of the light, so the vector `v = light->location - hitPoint.point` is zero, the
divisor `v.norm()` is 0, and the direction of the shadow ray is the quotient of the zero
vector by 0. -/
theorem compute_colour_light_at_hit :
    ∃ h : RayIntersection ℝ,
      (Scene.lightOnSphere : Scene ℝ).intersect Libm.real ⟨![0, 0, -5], ![0, 0, 1]⟩ = some h ∧
      h.distance ≠ infinity ∧
      ∀ light ∈ (Scene.lightOnSphere : Scene ℝ).lights_,
        light.location - h.point = 0 ∧
        Vec.norm Libm.real (light.location - h.point) = 0 ∧
        (Scene.shadowRay Libm.real h light).direction = Vec.div (0 : Vec ℝ 3) 0 := by
  refine ⟨_, Scene.lightOnSphere_intersect_view, ne_infinity_of_le (by norm_num), ?_⟩
  intro light hl
  simp only [Scene.lightOnSphere, List.mem_singleton] at hl
  subst hl
  have hv : (![0, 0, -1] : Vec ℝ 3) - ![0, 0, -1] = 0 := sub_self _
  have hn : Vec.norm Libm.real (0 : Vec ℝ 3) = 0 := by
    simp [Vec.norm, Libm.real, Vec.dot_eq]
  refine ⟨hv, ?_, ?_⟩
  · simp only [hv, hn]
  · simp only [Scene.shadowRay, hv, hn]

/-! ## The length of the direction vector: the hits -/

/-- The hits of the ray with the direction multiplied by `k > 0`, when `sign` classifies
the two discriminants alike: the positive roots `ts` of the ray give the hits of the ray,
and the roots `t / k` give the hits of the ray with the longer direction. -/
theorem Sphere.intersect_smul (s : Sphere ℝ) (ray : Ray ℝ) (k : ℝ) (hk : 0 < k)
    (hsign : sign (s.discriminant { point := ray.point, direction := k • ray.direction })
      = sign (s.discriminant ray)) :
    ∃ ts : List ℝ,
      (∀ t ∈ ts, 0 < t) ∧
      s.intersect Libm.real ray
        = some (ts.map fun t => s.hitAt Libm.real ray (s.transform.applyInverseRay ray) t) ∧
      s.intersect Libm.real { point := ray.point, direction := k • ray.direction }
        = some (ts.map fun t =>
            s.hitAt Libm.real { point := ray.point, direction := k • ray.direction }
              (s.transform.applyInverseRay
                { point := ray.point, direction := k • ray.direction })
              (t / k)) := by
  obtain ⟨r0, r1, r2⟩ := s.roots_smul ray k hk
  have hpos : ∀ t : ℝ, 0 < t / k ↔ 0 < t := fun t => div_pos_iff_of_pos_right hk
  rcases s.discriminant_cases ray with hd | hd | hd
  · have hd' := (sign_eq_neg_one_iff _).mp (hsign.trans ((sign_eq_neg_one_iff _).mpr hd))
    refine ⟨[], by simp, ?_, ?_⟩
    · rw [s.intersect_of_discriminant_neg ray hd]
      rfl
    · rw [s.intersect_of_discriminant_neg _ hd']
      rfl
  · have hd' := (sign_eq_zero_iff _).mp (hsign.trans ((sign_eq_zero_iff _).mpr hd))
    rw [s.intersect_of_discriminant_zero ray hd, s.intersect_of_discriminant_zero _ hd', r0]
    by_cases h0 : 0 < -s.coeffB ray / (2 * s.coeffA ray)
    · refine ⟨[-s.coeffB ray / (2 * s.coeffA ray)], by simpa using h0, ?_, ?_⟩
      · rw [if_pos h0]
        rfl
      · rw [if_pos ((hpos _).mpr h0)]
        rfl
    · refine ⟨[], by simp, ?_, ?_⟩
      · rw [if_neg h0]
        rfl
      · rw [if_neg (fun h => h0 ((hpos _).mp h))]
        rfl
  · have hd' := (sign_eq_one_iff _).mp (hsign.trans ((sign_eq_one_iff _).mpr hd))
    rw [s.intersect_of_discriminant_pos ray hd, s.intersect_of_discriminant_pos _ hd', r1, r2]
    by_cases h1 : 0 < (-s.coeffB ray + Real.sqrt (s.discriminant ray)) / (2 * s.coeffA ray) <;>
      by_cases h2 :
        0 < (-s.coeffB ray - Real.sqrt (s.discriminant ray)) / (2 * s.coeffA ray)
    · refine ⟨[(-s.coeffB ray + Real.sqrt (s.discriminant ray)) / (2 * s.coeffA ray),
        (-s.coeffB ray - Real.sqrt (s.discriminant ray)) / (2 * s.coeffA ray)], ?_, ?_, ?_⟩
      · intro t ht
        simp only [List.mem_cons, List.mem_singleton, List.not_mem_nil, or_false] at ht
        rcases ht with rfl | rfl
        · exact h1
        · exact h2
      · rw [if_pos h1, if_pos h2]
        rfl
      · rw [if_pos ((hpos _).mpr h1), if_pos ((hpos _).mpr h2)]
        rfl
    · refine ⟨[(-s.coeffB ray + Real.sqrt (s.discriminant ray)) / (2 * s.coeffA ray)],
        by simpa using h1, ?_, ?_⟩
      · rw [if_pos h1, if_neg h2]
        rfl
      · rw [if_pos ((hpos _).mpr h1), if_neg (fun h => h2 ((hpos _).mp h))]
        rfl
    · refine ⟨[(-s.coeffB ray - Real.sqrt (s.discriminant ray)) / (2 * s.coeffA ray)],
        by simpa using h2, ?_, ?_⟩
      · rw [if_neg h1, if_pos h2]
        rfl
      · rw [if_neg (fun h => h1 ((hpos _).mp h)), if_pos ((hpos _).mpr h2)]
        rfl
    · refine ⟨[], by simp, ?_, ?_⟩
      · rw [if_neg h1, if_neg h2]
        rfl
      · rw [if_neg (fun h => h1 ((hpos _).mp h)), if_neg (fun h => h2 ((hpos _).mp h))]
        rfl

/-- C34 (counterexample): the unit sphere at the origin and the ray from `(0,0,-2)` along
`(0,0,1)` give two hits, at `(0,0,1)` and `(0,0,-1)`.  With the direction multiplied by
`10^-4` the discriminant `4e-8` is below `epsilon`, and one hit is returned, at the centre
`(0,0,0)` of the sphere. -/
theorem sphere_direction_scaling_counterexample :
    (Sphere.default : Sphere ℝ).intersect Libm.real ⟨![0, 0, -2], ![0, 0, 1]⟩
      = some [{ point := ![0, 0, 1], normal := ![0, 0, -1], material := Material.default,
                distance := 3 },
              { point := ![0, 0, -1], normal := ![0, 0, -1], material := Material.default,
                distance := 1 }] ∧
    (0 : ℝ) < 1 / 10000 ∧
    (Sphere.default : Sphere ℝ).intersect Libm.real
        ⟨![0, 0, -2], (1 / 10000 : ℝ) • ![0, 0, 1]⟩
      = some [{ point := ![0, 0, 0], normal := ![0, 0, 0], material := Material.default,
                distance := 2 }] := by
  refine ⟨?_, by norm_num, ?_⟩
  · rw [Sphere.intersect_zAxis_two Sphere.default 0 Transform.isShiftZ_identity (-2) 1
      (by norm_num) (by norm_num [epsilon])]
    norm_num
    rfl
  · rw [Vec.smul_z, mul_one]
    exact Sphere.default_intersect_tiny_direction

/-- C34 (amended): for a factor `k > 0` such that `sign` gives the same value on the
discriminant of the ray with the direction multiplied by `k` as on the discriminant of the
ray, both intersections return a list, the two lists have the same length, and the hits at
the same position have the same point, normal and material.  The hits come from the positive
roots `ts` of the ray and from the roots `t / k`, and the hits of a root with `t >= epsilon`
and `t / k >= epsilon` have the same distance. -/
theorem sphere_direction_scaling (s : Sphere ℝ) (ray : Ray ℝ) (k : ℝ) (hk : 0 < k)
    (hsign : sign (s.discriminant { point := ray.point, direction := k • ray.direction })
      = sign (s.discriminant ray)) :
    ∃ hits hits' : List (RayIntersection ℝ),
      s.intersect Libm.real ray = some hits ∧
      s.intersect Libm.real { point := ray.point, direction := k • ray.direction }
        = some hits' ∧
      hits'.length = hits.length ∧
      List.Forall₂
        (fun h h' : RayIntersection ℝ =>
          h'.point = h.point ∧ h'.normal = h.normal ∧ h'.material = h.material)
        hits hits' ∧
      ∃ ts : List ℝ,
        hits = ts.map (fun t => s.hitAt Libm.real ray (s.transform.applyInverseRay ray) t) ∧
        hits' = ts.map (fun t =>
          s.hitAt Libm.real { point := ray.point, direction := k • ray.direction }
            (s.transform.applyInverseRay
              { point := ray.point, direction := k • ray.direction })
            (t / k)) ∧
        ∀ t ∈ ts, 0 < t ∧
          (epsilon ≤ t → epsilon ≤ t / k →
            (s.hitAt Libm.real { point := ray.point, direction := k • ray.direction }
                (s.transform.applyInverseRay
                  { point := ray.point, direction := k • ray.direction })
                (t / k)).distance
              = (s.hitAt Libm.real ray (s.transform.applyInverseRay ray) t).distance) := by
  obtain ⟨ts, hpos, h1, h2⟩ := s.intersect_smul ray k hk hsign
  refine ⟨_, _, h1, h2, by simp, ?_, ts, rfl, rfl, ?_⟩
  · rw [List.forall₂_map_left_iff, List.forall₂_map_right_iff, List.forall₂_same]
    intro t _
    rw [s.hitAt_smul ray k hk t]
    exact ⟨rfl, rfl, rfl⟩
  · intro t ht
    refine ⟨hpos t ht, fun h3 h4 => ?_⟩
    have e : (s.hitAt Libm.real ray (s.transform.applyInverseRay ray) t).distance
        = Vec.norm Libm.real
            ((s.hitAt Libm.real ray (s.transform.applyInverseRay ray) t).point - ray.point)
          * ((sign t : Int) : ℝ) := rfl
    rw [s.hitAt_smul ray k hk t, e, (sign_eq_one_iff _).mpr h3, (sign_eq_one_iff _).mpr h4]

/-- C34 (witness): the unit sphere at the origin, the ray from `(0,0,-5)` along `(0,0,1)`
and the factor 2. -/
theorem sphere_direction_scaling_witness :
    (0 : ℝ) < 2 ∧
    sign ((Sphere.default : Sphere ℝ).discriminant
        { point := ![0, 0, -5], direction := (2 : ℝ) • ![0, 0, 1] })
      = sign ((Sphere.default : Sphere ℝ).discriminant ⟨![0, 0, -5], ![0, 0, 1]⟩) ∧
    ∃ hits hits' : List (RayIntersection ℝ),
      (Sphere.default : Sphere ℝ).intersect Libm.real ⟨![0, 0, -5], ![0, 0, 1]⟩ = some hits ∧
      (Sphere.default : Sphere ℝ).intersect Libm.real
          { point := ![0, 0, -5], direction := (2 : ℝ) • ![0, 0, 1] }
        = some hits' ∧
      hits'.length = hits.length ∧
      List.Forall₂
        (fun h h' : RayIntersection ℝ =>
          h'.point = h.point ∧ h'.normal = h.normal ∧ h'.material = h.material)
        hits hits' := by
  have hsign : sign ((Sphere.default : Sphere ℝ).discriminant
        { point := ![0, 0, -5], direction := (2 : ℝ) • ![0, 0, 1] })
      = sign ((Sphere.default : Sphere ℝ).discriminant ⟨![0, 0, -5], ![0, 0, 1]⟩) := by
    rw [Vec.smul_z, Sphere.default_discriminant_sign _ (by norm_num),
      Sphere.default_discriminant_sign _ (by norm_num)]
  obtain ⟨hits, hits', h1, h2, h3, h4, _⟩ :=
    sphere_direction_scaling Sphere.default ⟨![0, 0, -5], ![0, 0, 1]⟩ 2 (by norm_num) hsign
  exact ⟨by norm_num, hsign, hits, hits', h1, h2, h3, h4⟩

end RayTracer
